import Mathlib

/-!
# WaveSim mode controller, simulator, mapper and actuator layer

A shallow embedding of `src/WaveSim/{wavesim.c, simulator.c, mapper.c, cylinders.c, io.c}`.

Modelling conventions.

* C `int` variables are `Int`; array indices and bit numbers, which the source only ever
  uses with non-negative values, are `Nat`.
* C `double` is idealised as exact rational arithmetic (`ℚ`).
* The file-scope objects `x` and `h` are defined (without `static`, without initialiser)
  both in `wavesim.c` and in `simulator.c`; the program links only with common-symbol
  merging, so they are one object each.  Hence `sim_getstate(x)` copies `x` onto itself
  and `sim_gethstate(&h)` (whose result is discarded) leaves `h` as the simulator holds it.
* The two FIFOs are the lists of bytes that a non-blocking `read` can currently deliver.
* `msg` is a list of 80 bytes.  The source stores through `p` and at `msg[msglen]` without
  a bound; a store at index 80 or above lands outside `char msg[80]`, in whatever objects
  the linker placed behind it, which the embedding cannot tell.  The model drops such a
  store; `check_for_input_stores` lists every store with its index, so the polls on which
  model and program may differ are exactly those with a store at index 80 or above.
* `printf`, `usleep` and the device `write` calls have no effect on the modelled state.
-/

namespace WaveSim

/-! ## Constants of `wavesim.c` -/

def GS_SLEEP : Int := 0
def GS_BREATHE : Int := 1
def GS_ACTIVE : Int := 2
def GS_RIPPLE : Int := 3

def DS_DUMP : Int := 0
def DS_NODUMP : Int := 1

def LS_NORMAL : Int := 0
def LS_LOCKOUT : Int := 1

abbrev LEN : Nat := 21

def MAG_THRESH : Int := 10

/-- The line terminator, byte 10. -/
def NL : Char := Char.ofNat 10

/-- The string terminator, byte 0. -/
def NUL : Char := Char.ofNat 0

/-! ## State -/

/-- Run-time configuration: the `static double` parameters of `simulator.c`, the globals
`bias`, `thresh`, `hthresh` of `mapper.c` and `breathe_time`, `pause_time` of `wavesim.c`.
They are written once during start-up (from the environment) and only read afterwards. -/
structure Params where
  c2 : ℚ
  d : ℚ
  dt : ℚ
  hf2 : ℚ
  hd : ℚ
  hsmall : ℚ
  hverysmall : ℚ
  bias : ℚ
  thresh : ℚ
  hthresh : ℚ
  breathe_time : Int
  pause_time : Int

/-- The initialisers written in the source. -/
def default_params : Params where
  c2 := 1 / 10
  d := 1 / 10
  dt := 1 / 10
  hf2 := 1 / 10
  hd := 2 / 100
  hsmall := 3
  hverysmall := 1 / 2
  bias := -25 / 10000
  thresh := 1 / 100
  hthresh := 1
  breathe_time := 70
  pause_time := 900

/-- The globals of `simulator.c`. -/
structure Sim where
  x : Fin LEN → ℚ
  xdot : Fin LEN → ℚ
  y : Fin LEN → ℚ
  ydot : Fin LEN → ℚ
  h : ℚ
  hdot : ℚ

/-- Whole program state: the globals and function-local statics of the five files, and
the bytes pending on the two FIFOs. -/
structure State where
  coffee : Int
  global_state : Int
  dump_state : Int
  lockout_state : Int
  statecount : Int
  msg : List Char
  msglen : Nat
  hpipe : List Char
  vpipe : List Char
  vindex : Nat
  count : Int
  dir : Int
  nextdir : Int
  sim : Sim
  small : Int
  values : Fin 6 → Nat

/-! ## `io.c` -/

/-- Model of `set_o(reg, bit)`: `values[reg] |= 1 << bit`, stored back into an
`unsigned char`; registers outside `0..5` are rejected. -/
def set_o (reg bit : Nat) (values : Fin 6 → Nat) : Fin 6 → Nat :=
  if h : reg < 6 then
    Function.update values ⟨reg, h⟩ ((values ⟨reg, h⟩ ||| (1 <<< bit)) % 256)
  else values

/-- Model of `clr_o(reg, bit)`: `values[reg] &= ~(1 << bit)` on an `unsigned char`.  On a
byte, and-ing with the `int` value `~(1 << bit)` is and-ing with `0xff ^ ((1 << bit) & 0xff)`. -/
def clr_o (reg bit : Nat) (values : Fin 6 → Nat) : Fin 6 → Nat :=
  if h : reg < 6 then
    Function.update values ⟨reg, h⟩ (values ⟨reg, h⟩ &&& (255 ^^^ ((1 <<< bit) % 256)))
  else values

/-! ## `cylinders.c` -/

structure cylinder where
  outword : Nat
  outbit : Nat
  inword : Nat
  inbit : Nat

def vcylinder_list : List cylinder :=
  [ ⟨0, 0, 0, 1⟩, ⟨0, 2, 0, 3⟩, ⟨0, 4, 0, 5⟩, ⟨0, 6, 0, 7⟩,
    ⟨1, 0, 1, 1⟩, ⟨1, 2, 1, 3⟩, ⟨1, 4, 1, 5⟩, ⟨1, 6, 1, 7⟩,
    ⟨2, 0, 2, 1⟩, ⟨2, 2, 2, 3⟩,
    ⟨2, 4, 2, 5⟩, ⟨2, 6, 2, 7⟩,
    ⟨3, 0, 3, 1⟩, ⟨3, 2, 3, 3⟩, ⟨3, 4, 3, 5⟩, ⟨3, 6, 3, 7⟩,
    ⟨4, 0, 4, 1⟩, ⟨4, 2, 4, 3⟩, ⟨4, 4, 4, 5⟩, ⟨4, 6, 4, 7⟩,
    ⟨5, 0, 5, 1⟩ ]

/-- Model of `set_vcyl(cylnum, state)`: `+1` out, `-1` in, `0` stop; any other `state`
falls through all three tests.  An index outside the table (undefined in C) writes nothing. -/
def set_vcyl (cylnum : Nat) (state : Int) (values : Fin 6 → Nat) : Fin 6 → Nat :=
  match vcylinder_list[cylnum]? with
  | none => values
  | some c =>
    if state = 1 then set_o c.outword c.outbit (clr_o c.inword c.inbit values)
    else if state = -1 then set_o c.inword c.inbit (clr_o c.outword c.outbit values)
    else if state = 0 then clr_o c.outword c.outbit (clr_o c.inword c.inbit values)
    else values

def pump_on (values : Fin 6 → Nat) : Fin 6 → Nat := set_o 5 6 values

def pump_off (values : Fin 6 → Nat) : Fin 6 → Nat := clr_o 5 6 values

def power_on (values : Fin 6 → Nat) : Fin 6 → Nat := set_o 5 7 values

def power_off (values : Fin 6 → Nat) : Fin 6 → Nat := clr_o 5 7 values

/-- Model of the compiled variant of `horiz(dir, mag)` (the `#else` branch); `mag` is not
used by it. -/
def horiz (dir : Int) (_mag : Nat) (values : Fin 6 → Nat) : Fin 6 → Nat :=
  if dir = -1 then set_o 5 2 (clr_o 5 3 values)
  else if dir = 0 then clr_o 5 3 (clr_o 5 2 values)
  else if dir = 1 then set_o 5 3 (clr_o 5 2 values)
  else values

/-! ## `simulator.c` -/

/-- Model of `sim_drop_pebble`: `x[position] = energy`.  A position outside the array
(undefined in C) writes nothing. -/
def sim_drop_pebble (position : Nat) (energy : ℚ) (s : Sim) : Sim :=
  { s with x := fun i => if i.val = position then energy else s.x i }

/-- Model of `sim_tickle_horiz`: `h = energy`. -/
def sim_tickle_horiz (energy : ℚ) (s : Sim) : Sim :=
  { s with h := energy }

def h_energy (p : Params) (s : Sim) : ℚ :=
  p.hf2 * s.h * s.h + s.hdot * s.hdot

def hstate_small (p : Params) (s : Sim) : Int :=
  if h_energy p s < p.hsmall then 1 else 0

def hstate_verysmall (p : Params) (s : Sim) : Int :=
  if h_energy p s < p.hverysmall then 1 else 0

/-- Model of `laplacian(&x[i])` for an interior index `i`. -/
def laplacian (x : Fin LEN → ℚ) (i : Fin LEN) (h : 1 ≤ i.val ∧ i.val + 1 < LEN) : ℚ :=
  (x ⟨i.val + 1, h.2⟩ - x i) - (x i - x ⟨i.val - 1, by omega⟩)

/-- Model of `sim_update`.  The first loop writes `ydot[i]` for `1 ≤ i < LEN-1` only, the
second writes every `y[i]`; both read only `x` and `xdot`, so each is given pointwise.
`copy()` then moves `y`, `ydot` into `x`, `xdot`; finally the horizontal pair is stepped
through the temporaries `hdot2`, `h2`. -/
def sim_update (p : Params) (s : Sim) : Sim :=
  let ydot : Fin LEN → ℚ := fun i =>
    if h : 1 ≤ i.val ∧ i.val + 1 < LEN then
      s.xdot i + p.dt * (p.c2 * laplacian s.x i h - p.d * s.xdot i)
    else s.ydot i
  let y : Fin LEN → ℚ := fun i => s.x i + p.dt * s.xdot i
  let hdot2 := s.hdot + p.dt * (-p.hf2 * s.h - p.hd * s.hdot)
  let h2 := s.h + p.dt * s.hdot
  { x := y, xdot := ydot, y := y, ydot := ydot, h := h2, hdot := hdot2 }

/-- Model of `sim_init`'s state part: `zero` on the four arrays and `h = hdot = 0`. -/
def sim_init : Sim where
  x := fun _ => 0
  xdot := fun _ => 0
  y := fun _ => 0
  ydot := fun _ => 0
  h := 0
  hdot := 0

/-! ## `mapper.c` -/

/-- One iteration of the loop of `map_state_array`, on the pair (`values`, `small`). -/
def map_state_step (p : Params) (x : Fin LEN → ℚ) (acc : (Fin 6 → Nat) × Int) (i : Fin LEN) :
    (Fin 6 → Nat) × Int :=
  if x i + p.bias > p.thresh then (set_vcyl i.val 1 acc.1, 0)
  else if x i + p.bias < -p.thresh then (set_vcyl i.val (-1) acc.1, 0)
  else (set_vcyl i.val 0 acc.1, acc.2)

/-- Model of `map_state_array(x)`: `small = 1`, then the loop over `i = 0 .. LEN-1`. -/
def map_state_array (p : Params) (x : Fin LEN → ℚ) (s : State) : State :=
  let r := (List.finRange LEN).foldl (map_state_step p x) (s.values, 1)
  { s with values := r.1, small := r.2 }

def vstate_small (s : State) : Int := s.small

def map_hstate (p : Params) (h : ℚ) (s : State) : State :=
  if h > p.hthresh then { s with values := horiz 1 1 s.values }
  else if h < -p.hthresh then { s with values := horiz (-1) 1 s.values }
  else { s with values := horiz 0 0 s.values }

/-! ## `wavesim.c` -/

def set_ls (state : Int) (s : State) : State :=
  if state = LS_NORMAL then { s with lockout_state := LS_NORMAL }
  else if state = LS_LOCKOUT then { s with lockout_state := LS_LOCKOUT }
  else s

def set_ds (state : Int) (s : State) : State :=
  if state = DS_DUMP then { s with values := pump_off s.values, dump_state := DS_DUMP }
  else if state = DS_NODUMP then { s with values := pump_on s.values, dump_state := DS_NODUMP }
  else s

def set_gs (state : Int) (s : State) : State :=
  if s.global_state = state then s
  else if state = GS_SLEEP then
    let s1 := set_ls LS_NORMAL (set_ds DS_DUMP s)
    { s1 with values := power_off s1.values, statecount := 0, global_state := GS_SLEEP }
  else if state = GS_BREATHE then
    let s1 := set_ls LS_NORMAL (set_ds DS_DUMP s)
    { s1 with values := power_on s1.values, statecount := 0, global_state := GS_BREATHE }
  else if state = GS_ACTIVE then
    let s1 := set_ls LS_LOCKOUT (set_ds DS_NODUMP s)
    { s1 with values := power_on s1.values, statecount := 0, global_state := GS_ACTIVE }
  else if state = GS_RIPPLE then
    let s1 := set_ls LS_NORMAL (set_ds DS_DUMP s)
    { s1 with values := power_on s1.values, statecount := 0, global_state := GS_RIPPLE }
  else s

/-- The loop `while ((read(fd, p, 1) == 1) && (*p++ != '\n')) msglen++;` on the bytes
`pipe` pending on `fd`.  Returns the bytes left on the FIFO, the buffer, `p` (as an index
into `msg`) and `msglen`.  The source puts no bound on `p`: a store at an index outside
the buffer is undefined in C (it overwrites the objects behind `msg`); here it leaves the
buffer as it is, and `read_line_stores` records it. -/
def read_line : List Char → List Char → Nat → Nat → List Char × List Char × Nat × Nat
  | [], msg, p, msglen => ([], msg, p, msglen)
  | c :: rest, msg, p, msglen =>
    if c = NL then (rest, msg.set p c, p + 1, msglen)
    else read_line rest (msg.set p c) (p + 1) (msglen + 1)

/-- The stores into `msg` made by the loop of `read_line`, in program order: every byte
read, the line terminator included, is stored at `*p` before `p` advances.  An entry is
the index into `msg` paired with the byte stored there. -/
def read_line_stores : List Char → Nat → List (Nat × Char)
  | [], _ => []
  | c :: rest, p =>
    if c = NL then [(p, c)] else (p, c) :: read_line_stores rest (p + 1)

/-- Model of `check_for_input(hflag, vflag)`; the second component is the return value. -/
def check_for_input (hflag vflag : Int) (s : State) : State × Int :=
  let rh := if hflag ≠ 0 then read_line s.hpipe s.msg 0 0 else (s.hpipe, s.msg, 0, 0)
  if hflag ≠ 0 ∧ rh.2.2.2 > 0 then
    ({ s with hpipe := rh.1, msg := rh.2.1.set rh.2.2.2 NUL, msglen := rh.2.2.2 }, 1)
  else
    let rv := if vflag ≠ 0 then read_line s.vpipe rh.2.1 rh.2.2.1 rh.2.2.2
              else (s.vpipe, rh.2.1, rh.2.2.1, rh.2.2.2)
    if vflag ≠ 0 ∧ rv.2.2.2 > 0 then
      ({ s with hpipe := rh.1, vpipe := rv.1, msg := rv.2.1.set rv.2.2.2 NUL,
                msglen := rv.2.2.2 }, 1)
    else
      ({ s with hpipe := rh.1, vpipe := rv.1, msg := rv.2.1, msglen := rv.2.2.2 }, 0)

/-- The stores into `msg` made by `check_for_input(hflag, vflag)`, in program order: those
of the read loop on the horizontal FIFO, then `msg[msglen] = '\0'` if that loop counted a
byte; otherwise those of the read loop on the vertical FIFO, continuing at the same `p`,
and then `msg[msglen] = '\0'` if a byte was counted. -/
def check_for_input_stores (hflag vflag : Int) (s : State) : List (Nat × Char) :=
  let rh := if hflag ≠ 0 then read_line s.hpipe s.msg 0 0 else (s.hpipe, s.msg, 0, 0)
  let sh := if hflag ≠ 0 then read_line_stores s.hpipe 0 else []
  if hflag ≠ 0 ∧ rh.2.2.2 > 0 then sh ++ [(rh.2.2.2, NUL)]
  else
    let rv := if vflag ≠ 0 then read_line s.vpipe rh.2.1 rh.2.2.1 rh.2.2.2
              else (s.vpipe, rh.2.1, rh.2.2.1, rh.2.2.2)
    let sv := if vflag ≠ 0 then read_line_stores s.vpipe rh.2.2.1 else []
    if vflag ≠ 0 ∧ rv.2.2.2 > 0 then sh ++ sv ++ [(rv.2.2.2, NUL)] else sh ++ sv

/-- Applying a list of stores to a buffer; a store outside the buffer leaves it as it is. -/
def apply_stores (stores : List (Nat × Char)) (msg : List Char) : List Char :=
  stores.foldl (fun m w => m.set w.1 w.2) msg

/-- The C string held in a buffer: the bytes before the first NUL. -/
def c_str (msg : List Char) : List Char := msg.takeWhile (fun c => c ≠ NUL)

/-- The predicate `isspace` of the C locale. -/
def isspace (c : Char) : Bool := c.toNat = 32 || (9 ≤ c.toNat && c.toNat ≤ 13)

def isdigit (c : Char) : Bool := 48 ≤ c.toNat && c.toNat ≤ 57

def skip_space : List Char → List Char
  | [] => []
  | c :: r => if isspace c then skip_space r else c :: r

/-- Reads the longest run of decimal digits, accumulating onto `acc`. -/
def scan_digits : List Char → Nat → Nat × List Char
  | [], acc => (acc, [])
  | c :: r, acc => if isdigit c then scan_digits r (acc * 10 + (c.toNat - 48)) else (acc, c :: r)

/-- Storing a converted value into an `int`: reduction to 32-bit two's complement.  (C
leaves a conversion result that does not fit undefined.) -/
def to_int (z : Int) : Int := (z + 2147483648) % 4294967296 - 2147483648

/-- The conversion `%d` of `sscanf`: skip white space, optional sign, at least one decimal
digit.  `none` when no number is there. -/
def scan_d (s : List Char) : Option (Int × List Char) :=
  match skip_space s with
  | [] => none
  | c :: r =>
    if c = '-' then
      match r with
      | [] => none
      | c1 :: _ =>
        if isdigit c1 then some (to_int (-((scan_digits r 0).1 : Int)), (scan_digits r 0).2)
        else none
    else if c = '+' then
      match r with
      | [] => none
      | c1 :: _ =>
        if isdigit c1 then some (to_int ((scan_digits r 0).1 : Int), (scan_digits r 0).2)
        else none
    else if isdigit c then
      some (to_int ((scan_digits (c :: r) 0).1 : Int), (scan_digits (c :: r) 0).2)
    else none

/-- Model of `sscanf(msg, "C%dM%dD%d\n", &chan, &mag, &dur)` on the C string `s`.  The
arguments `chan`, `mag`, `dur` are the values the three locals hold before the call (they
are uninitialised in `do_input`); a local is overwritten only if its conversion is
reached and succeeds.  The first component is the number of locals assigned. -/
def sscanf_CMD (s : List Char) (chan mag dur : Int) : Nat × Int × Int × Int :=
  match s with
  | [] => (0, chan, mag, dur)
  | c :: r =>
    if c = 'C' then
      match scan_d r with
      | none => (0, chan, mag, dur)
      | some (vc, r1) =>
        match r1 with
        | [] => (1, vc, mag, dur)
        | m :: r2 =>
          if m = 'M' then
            match scan_d r2 with
            | none => (1, vc, mag, dur)
            | some (vm, r3) =>
              match r3 with
              | [] => (2, vc, vm, dur)
              | d :: r4 =>
                if d = 'D' then
                  match scan_d r4 with
                  | none => (2, vc, vm, dur)
                  | some (vd, _) => (3, vc, vm, vd)
                else (2, vc, vm, dur)
          else (1, vc, mag, dur)
    else (0, chan, mag, dur)

/-- Model of `do_input`.  `chan0`, `mag0`, `dur0` are the indeterminate initial contents
of the locals `chan`, `mag`, `dur`. -/
def do_input (chan0 mag0 dur0 : Int) (s : State) : State :=
  if s.msg.getD 0 NUL = 'C' then
    let r := sscanf_CMD (c_str s.msg) chan0 mag0 dur0
    let chan := r.2.1
    let mag := r.2.2.1
    if s.global_state = GS_BREATHE ∧ chan ≠ 99 ∧ mag < MAG_THRESH then s
    else if chan = 0 then
      if s.lockout_state = LS_LOCKOUT then s
      else
        let s1 := set_gs GS_RIPPLE s
        { s1 with sim := sim_drop_pebble 19 ((mag : ℚ) / 10) s1.sim }
    else if chan = 1 then
      if s.lockout_state = LS_LOCKOUT then s
      else
        let s1 := set_gs GS_RIPPLE s
        { s1 with sim := sim_drop_pebble 1 ((mag : ℚ) / 10) s1.sim }
    else if chan = 2 ∨ chan = 3 then
      if s.lockout_state = LS_LOCKOUT then s
      else
        let s1 := set_gs GS_RIPPLE s
        { s1 with sim := sim_drop_pebble 10 ((mag : ℚ) / 10) s1.sim }
    else if chan = 99 then
      let s1 := set_ls LS_LOCKOUT (set_ds DS_NODUMP (set_gs GS_ACTIVE s))
      { s1 with sim := sim_tickle_horiz (mag : ℚ) s1.sim }
    else s
  else s

/-- Model of `breathe_process`; its four `static` locals are the fields `vindex`, `count`,
`dir`, `nextdir` of the state. -/
def breathe_process (p : Params) (s : State) : State :=
  let count := s.count + 1
  if s.dir = 1 ∨ s.dir = -1 then
    if count ≥ p.breathe_time then
      { s with count := 0, nextdir := -s.dir, dir := 0,
               values := set_vcyl s.vindex 0 (horiz 0 0 s.values),
               vindex := (s.vindex + 1) % LEN }
    else { s with count := count }
  else if s.dir = 0 then
    if count ≥ p.pause_time then
      { s with count := 0, dir := s.nextdir,
               values := set_vcyl s.vindex (-1) (horiz s.nextdir 1 s.values) }
    else { s with count := count }
  else { s with count := count }

/-- The part of the `GS_ACTIVE` and `GS_RIPPLE` cases that follows event polling:
`sim_update(); sim_getstate(x); map_state_array(x); sim_gethstate(&h); map_hstate(h);`. -/
def advance_and_map (p : Params) (s : State) : State :=
  let s1 := { s with sim := sim_update p s.sim }
  let s2 := map_state_array p s1.sim.x s1
  map_hstate p s2.sim.h s2

/-- One iteration of the `while (1)` loop of `main`: the `switch` on `global_state`, then
`statecount++`.  `chan0`, `mag0`, `dur0` are the indeterminate locals of `do_input`. -/
def tick (p : Params) (chan0 mag0 dur0 : Int) (s : State) : State :=
  let t :=
    if s.global_state = GS_SLEEP then
      if s.coffee ≠ 0 then set_gs GS_BREATHE s else s
    else if s.global_state = GS_BREATHE then
      let r := check_for_input 1 1 (breathe_process p s)
      let s3 := if r.2 ≠ 0 then do_input chan0 mag0 dur0 r.1 else r.1
      if s3.coffee = 0 then set_gs GS_SLEEP s3 else s3
    else if s.global_state = GS_ACTIVE then
      let s3 := advance_and_map p s
      if hstate_small p s3.sim ≠ 0 then set_gs GS_RIPPLE s3 else s3
    else if s.global_state = GS_RIPPLE then
      let r := check_for_input 0 1 s
      let s1 := if r.2 ≠ 0 then do_input chan0 mag0 dur0 r.1 else r.1
      let s3 := advance_and_map p s1
      if hstate_verysmall p s3.sim ≠ 0 ∧ vstate_small s3 ≠ 0 then set_gs GS_BREATHE s3 else s3
    else s
  { t with statecount := t.statecount + 1 }

/-- The state in which the main loop is entered: all globals zero-initialised
(`nextdir` is initialised to 1), the simulator reset by `sim_init`, nothing pending on
the FIFOs. -/
def init_state : State where
  coffee := 0
  global_state := GS_SLEEP
  dump_state := DS_DUMP
  lockout_state := LS_NORMAL
  statecount := 0
  msg := List.replicate 80 NUL
  msglen := 0
  hpipe := []
  vpipe := []
  vindex := 0
  count := 0
  dir := 0
  nextdir := 1
  sim := sim_init
  small := 0
  values := fun _ => 0

/-- What happens outside the loop body: the signal handlers write `coffee`, and the
writers of the two FIFOs change what is pending on them. -/
def environment (coffee : Int) (hpipe vpipe : List Char) (s : State) : State :=
  { s with coffee := coffee, hpipe := hpipe, vpipe := vpipe }

/-- States of the running program at loop-iteration boundaries. -/
inductive Reachable (p : Params) : State → Prop
  | init : Reachable p init_state
  | env (coffee : Int) (hpipe vpipe : List Char) {s : State} :
      Reachable p s → Reachable p (environment coffee hpipe vpipe s)
  | tick (chan0 mag0 dur0 : Int) {s : State} :
      Reachable p s → Reachable p (tick p chan0 mag0 dur0 s)

/-- The relation between mode and interlocks that the controller maintains. -/
def ModeInv (s : State) : Prop :=
  (s.lockout_state = LS_LOCKOUT ↔ s.global_state = GS_ACTIVE)
    ∧ (s.dump_state = DS_NODUMP ↔ s.global_state = GS_ACTIVE)

/-! ## A concrete run, used to instantiate the theorems below -/

/-- The state after the wake signal is set and the loop has run once: mode Breathe. -/
def breathe_awake : State :=
  tick default_params 0 0 0 (environment 1 [] [] init_state)

/-- The state after the line `C0M50D100` arrived on the vertical FIFO in `breathe_awake`
and the loop has run once more: mode Ripple. -/
def ripple_after_pebble : State :=
  tick default_params 0 0 0 (environment 1 [] ("C0M50D100".toList ++ [NL]) breathe_awake)

/-- The state `ripple_after_pebble` with the line `C99M20D0` pending on the vertical FIFO. -/
def ripple_quake_pending : State :=
  environment 1 [] ("C99M20D0".toList ++ [NL]) ripple_after_pebble

/-- The state in which `do_input` is entered when the bytes `l` are pending on the
vertical FIFO in `breathe_awake`: the idle animation and the poll of both FIFOs have run. -/
def polled_in_breathe (l : List Char) : State :=
  (check_for_input 1 1 (breathe_process default_params (environment 1 [] l breathe_awake))).1

/-- The table of the specification: directional channel 0 goes to position 19, channel 1
to position 1, channels 2 and 3 to position 10. -/
def pebble_position (chan : Int) : Fin LEN :=
  if chan = 0 then 19 else if chan = 1 then 1 else 10

/-- The state after the line `C99M20D0` arrived on the vertical FIFO in `breathe_awake`
and the loop has run once more: mode Active. -/
def active_after_quake : State :=
  tick default_params 0 0 0 (environment 1 [] ("C99M20D0".toList ++ [NL]) breathe_awake)

/-- The all-zero simulator state with horizontal displacement 1 and horizontal velocity 0. -/
def horiz_at_rest_displaced : Sim := sim_tickle_horiz 1 sim_init

/-- Parameters with stiffness 1 and both energy thresholds 1, for which the horizontal
state `h = 1`, `hdot = 0` has energy exactly at the thresholds. -/
def unit_threshold_params : Params :=
  { default_params with hf2 := 1, hsmall := 1, hverysmall := 1 }

/-- The vertical command of the specification for one value, in the encoding of
`set_vcyl`: `1` Extend, `-1` Retract, `0` Neutral. -/
def spec_vertical_command (bias thresh v : ℚ) : Int :=
  if v + bias > thresh then 1 else if v + bias < -thresh then -1 else 0

/-- The command sequence of the specification's `map_vertical`: for each position
`0, 1, .., LEN-1` in turn, the position paired with its command. -/
def spec_map_vertical (bias thresh : ℚ) (state : Fin LEN → ℚ) : List (Nat × Int) :=
  (List.finRange LEN).map (fun i => (i.val, spec_vertical_command bias thresh (state i)))

/-- Issuing a sequence of vertical commands to the actuator layer, one `set_vcyl` each. -/
def issue_vertical (cmds : List (Nat × Int)) (values : Fin 6 → Nat) : Fin 6 → Nat :=
  cmds.foldl (fun v c => set_vcyl c.1 c.2 v) values

/-- The horizontal command of the specification, as the arguments of `horiz`: direction
`1` Right, `-1` Left, `0` Center, and the magnitude (1 for a drive, 0 for Center). -/
def spec_horizontal_command (hthresh h : ℚ) : Int × Nat :=
  if h > hthresh then (1, 1) else if h < -hthresh then (-1, 1) else (0, 0)

/-! ## Canonical event lines -/

/-- The character of a decimal digit `d < 10`. -/
def digit_char (d : Nat) : Char := Char.ofNat (48 + d)

/-- The decimal digits of `n`, most significant first, without leading zeros (`[0]` for 0). -/
def dec_digits (n : Nat) : List Nat :=
  if n = 0 then [0] else (Nat.digits 10 n).reverse

/-- Canonical decimal rendering of an integer, as `printf("%d")` writes it: a minus sign
for negative numbers, then the digits without leading zeros. -/
def show_int (z : Int) : List Char :=
  if z < 0 then '-' :: (dec_digits z.natAbs).map digit_char
  else (dec_digits z.natAbs).map digit_char

/-- The line `C<chan>M<mag>D<dur>` of the event protocol, without its line terminator (as
`check_for_input` leaves it in `msg`). -/
def serialize_event (chan mag dur : Int) : List Char :=
  'C' :: (show_int chan ++ ('M' :: (show_int mag ++ ('D' :: show_int dur))))

/-! ## Actuator calls as sequences of register writes -/

/-- One call of `set_o` or `clr_o`. -/
inductive Write where
  | set (reg bit : Nat)
  | clr (reg bit : Nat)

def apply_write (w : Write) (values : Fin 6 → Nat) : Fin 6 → Nat :=
  match w with
  | Write.set reg bit => set_o reg bit values
  | Write.clr reg bit => clr_o reg bit values

def apply_writes (ws : List Write) (values : Fin 6 → Nat) : Fin 6 → Nat :=
  ws.foldl (fun v w => apply_write w v) values

/-- The register writes of `set_vcyl(cylnum, state)`, in program order. -/
def set_vcyl_writes (cylnum : Nat) (state : Int) : List Write :=
  match vcylinder_list[cylnum]? with
  | none => []
  | some c =>
    if state = 1 then [Write.clr c.inword c.inbit, Write.set c.outword c.outbit]
    else if state = -1 then [Write.clr c.outword c.outbit, Write.set c.inword c.inbit]
    else if state = 0 then [Write.clr c.inword c.inbit, Write.clr c.outword c.outbit]
    else []

/-- The register writes of `horiz(dir, mag)`, in program order. -/
def horiz_writes (dir : Int) : List Write :=
  if dir = -1 then [Write.clr 5 3, Write.set 5 2]
  else if dir = 0 then [Write.clr 5 2, Write.clr 5 3]
  else if dir = 1 then [Write.clr 5 2, Write.set 5 3]
  else []

/-- A call `set_vcyl(cylnum, state)` with a cylinder index inside the table, or a call
`horiz(dir, mag)`. -/
inductive ActuatorCall where
  | vcyl (cylnum : Fin LEN) (state : Int)
  | hz (dir : Int) (mag : Nat)

def run_call (c : ActuatorCall) (values : Fin 6 → Nat) : Fin 6 → Nat :=
  match c with
  | ActuatorCall.vcyl cylnum state => set_vcyl cylnum.val state values
  | ActuatorCall.hz dir mag => horiz dir mag values

def run_calls (cs : List ActuatorCall) (values : Fin 6 → Nat) : Fin 6 → Nat :=
  cs.foldl (fun v c => run_call c v) values

def call_writes (c : ActuatorCall) : List Write :=
  match c with
  | ActuatorCall.vcyl cylnum state => set_vcyl_writes cylnum.val state
  | ActuatorCall.hz dir _ => horiz_writes dir

/-- The output bit `bit` of register `reg`. -/
def out_bit (values : Fin 6 → Nat) (reg bit : Nat) : Bool :=
  if h : reg < 6 then (values ⟨reg, h⟩).testBit bit else false

/-- The pairs of opposite outputs: extend and retract of each vertical cylinder, and the
two horizontal directions (register 5, bits 2 and 3). -/
def actuator_pairs : List cylinder := vcylinder_list ++ [⟨5, 2, 5, 3⟩]

/-- No pair of opposite outputs has both bits set. -/
def SafeOutputs (values : Fin 6 → Nat) : Prop :=
  ∀ c ∈ actuator_pairs,
    ¬ (out_bit values c.outword c.outbit = true ∧ out_bit values c.inword c.inbit = true)

/-- The lockout state is one of its two values. -/
def LockoutRange (s : State) : Prop :=
  s.lockout_state = LS_NORMAL ∨ s.lockout_state = LS_LOCKOUT

/-- The state in which `do_input` is entered when the bytes `l` are pending on the
vertical FIFO in `ripple_after_pebble`: the poll of the vertical FIFO has run. -/
def polled_in_ripple (l : List Char) : State :=
  (check_for_input 0 1 (environment 1 [] l ripple_after_pebble)).1

/-! ## Array accesses -/

/-- The arguments of the `sim_drop_pebble` call that `do_input` makes, if it makes one:
the same tests as `do_input`, returning the position and energy instead of the state. -/
def do_input_inject (chan0 mag0 dur0 : Int) (s : State) : Option (Nat × ℚ) :=
  if s.msg.getD 0 NUL = 'C' then
    let r := sscanf_CMD (c_str s.msg) chan0 mag0 dur0
    let chan := r.2.1
    let mag := r.2.2.1
    if s.global_state = GS_BREATHE ∧ chan ≠ 99 ∧ mag < MAG_THRESH then none
    else if chan = 0 then
      if s.lockout_state = LS_LOCKOUT then none else some (19, (mag : ℚ) / 10)
    else if chan = 1 then
      if s.lockout_state = LS_LOCKOUT then none else some (1, (mag : ℚ) / 10)
    else if chan = 2 ∨ chan = 3 then
      if s.lockout_state = LS_LOCKOUT then none else some (10, (mag : ℚ) / 10)
    else none
  else none

/-- The array indices that one `sim_update` reads or writes, in program order.  First
loop, `i = 1 .. LEN-2`: `laplacian(&x[i])` reads `x[i+1]`, `x[i]`, `x[i]`, `x[i-1]`, then
`xdot[i]` is read twice and `ydot[i]` written.  Second loop, `i = 0 .. LEN-1`: `x[i]`,
`xdot[i]` read, `y[i]` written.  `copy()`, `i = 0 .. LEN-1`: `y[i]`, `x[i]`, `ydot[i]`,
`xdot[i]`. -/
def sim_update_accesses : List Int :=
  ((List.range (LEN - 2)).map (fun (k : Nat) => (k : Int) + 1)).flatMap
      (fun i => [i + 1, i, i, i - 1, i, i, i])
    ++ ((List.range LEN).map (fun (k : Nat) => (k : Int))).flatMap (fun i => [i, i, i])
    ++ ((List.range LEN).map (fun (k : Nat) => (k : Int))).flatMap (fun i => [i, i, i, i])

/-! ## The idle animation, pulse by pulse -/

/-- The argument of `horiz` in pulse number `j` of the idle animation: `1` (Right) in the
even pulses, `-1` (Left) in the odd ones. -/
def pulse_dir (j : Nat) : Int := if j % 2 = 0 then 1 else -1

/-- The statics of `breathe_process` at the start of pulse number `j`: between pulses
(`dir = 0`), the step counter at zero, the position index at `j mod LEN` and the next
direction that of pulse `j`. -/
def IdleStart (s : State) (j : Nat) : Prop :=
  s.dir = 0 ∧ s.count = 0 ∧ s.vindex = j % LEN ∧ s.nextdir = pulse_dir j

/-! ## Bit-level behaviour of the output registers -/

theorem testBit_set_byte (v bit k : Nat) :
    ((v ||| (1 <<< bit)) % 256).testBit k
      = (decide (k < 8) && (v.testBit k || decide (bit = k))) := by
  have h256 : (256 : Nat) = 2 ^ 8 := by norm_num
  rw [h256, Nat.testBit_mod_two_pow, Nat.testBit_or, Nat.one_shiftLeft, Nat.testBit_two_pow]

theorem testBit_clr_byte (v bit k : Nat) :
    (v &&& (255 ^^^ ((1 <<< bit) % 256))).testBit k
      = (v.testBit k && (decide (k < 8) && !decide (bit = k))) := by
  have h256 : (256 : Nat) = 2 ^ 8 := by norm_num
  have h255 : (255 : Nat) = 2 ^ 8 - 1 := by norm_num
  rw [Nat.testBit_and, Nat.testBit_xor, h256, Nat.testBit_mod_two_pow, h255,
    Nat.testBit_two_pow_sub_one, Nat.one_shiftLeft, Nat.testBit_two_pow]
  by_cases h1 : k < 8 <;> by_cases h2 : bit = k <;> simp [h1, h2]

theorem testBit_set_o (reg bit : Nat) (values : Fin 6 → Nat) (r : Fin 6) (k : Nat) :
    (set_o reg bit values r).testBit k
      = if r.val = reg then (decide (k < 8) && ((values r).testBit k || decide (bit = k)))
        else (values r).testBit k := by
  unfold set_o
  by_cases hr : r.val = reg
  · subst hr
    rw [dif_pos r.isLt, if_pos rfl]
    simp only [Fin.eta, Function.update_same, testBit_set_byte]
  · by_cases h : reg < 6
    · have hne : r ≠ ⟨reg, h⟩ := fun e => hr (by rw [e])
      simp only [dif_pos h, if_neg hr, Function.update_noteq hne]
    · simp only [dif_neg h, if_neg hr]

theorem testBit_clr_o (reg bit : Nat) (values : Fin 6 → Nat) (r : Fin 6) (k : Nat) :
    (clr_o reg bit values r).testBit k
      = if r.val = reg then ((values r).testBit k && (decide (k < 8) && !decide (bit = k)))
        else (values r).testBit k := by
  unfold clr_o
  by_cases hr : r.val = reg
  · subst hr
    rw [dif_pos r.isLt, if_pos rfl]
    simp only [Fin.eta, Function.update_same, testBit_clr_byte]
  · by_cases h : reg < 6
    · have hne : r ≠ ⟨reg, h⟩ := fun e => hr (by rw [e])
      simp only [dif_pos h, if_neg hr, Function.update_noteq hne]
    · simp only [dif_neg h, if_neg hr]

/-! ## Mode transitions: `set_gs` -/

theorem val_five : ((5 : Fin 6) : Nat) = 5 := rfl

theorem set_gs_sleep (s : State) (h : s.global_state ≠ GS_SLEEP) :
    (set_gs GS_SLEEP s).global_state = GS_SLEEP ∧ (set_gs GS_SLEEP s).dump_state = DS_DUMP
      ∧ (set_gs GS_SLEEP s).lockout_state = LS_NORMAL
      ∧ ((set_gs GS_SLEEP s).values 5).testBit 6 = false
      ∧ ((set_gs GS_SLEEP s).values 5).testBit 7 = false := by
  have h0 : ¬ s.global_state = 0 := h
  simp [set_gs, h0, val_five, set_ls, set_ds, power_off, pump_off, testBit_clr_o, GS_SLEEP,
    DS_DUMP, LS_NORMAL]

theorem set_gs_breathe (s : State) (h : s.global_state ≠ GS_BREATHE) :
    (set_gs GS_BREATHE s).global_state = GS_BREATHE
      ∧ (set_gs GS_BREATHE s).dump_state = DS_DUMP
      ∧ (set_gs GS_BREATHE s).lockout_state = LS_NORMAL
      ∧ ((set_gs GS_BREATHE s).values 5).testBit 6 = false
      ∧ ((set_gs GS_BREATHE s).values 5).testBit 7 = true := by
  have h0 : ¬ s.global_state = 1 := h
  simp [set_gs, h0, val_five, set_ls, set_ds, power_on, pump_off, testBit_clr_o, testBit_set_o,
    GS_SLEEP, GS_BREATHE, DS_DUMP, LS_NORMAL]

theorem set_gs_active (s : State) (h : s.global_state ≠ GS_ACTIVE) :
    (set_gs GS_ACTIVE s).global_state = GS_ACTIVE
      ∧ (set_gs GS_ACTIVE s).dump_state = DS_NODUMP
      ∧ (set_gs GS_ACTIVE s).lockout_state = LS_LOCKOUT
      ∧ ((set_gs GS_ACTIVE s).values 5).testBit 6 = true
      ∧ ((set_gs GS_ACTIVE s).values 5).testBit 7 = true := by
  have h0 : ¬ s.global_state = 2 := h
  simp [set_gs, h0, val_five, set_ls, set_ds, power_on, pump_on, testBit_set_o,
    GS_SLEEP, GS_BREATHE, GS_ACTIVE, DS_DUMP, DS_NODUMP, LS_NORMAL, LS_LOCKOUT]

theorem set_gs_ripple (s : State) (h : s.global_state ≠ GS_RIPPLE) :
    (set_gs GS_RIPPLE s).global_state = GS_RIPPLE
      ∧ (set_gs GS_RIPPLE s).dump_state = DS_DUMP
      ∧ (set_gs GS_RIPPLE s).lockout_state = LS_NORMAL
      ∧ ((set_gs GS_RIPPLE s).values 5).testBit 6 = false
      ∧ ((set_gs GS_RIPPLE s).values 5).testBit 7 = true := by
  have h0 : ¬ s.global_state = 3 := h
  simp [set_gs, h0, val_five, set_ls, set_ds, power_on, pump_off, testBit_clr_o, testBit_set_o,
    GS_SLEEP, GS_BREATHE, GS_ACTIVE, GS_RIPPLE, DS_DUMP, LS_NORMAL]

/-- The fields `set_gs` never writes. -/
theorem set_gs_frame (t : Int) (s : State) :
    (set_gs t s).sim = s.sim ∧ (set_gs t s).coffee = s.coffee ∧ (set_gs t s).hpipe = s.hpipe
      ∧ (set_gs t s).vpipe = s.vpipe ∧ (set_gs t s).msg = s.msg
      ∧ (set_gs t s).small = s.small := by
  unfold set_gs
  split_ifs <;> simp [set_ls, set_ds, LS_NORMAL, LS_LOCKOUT, DS_DUMP, DS_NODUMP]

theorem set_gs_global_state (t : Int) (s : State)
    (ht : t = GS_SLEEP ∨ t = GS_BREATHE ∨ t = GS_ACTIVE ∨ t = GS_RIPPLE) :
    (set_gs t s).global_state = t := by
  unfold set_gs
  split_ifs with h1 h2 h3 h4 h5
  · exact h1
  · exact h2.symm
  · exact h3.symm
  · exact h4.symm
  · exact h5.symm
  · rcases ht with h | h | h | h <;> contradiction

theorem set_gs_modeInv (t : Int) (s : State) (h : ModeInv s) : ModeInv (set_gs t s) := by
  unfold set_gs
  split_ifs <;>
    simp_all [ModeInv, set_ls, set_ds, GS_SLEEP, GS_BREATHE, GS_ACTIVE, GS_RIPPLE,
      LS_NORMAL, LS_LOCKOUT, DS_DUMP, DS_NODUMP]

/-! ## What the sub-steps of a tick leave alone -/

theorem breathe_process_frame (p : Params) (s : State) :
    (breathe_process p s).global_state = s.global_state
      ∧ (breathe_process p s).dump_state = s.dump_state
      ∧ (breathe_process p s).lockout_state = s.lockout_state
      ∧ (breathe_process p s).sim = s.sim
      ∧ (breathe_process p s).coffee = s.coffee
      ∧ (breathe_process p s).hpipe = s.hpipe
      ∧ (breathe_process p s).vpipe = s.vpipe := by
  unfold breathe_process
  dsimp only
  split_ifs <;> simp

theorem check_for_input_frame (hflag vflag : Int) (s : State) :
    (check_for_input hflag vflag s).1.global_state = s.global_state
      ∧ (check_for_input hflag vflag s).1.dump_state = s.dump_state
      ∧ (check_for_input hflag vflag s).1.lockout_state = s.lockout_state
      ∧ (check_for_input hflag vflag s).1.sim = s.sim
      ∧ (check_for_input hflag vflag s).1.coffee = s.coffee
      ∧ (check_for_input hflag vflag s).1.values = s.values := by
  unfold check_for_input
  dsimp only
  split_ifs <;> simp

theorem advance_and_map_frame (p : Params) (s : State) :
    (advance_and_map p s).global_state = s.global_state
      ∧ (advance_and_map p s).dump_state = s.dump_state
      ∧ (advance_and_map p s).lockout_state = s.lockout_state
      ∧ (advance_and_map p s).sim = sim_update p s.sim
      ∧ (advance_and_map p s).coffee = s.coffee
      ∧ (advance_and_map p s).hpipe = s.hpipe
      ∧ (advance_and_map p s).vpipe = s.vpipe := by
  unfold advance_and_map map_hstate map_state_array
  dsimp only
  split_ifs <;> simp

theorem do_input_coffee (c m d : Int) (s : State) : (do_input c m d s).coffee = s.coffee := by
  unfold do_input
  dsimp only
  split_ifs <;> simp [set_ls, set_ds, LS_LOCKOUT, LS_NORMAL, DS_NODUMP, DS_DUMP, (set_gs_frame _ s).2.1]

theorem do_input_modeInv (c m d : Int) (s : State) (h : ModeInv s) :
    ModeInv (do_input c m d s) := by
  have hr := set_gs_modeInv GS_RIPPLE s h
  have ha := set_gs_global_state GS_ACTIVE s (by simp)
  unfold do_input
  dsimp only
  split_ifs
  all_goals first
    | exact h
    | exact hr
    | simp [ModeInv, set_ls, set_ds, LS_LOCKOUT, LS_NORMAL, DS_NODUMP, DS_DUMP, ha]

/-! ## The four cases of the `switch` in the main loop -/

theorem tick_sleep (p : Params) (c m d : Int) (s : State) (h : s.global_state = GS_SLEEP) :
    tick p c m d s =
      { (if s.coffee ≠ 0 then set_gs GS_BREATHE s else s) with
        statecount := (if s.coffee ≠ 0 then set_gs GS_BREATHE s else s).statecount + 1 } := by
  unfold tick
  simp only [h, if_true]

theorem tick_breathe (p : Params) (c m d : Int) (s : State) (h : s.global_state = GS_BREATHE)
    (s3 : State)
    (h3 : s3 = if (check_for_input 1 1 (breathe_process p s)).2 ≠ 0
             then do_input c m d (check_for_input 1 1 (breathe_process p s)).1
             else (check_for_input 1 1 (breathe_process p s)).1) :
    tick p c m d s =
      { (if s3.coffee = 0 then set_gs GS_SLEEP s3 else s3) with
        statecount := (if s3.coffee = 0 then set_gs GS_SLEEP s3 else s3).statecount + 1 } := by
  have h1 : ¬ GS_BREATHE = GS_SLEEP := by decide
  subst h3
  unfold tick
  simp only [h1, h, if_true, if_false]

theorem tick_active (p : Params) (c m d : Int) (s : State) (h : s.global_state = GS_ACTIVE) :
    tick p c m d s =
      { (if hstate_small p (advance_and_map p s).sim ≠ 0
           then set_gs GS_RIPPLE (advance_and_map p s) else advance_and_map p s) with
        statecount := (if hstate_small p (advance_and_map p s).sim ≠ 0
           then set_gs GS_RIPPLE (advance_and_map p s) else advance_and_map p s).statecount + 1 } := by
  have h1 : ¬ GS_ACTIVE = GS_SLEEP := by decide
  have h2 : ¬ GS_ACTIVE = GS_BREATHE := by decide
  unfold tick
  simp only [h1, h2, h, if_true, if_false]

theorem tick_ripple (p : Params) (c m d : Int) (s : State) (h : s.global_state = GS_RIPPLE)
    (s3 : State)
    (h3 : s3 = advance_and_map p (if (check_for_input 0 1 s).2 ≠ 0
             then do_input c m d (check_for_input 0 1 s).1 else (check_for_input 0 1 s).1)) :
    tick p c m d s =
      { (if hstate_verysmall p s3.sim ≠ 0 ∧ vstate_small s3 ≠ 0
           then set_gs GS_BREATHE s3 else s3) with
        statecount := (if hstate_verysmall p s3.sim ≠ 0 ∧ vstate_small s3 ≠ 0
           then set_gs GS_BREATHE s3 else s3).statecount + 1 } := by
  have h1 : ¬ GS_RIPPLE = GS_SLEEP := by decide
  have h2 : ¬ GS_RIPPLE = GS_BREATHE := by decide
  have h4 : ¬ GS_RIPPLE = GS_ACTIVE := by decide
  subst h3
  unfold tick
  simp only [h1, h2, h4, h, if_true, if_false]

theorem tick_other (p : Params) (c m d : Int) (s : State) (h1 : s.global_state ≠ GS_SLEEP)
    (h2 : s.global_state ≠ GS_BREATHE) (h3 : s.global_state ≠ GS_ACTIVE)
    (h4 : s.global_state ≠ GS_RIPPLE) :
    tick p c m d s = { s with statecount := s.statecount + 1 } := by
  unfold tick
  simp only [h1, h2, h3, h4, if_false]

theorem modeInv_of_fields (s t : State) (h : ModeInv s) (h1 : t.global_state = s.global_state)
    (h2 : t.dump_state = s.dump_state) (h3 : t.lockout_state = s.lockout_state) : ModeInv t := by
  unfold ModeInv at h ⊢
  rw [h1, h2, h3]
  exact h

theorem tick_modeInv (p : Params) (c m d : Int) (s : State) (h : ModeInv s) :
    ModeInv (tick p c m d s) := by
  have hadv : ∀ t : State, ModeInv t → ModeInv (advance_and_map p t) := fun t ht =>
    modeInv_of_fields t _ ht (advance_and_map_frame p t).1 (advance_and_map_frame p t).2.1
      (advance_and_map_frame p t).2.2.1
  have hpoll : ∀ (a b : Int) (t : State), ModeInv t → ModeInv (check_for_input a b t).1 :=
    fun a b t ht =>
      modeInv_of_fields t _ ht (check_for_input_frame a b t).1 (check_for_input_frame a b t).2.1
        (check_for_input_frame a b t).2.2.1
  have hite : ∀ (P : Prop) [Decidable P] (a b : State), ModeInv a → ModeInv b →
      ModeInv (if P then a else b) := by
    intro P _ a b ha hb
    split_ifs
    · exact ha
    · exact hb
  by_cases h1 : s.global_state = GS_SLEEP
  · rw [tick_sleep p c m d s h1]
    exact modeInv_of_fields _ _ (hite _ _ _ (set_gs_modeInv _ _ h) h) rfl rfl rfl
  by_cases h2 : s.global_state = GS_BREATHE
  · rw [tick_breathe p c m d s h2 _ rfl]
    have hb : ModeInv (breathe_process p s) :=
      modeInv_of_fields s _ h (breathe_process_frame p s).1 (breathe_process_frame p s).2.1
        (breathe_process_frame p s).2.2.1
    have h3 := hite ((check_for_input 1 1 (breathe_process p s)).2 ≠ 0) _ _
      (do_input_modeInv c m d _ (hpoll 1 1 _ hb)) (hpoll 1 1 _ hb)
    exact modeInv_of_fields _ _ (hite _ _ _ (set_gs_modeInv _ _ h3) h3) rfl rfl rfl
  by_cases h3 : s.global_state = GS_ACTIVE
  · rw [tick_active p c m d s h3]
    exact modeInv_of_fields _ _ (hite _ _ _ (set_gs_modeInv _ _ (hadv _ h)) (hadv _ h))
      rfl rfl rfl
  by_cases h4 : s.global_state = GS_RIPPLE
  · rw [tick_ripple p c m d s h4 _ rfl]
    have h5 := hadv _ (hite ((check_for_input 0 1 s).2 ≠ 0) _ _
      (do_input_modeInv c m d _ (hpoll 0 1 _ h)) (hpoll 0 1 _ h))
    exact modeInv_of_fields _ _ (hite _ _ _ (set_gs_modeInv _ _ h5) h5) rfl rfl rfl
  · rw [tick_other p c m d s h1 h2 h3 h4]
    exact modeInv_of_fields _ _ h rfl rfl rfl

theorem reachable_modeInv (p : Params) (s : State) (h : Reachable p s) : ModeInv s := by
  induction h with
  | init => simp [ModeInv, init_state, LS_NORMAL, LS_LOCKOUT, GS_SLEEP, GS_ACTIVE, DS_DUMP,
      DS_NODUMP]
  | env coffee hpipe vpipe _ ih => exact ih
  | tick c m d _ ih => exact tick_modeInv p c m d _ ih

/-- C1: in every state reachable from the initial state by main-loop iterations, whatever
the wake signal and the FIFO contents are set to in between, lockout is `LS_LOCKOUT`
exactly when the mode is `GS_ACTIVE`, and the dump valve is `DS_NODUMP` exactly when the
mode is `GS_ACTIVE`. -/
theorem C1_interlocks_track_mode (p : Params) (s : State) (h : Reachable p s) :
    (s.lockout_state = LS_LOCKOUT ↔ s.global_state = GS_ACTIVE)
      ∧ (s.dump_state = DS_NODUMP ↔ s.global_state = GS_ACTIVE) := by
  exact reachable_modeInv p s h

theorem C1_interlocks_track_mode_witness :
    Reachable default_params active_after_quake
      ∧ active_after_quake.global_state = GS_ACTIVE
      ∧ active_after_quake.lockout_state = LS_LOCKOUT
      ∧ active_after_quake.dump_state = DS_NODUMP
      ∧ (active_after_quake.lockout_state = LS_LOCKOUT
          ↔ active_after_quake.global_state = GS_ACTIVE)
      ∧ (active_after_quake.dump_state = DS_NODUMP
          ↔ active_after_quake.global_state = GS_ACTIVE) :=
  ⟨Reachable.tick _ _ _ (Reachable.env _ _ _ (Reachable.tick _ _ _
      (Reachable.env _ _ _ Reachable.init))),
    rfl, rfl, rfl,
    C1_interlocks_track_mode default_params active_after_quake
      (Reachable.tick _ _ _ (Reachable.env _ _ _ (Reachable.tick _ _ _
        (Reachable.env _ _ _ Reachable.init))))⟩

/-- C2: for every current mode and every target mode different from it, `set_gs target`
ends in mode `target` with the interlocks of the table: Sleep gives Dump, Normal, power
off; Breathe gives Dump, Normal, power on; Active gives NoDump, Lockout, power on; Ripple
gives Dump, Normal, power on.  Power is bit 7 of output register 5; the dump valve is the
variable `dump_state`, and with it the pump bit (bit 6 of register 5) is cleared for Dump
and set for NoDump. -/
theorem C2_set_gs_table (s : State) (target : Int) (hne : s.global_state ≠ target) :
    (target = GS_SLEEP →
        (set_gs target s).global_state = GS_SLEEP ∧ (set_gs target s).dump_state = DS_DUMP
          ∧ (set_gs target s).lockout_state = LS_NORMAL
          ∧ ((set_gs target s).values 5).testBit 6 = false
          ∧ ((set_gs target s).values 5).testBit 7 = false)
      ∧ (target = GS_BREATHE →
        (set_gs target s).global_state = GS_BREATHE ∧ (set_gs target s).dump_state = DS_DUMP
          ∧ (set_gs target s).lockout_state = LS_NORMAL
          ∧ ((set_gs target s).values 5).testBit 6 = false
          ∧ ((set_gs target s).values 5).testBit 7 = true)
      ∧ (target = GS_ACTIVE →
        (set_gs target s).global_state = GS_ACTIVE ∧ (set_gs target s).dump_state = DS_NODUMP
          ∧ (set_gs target s).lockout_state = LS_LOCKOUT
          ∧ ((set_gs target s).values 5).testBit 6 = true
          ∧ ((set_gs target s).values 5).testBit 7 = true)
      ∧ (target = GS_RIPPLE →
        (set_gs target s).global_state = GS_RIPPLE ∧ (set_gs target s).dump_state = DS_DUMP
          ∧ (set_gs target s).lockout_state = LS_NORMAL
          ∧ ((set_gs target s).values 5).testBit 6 = false
          ∧ ((set_gs target s).values 5).testBit 7 = true) := by
  refine ⟨?_, ?_, ?_, ?_⟩
  · intro ht; subst ht; exact set_gs_sleep s hne
  · intro ht; subst ht; exact set_gs_breathe s hne
  · intro ht; subst ht; exact set_gs_active s hne
  · intro ht; subst ht; exact set_gs_ripple s hne

theorem C2_set_gs_table_witness :
    init_state.global_state ≠ GS_ACTIVE
      ∧ (set_gs GS_ACTIVE init_state).global_state = GS_ACTIVE
      ∧ (set_gs GS_ACTIVE init_state).dump_state = DS_NODUMP
      ∧ (set_gs GS_ACTIVE init_state).lockout_state = LS_LOCKOUT
      ∧ ((set_gs GS_ACTIVE init_state).values 5).testBit 6 = true
      ∧ ((set_gs GS_ACTIVE init_state).values 5).testBit 7 = true :=
  ⟨by decide, (C2_set_gs_table init_state GS_ACTIVE (by decide)).2.2.1 rfl⟩

/-- C4: starting in mode Sleep with the wake signal set, one iteration of the main loop
yields mode Breathe with power on (bit 7 of register 5), dump valve Dump and lockout
Normal. -/
theorem C4_wake_from_sleep (p : Params) (c m d : Int) (s : State)
    (hs : s.global_state = GS_SLEEP) (hw : s.coffee ≠ 0) :
    (tick p c m d s).global_state = GS_BREATHE
      ∧ ((tick p c m d s).values 5).testBit 7 = true
      ∧ (tick p c m d s).dump_state = DS_DUMP
      ∧ (tick p c m d s).lockout_state = LS_NORMAL := by
  have hne : s.global_state ≠ GS_BREATHE := by rw [hs]; decide
  have h := set_gs_breathe s hne
  rw [tick_sleep p c m d s hs]
  simp only [hw, ne_eq, not_false_eq_true, if_true]
  exact ⟨h.1, h.2.2.2.2, h.2.1, h.2.2.1⟩

theorem C4_wake_from_sleep_witness :
    (environment 1 [] [] init_state).global_state = GS_SLEEP
      ∧ (environment 1 [] [] init_state).coffee ≠ 0
      ∧ (tick default_params 0 0 0 (environment 1 [] [] init_state)).global_state = GS_BREATHE
      ∧ ((tick default_params 0 0 0 (environment 1 [] [] init_state)).values 5).testBit 7 = true
      ∧ (tick default_params 0 0 0 (environment 1 [] [] init_state)).dump_state = DS_DUMP
      ∧ (tick default_params 0 0 0 (environment 1 [] [] init_state)).lockout_state = LS_NORMAL :=
  ⟨rfl, by decide,
    C4_wake_from_sleep default_params 0 0 0 (environment 1 [] [] init_state) rfl (by decide)⟩

/-- After `do_input` the mode is the old one, or `GS_RIPPLE`, or `GS_ACTIVE` with channel
99 read from a message that starts with `C`. -/
theorem do_input_global_state_cases (c m d : Int) (s : State) :
    (do_input c m d s).global_state = s.global_state
      ∨ (do_input c m d s).global_state = GS_RIPPLE
      ∨ ((do_input c m d s).global_state = GS_ACTIVE
          ∧ (sscanf_CMD (c_str s.msg) c m d).2.1 = 99) := by
  have hr := set_gs_global_state GS_RIPPLE s (by simp)
  have ha := set_gs_global_state GS_ACTIVE s (by simp)
  unfold do_input
  dsimp only
  split_ifs with h1 h2 h3 h4 h5 h6 h7 h8 h9 <;>
    simp [set_ls, set_ds, LS_LOCKOUT, LS_NORMAL, DS_NODUMP, DS_DUMP, hr, ha]
  exact Or.inr (Or.inr h9)

theorem sscanf_CMD_head (l : List Char) (c m d : Int) (h : (sscanf_CMD l c m d).1 ≠ 0) :
    l.head? = some 'C' := by
  cases l with
  | nil => simp [sscanf_CMD] at h
  | cons a r =>
    by_cases ha : a = 'C'
    · simp [ha]
    · simp [sscanf_CMD, ha] at h

theorem msg_starts_with_C (msg : List Char) (c m d : Int)
    (h : (sscanf_CMD (c_str msg) c m d).1 ≠ 0) : msg.getD 0 NUL = 'C' := by
  have hh := sscanf_CMD_head _ c m d h
  cases msg with
  | nil => simp [c_str] at hh
  | cons a r =>
    by_cases ha : a = NUL
    · simp [c_str, ha] at hh
    · simpa [c_str, ha] using hh

/-- C5: in mode Breathe, for every event whose channel is not 99 and whose magnitude is
below the gate `MAG_THRESH = 10`, `do_input` returns the state it was given: mode,
interlocks, displacements and velocities (and everything else) are unchanged. -/
theorem C5_breathe_gate (c0 m0 d0 : Int) (s : State) (chan mag dur : Int)
    (hb : s.global_state = GS_BREATHE)
    (hev : sscanf_CMD (c_str s.msg) c0 m0 d0 = (3, chan, mag, dur))
    (hc : chan ≠ 99) (hm : mag < 10) :
    do_input c0 m0 d0 s = s := by
  unfold do_input
  dsimp only
  rw [hev]
  simp [hb, hc, hm, MAG_THRESH]

theorem C5_breathe_gate_witness :
    (polled_in_breathe ("C0M5D100".toList ++ [NL])).global_state = GS_BREATHE
      ∧ sscanf_CMD (c_str (polled_in_breathe ("C0M5D100".toList ++ [NL])).msg) 7 8 9
          = (3, 0, 5, 100)
      ∧ do_input 7 8 9 (polled_in_breathe ("C0M5D100".toList ++ [NL]))
          = polled_in_breathe ("C0M5D100".toList ++ [NL]) :=
  ⟨rfl, by decide,
    C5_breathe_gate 7 8 9 (polled_in_breathe ("C0M5D100".toList ++ [NL])) 0 5 100 rfl
      (by decide) (by decide) (by decide)⟩

/-- C6: in mode Breathe (a reachable state `s0` of the main loop in mode Breathe, after the
idle animation and the poll of both FIFOs), for every event with channel in {0,1,2,3} and
magnitude at least 10, `do_input` sets the mode to Ripple and overwrites the displacement
at the mapped position (0 to 19, 1 to 1, 2 and 3 to 10) with `mag / 10`; every other
displacement, every velocity, the buffers `y`, `ydot` and the horizontal pair are
unchanged. -/
theorem C6_breathe_pebble (p : Params) (c0 m0 d0 : Int) (s0 s : State) (chan mag dur : Int)
    (hr : Reachable p s0) (hb : s0.global_state = GS_BREATHE)
    (hs : s = (check_for_input 1 1 (breathe_process p s0)).1)
    (hev : sscanf_CMD (c_str s.msg) c0 m0 d0 = (3, chan, mag, dur))
    (hc : chan = 0 ∨ chan = 1 ∨ chan = 2 ∨ chan = 3) (hm : 10 ≤ mag) :
    (do_input c0 m0 d0 s).global_state = GS_RIPPLE
      ∧ (do_input c0 m0 d0 s).sim.x (pebble_position chan) = (mag : ℚ) / 10
      ∧ (∀ i : Fin LEN, i ≠ pebble_position chan → (do_input c0 m0 d0 s).sim.x i = s.sim.x i)
      ∧ (do_input c0 m0 d0 s).sim.xdot = s.sim.xdot
      ∧ (do_input c0 m0 d0 s).sim.y = s.sim.y
      ∧ (do_input c0 m0 d0 s).sim.ydot = s.sim.ydot
      ∧ (do_input c0 m0 d0 s).sim.h = s.sim.h
      ∧ (do_input c0 m0 d0 s).sim.hdot = s.sim.hdot := by
  have hinv := reachable_modeInv p s0 hr
  have hgs : s.global_state = GS_BREATHE := by
    rw [hs, (check_for_input_frame 1 1 _).1, (breathe_process_frame p s0).1, hb]
  have hlk : ¬ s.lockout_state = LS_LOCKOUT := by
    rw [hs, (check_for_input_frame 1 1 _).2.2.1, (breathe_process_frame p s0).2.2.1]
    intro hl
    have := hinv.1.mp hl
    rw [hb] at this
    exact absurd this (by decide)
  have h0 : s.msg.getD 0 NUL = 'C' := msg_starts_with_C s.msg c0 m0 d0 (by rw [hev]; simp)
  have h19 : ((19 : Fin LEN) : Nat) = 19 := rfl
  have h10 : ((10 : Fin LEN) : Nat) = 10 := rfl
  have h1 : ((1 : Fin LEN) : Nat) = 1 := rfl
  have hgate : ¬ mag < 10 := not_lt.mpr hm
  have hrip := set_gs_global_state GS_RIPPLE s (by simp)
  have hsim := (set_gs_frame GS_RIPPLE s).1
  unfold do_input
  rw [if_pos h0]
  dsimp only
  rw [hev]
  dsimp only
  rcases hc with h | h | h | h <;> subst h <;>
    simp [hgs, hlk, hgate, MAG_THRESH, hrip, hsim, sim_drop_pebble, pebble_position,
      Fin.ext_iff, h19, h10, h1] <;>
    exact fun i hi hi2 => absurd hi2 hi

theorem C6_breathe_pebble_witness :
    Reachable default_params (environment 1 [] ("C0M50D100".toList ++ [NL]) breathe_awake)
      ∧ (environment 1 [] ("C0M50D100".toList ++ [NL]) breathe_awake).global_state = GS_BREATHE
      ∧ sscanf_CMD (c_str (polled_in_breathe ("C0M50D100".toList ++ [NL])).msg) 0 0 0
          = (3, 0, 50, 100)
      ∧ (do_input 0 0 0 (polled_in_breathe ("C0M50D100".toList ++ [NL]))).global_state
          = GS_RIPPLE
      ∧ (do_input 0 0 0 (polled_in_breathe ("C0M50D100".toList ++ [NL]))).sim.x 19 = 5 := by
  have hreach : Reachable default_params
      (environment 1 [] ("C0M50D100".toList ++ [NL]) breathe_awake) :=
    Reachable.env _ _ _ (Reachable.tick _ _ _ (Reachable.env _ _ _ Reachable.init))
  have h := C6_breathe_pebble default_params 0 0 0
    (environment 1 [] ("C0M50D100".toList ++ [NL]) breathe_awake)
    (polled_in_breathe ("C0M50D100".toList ++ [NL])) 0 50 100 hreach rfl rfl (by decide)
    (Or.inl rfl) (by decide)
  refine ⟨hreach, rfl, by decide, h.1, ?_⟩
  have hp : pebble_position 0 = 19 := rfl
  have hx := h.2.1
  rw [hp] at hx
  rw [hx]
  norm_num

/-- C7: in mode Breathe, for every event on channel 99 and every magnitude `mag` (also
below the gate of 10), `do_input` sets the mode to Active, lockout to Lockout, the dump
valve to NoDump (pump bit set) with power on, and the horizontal displacement to `mag`;
the vertical field (displacements, velocities and the buffers `y`, `ydot`) and the
horizontal velocity are unchanged. -/
theorem C7_breathe_quake (c0 m0 d0 : Int) (s : State) (mag dur : Int)
    (hb : s.global_state = GS_BREATHE)
    (hev : sscanf_CMD (c_str s.msg) c0 m0 d0 = (3, 99, mag, dur)) :
    (do_input c0 m0 d0 s).global_state = GS_ACTIVE
      ∧ (do_input c0 m0 d0 s).lockout_state = LS_LOCKOUT
      ∧ (do_input c0 m0 d0 s).dump_state = DS_NODUMP
      ∧ (do_input c0 m0 d0 s).sim.h = (mag : ℚ)
      ∧ (do_input c0 m0 d0 s).sim.x = s.sim.x
      ∧ (do_input c0 m0 d0 s).sim.xdot = s.sim.xdot
      ∧ (do_input c0 m0 d0 s).sim.y = s.sim.y
      ∧ (do_input c0 m0 d0 s).sim.ydot = s.sim.ydot
      ∧ (do_input c0 m0 d0 s).sim.hdot = s.sim.hdot
      ∧ ((do_input c0 m0 d0 s).values 5).testBit 6 = true
      ∧ ((do_input c0 m0 d0 s).values 5).testBit 7 = true := by
  have h0 : s.msg.getD 0 NUL = 'C' := msg_starts_with_C s.msg c0 m0 d0 (by rw [hev]; simp)
  have hne : s.global_state ≠ GS_ACTIVE := by rw [hb]; decide
  have ha := set_gs_active s hne
  have hsim := (set_gs_frame GS_ACTIVE s).1
  have hgs : ¬ (s.global_state = GS_BREATHE ∧ (99 : Int) ≠ 99 ∧ mag < MAG_THRESH) :=
    fun h => h.2.1 rfl
  unfold do_input
  rw [if_pos h0]
  dsimp only
  rw [hev]
  dsimp only
  rw [if_neg hgs]
  simp [set_ls, set_ds, LS_LOCKOUT, LS_NORMAL, DS_NODUMP, DS_DUMP, ha.1, ha.2.2.2.2, hsim,
    sim_tickle_horiz, pump_on, testBit_set_o, val_five]

theorem C7_breathe_quake_witness :
    (polled_in_breathe ("C99M20D0".toList ++ [NL])).global_state = GS_BREATHE
      ∧ sscanf_CMD (c_str (polled_in_breathe ("C99M20D0".toList ++ [NL])).msg) 0 0 0
          = (3, 99, 20, 0)
      ∧ (do_input 0 0 0 (polled_in_breathe ("C99M20D0".toList ++ [NL]))).global_state
          = GS_ACTIVE
      ∧ (do_input 0 0 0 (polled_in_breathe ("C99M20D0".toList ++ [NL]))).lockout_state
          = LS_LOCKOUT
      ∧ (do_input 0 0 0 (polled_in_breathe ("C99M20D0".toList ++ [NL]))).dump_state
          = DS_NODUMP
      ∧ (do_input 0 0 0 (polled_in_breathe ("C99M20D0".toList ++ [NL]))).sim.h = 20 := by
  have h := C7_breathe_quake 0 0 0 (polled_in_breathe ("C99M20D0".toList ++ [NL])) 20 0 rfl
    (by decide)
  refine ⟨rfl, by decide, h.1, h.2.1, h.2.2.1, ?_⟩
  rw [h.2.2.2.1]
  norm_num

/-! ## Active and Ripple iterations -/

theorem hstate_small_cases (p : Params) (s : Sim) :
    (hstate_small p s = 1 ∧ h_energy p s < p.hsmall)
      ∨ (hstate_small p s = 0 ∧ ¬ h_energy p s < p.hsmall) := by
  unfold hstate_small
  split_ifs with h
  · exact Or.inl ⟨rfl, h⟩
  · exact Or.inr ⟨rfl, h⟩

theorem hstate_verysmall_cases (p : Params) (s : Sim) :
    (hstate_verysmall p s = 1 ∧ h_energy p s < p.hverysmall)
      ∨ (hstate_verysmall p s = 0 ∧ ¬ h_energy p s < p.hverysmall) := by
  unfold hstate_verysmall
  split_ifs with h
  · exact Or.inl ⟨rfl, h⟩
  · exact Or.inr ⟨rfl, h⟩

/-- The flag `small` after the loop of `map_state_array` over the indices `l`. -/
theorem map_state_fold_small (p : Params) (x : Fin LEN → ℚ) (l : List (Fin LEN))
    (acc : (Fin 6 → Nat) × Int) :
    (l.foldl (map_state_step p x) acc).2 ≠ 0
      ↔ acc.2 ≠ 0 ∧ ∀ i ∈ l, ¬ x i + p.bias > p.thresh ∧ ¬ x i + p.bias < -p.thresh := by
  induction l generalizing acc with
  | nil => simp
  | cons a r ih =>
    rw [List.foldl_cons, ih]
    unfold map_state_step
    by_cases h1 : x a + p.bias > p.thresh
    · simp [h1]
    · by_cases h2 : x a + p.bias < -p.thresh
      · simp [h1, h2]
      · simp [h1, h2]
        exact fun _ _ => ⟨not_lt.mp h1, not_lt.mp h2⟩

theorem map_state_array_small (p : Params) (x : Fin LEN → ℚ) (s : State) :
    vstate_small (map_state_array p x s) ≠ 0
      ↔ ∀ i : Fin LEN, ¬ x i + p.bias > p.thresh ∧ ¬ x i + p.bias < -p.thresh := by
  unfold vstate_small map_state_array
  dsimp only
  rw [map_state_fold_small]
  simp [List.mem_finRange]

theorem advance_and_map_small (p : Params) (s : State) :
    vstate_small (advance_and_map p s) ≠ 0
      ↔ ∀ i : Fin LEN, ¬ (sim_update p s.sim).x i + p.bias > p.thresh
          ∧ ¬ (sim_update p s.sim).x i + p.bias < -p.thresh := by
  rw [← map_state_array_small p (sim_update p s.sim).x { s with sim := sim_update p s.sim }]
  unfold advance_and_map map_hstate vstate_small
  dsimp only
  split_ifs <;> rfl

/-- C8: in mode Active one iteration of the main loop consumes no byte from either FIFO,
performs exactly one `sim_update`, then maps the vertical field and the horizontal
displacement of the post-update simulator state to the outputs, and ends in mode Ripple
if `hstate_small` holds on the post-update state and in mode Active otherwise.  `mapped`
is the state after `sim_update`, `map_state_array` and `map_hstate`; on the transition to
Ripple `set_gs` then clears the pump bit and sets the power bit. -/
theorem C8_active_tick (p : Params) (c m d : Int) (s mapped : State)
    (h : s.global_state = GS_ACTIVE)
    (hmap : mapped = map_hstate p (sim_update p s.sim).h
      (map_state_array p (sim_update p s.sim).x { s with sim := sim_update p s.sim })) :
    (tick p c m d s).hpipe = s.hpipe ∧ (tick p c m d s).vpipe = s.vpipe
      ∧ (tick p c m d s).sim = sim_update p s.sim
      ∧ (tick p c m d s).small = mapped.small
      ∧ (hstate_small p (sim_update p s.sim) = 1 →
          (tick p c m d s).global_state = GS_RIPPLE
            ∧ (tick p c m d s).values = power_on (pump_off mapped.values))
      ∧ (hstate_small p (sim_update p s.sim) ≠ 1 →
          (tick p c m d s).global_state = GS_ACTIVE
            ∧ (tick p c m d s).values = mapped.values) := by
  have hm : mapped = advance_and_map p s := by rw [hmap]; rfl
  have hf := advance_and_map_frame p s
  have hg := set_gs_frame GS_RIPPLE (advance_and_map p s)
  have hne : (advance_and_map p s).global_state ≠ GS_RIPPLE := by rw [hf.1, h]; decide
  have hne3 : ¬ (advance_and_map p s).global_state = 3 := hne
  have hr := set_gs_ripple (advance_and_map p s) hne
  rw [tick_active p c m d s h, hf.2.2.2.1, hm]
  rcases hstate_small_cases p (sim_update p s.sim) with ⟨h1, _⟩ | ⟨h1, _⟩
  · rw [h1]
    simp only [ne_eq, one_ne_zero, not_false_eq_true, if_true, not_true_eq_false,
      false_implies, true_implies, and_true]
    refine ⟨?_, ?_, ?_, ?_, hr.1, ?_⟩
    · rw [hg.2.2.1, hf.2.2.2.2.2.1]
    · rw [hg.2.2.2.1, hf.2.2.2.2.2.2]
    · rw [hg.1, hf.2.2.2.1]
    · rw [hg.2.2.2.2.2]
    · simp [set_gs, hne3, set_ls, set_ds, GS_SLEEP, GS_BREATHE, GS_ACTIVE, GS_RIPPLE, DS_DUMP,
        LS_NORMAL]
  · rw [h1]
    simp only [ne_eq, not_true_eq_false, if_false, zero_ne_one, false_implies,
      not_false_eq_true, true_implies, true_and, and_true]
    exact ⟨hf.2.2.2.2.2.1, hf.2.2.2.2.2.2, hf.2.2.2.1, by rw [hf.1, h]⟩

theorem C8_active_tick_witness :
    active_after_quake.global_state = GS_ACTIVE
      ∧ (tick default_params 0 0 0 active_after_quake).hpipe = active_after_quake.hpipe
      ∧ (tick default_params 0 0 0 active_after_quake).vpipe = active_after_quake.vpipe
      ∧ (tick default_params 0 0 0 active_after_quake).sim
          = sim_update default_params active_after_quake.sim
      ∧ (tick default_params 0 0 0 active_after_quake).global_state = GS_ACTIVE := by
  have h := C8_active_tick default_params 0 0 0 active_after_quake _ rfl rfl
  refine ⟨rfl, h.1, h.2.1, h.2.2.1, (h.2.2.2.2.2 ?_).1⟩
  have hh : active_after_quake.sim.h = 20 := by
    have : active_after_quake.sim.h = ((20 : Int) : ℚ) := rfl
    rw [this]; norm_num
  have hhd : active_after_quake.sim.hdot = 0 := rfl
  unfold hstate_small h_energy sim_update
  simp only [hh, hhd]
  norm_num [default_params]

/-- C9: in mode Ripple, when the poll of the vertical FIFO returns no message, one
iteration of the main loop ends in mode Breathe if and only if, on the simulator state
after `sim_update`, `hstate_verysmall` holds and every vertical position maps to Neutral
(neither `x[i] + bias > thresh` nor `x[i] + bias < -thresh`); otherwise the mode stays
Ripple. -/
theorem C9_ripple_settles (p : Params) (c m d : Int) (s : State)
    (h : s.global_state = GS_RIPPLE) (hn : (check_for_input 0 1 s).2 = 0) :
    ((tick p c m d s).global_state = GS_BREATHE
        ↔ hstate_verysmall p (sim_update p s.sim) = 1
          ∧ ∀ i : Fin LEN, ¬ (sim_update p s.sim).x i + p.bias > p.thresh
              ∧ ¬ (sim_update p s.sim).x i + p.bias < -p.thresh)
      ∧ ((tick p c m d s).global_state ≠ GS_BREATHE → (tick p c m d s).global_state = GS_RIPPLE)
    := by
  have hc := check_for_input_frame 0 1 s
  have hf := advance_and_map_frame p (check_for_input 0 1 s).1
  have hsm := advance_and_map_small p (check_for_input 0 1 s).1
  rw [hc.2.2.2.1] at hsm
  have hsim : (advance_and_map p (check_for_input 0 1 s).1).sim = sim_update p s.sim := by
    rw [hf.2.2.2.1, hc.2.2.2.1]
  have hgs : (advance_and_map p (check_for_input 0 1 s).1).global_state = GS_RIPPLE := by
    rw [hf.1, hc.1, h]
  have hb := set_gs_global_state GS_BREATHE (advance_and_map p (check_for_input 0 1 s).1)
    (by simp)
  have hs3 : advance_and_map p (check_for_input 0 1 s).1
      = advance_and_map p (if (check_for_input 0 1 s).2 ≠ 0
          then do_input c m d (check_for_input 0 1 s).1 else (check_for_input 0 1 s).1) := by
    rw [if_neg (by rw [hn]; simp)]
  rw [tick_ripple p c m d s h _ hs3, hsim]
  have hvs : hstate_verysmall p (sim_update p s.sim) ≠ 0
      ↔ hstate_verysmall p (sim_update p s.sim) = 1 := by
    rcases hstate_verysmall_cases p (sim_update p s.sim) with ⟨h1, _⟩ | ⟨h1, _⟩ <;>
      rw [h1] <;> simp
  by_cases hcond : hstate_verysmall p (sim_update p s.sim) ≠ 0
      ∧ vstate_small (advance_and_map p (check_for_input 0 1 s).1) ≠ 0
  · rw [if_pos hcond]
    refine ⟨⟨fun _ => ⟨hvs.mp hcond.1, hsm.mp hcond.2⟩, fun _ => hb⟩, fun hne => absurd hb hne⟩
  · rw [if_neg hcond]
    refine ⟨⟨fun hbr => ?_, fun hx => absurd ⟨hvs.mpr hx.1, hsm.mpr hx.2⟩ hcond⟩,
      fun _ => hgs⟩
    have hbr2 : (advance_and_map p (check_for_input 0 1 s).1).global_state = GS_BREATHE := hbr
    rw [hgs] at hbr2
    exact absurd hbr2 (by decide)

theorem C9_ripple_settles_witness :
    ripple_after_pebble.global_state = GS_RIPPLE
      ∧ (check_for_input 0 1 ripple_after_pebble).2 = 0
      ∧ ((tick default_params 0 0 0 ripple_after_pebble).global_state = GS_BREATHE
        ↔ hstate_verysmall default_params (sim_update default_params ripple_after_pebble.sim)
            = 1
          ∧ ∀ i : Fin LEN,
              ¬ (sim_update default_params ripple_after_pebble.sim).x i + default_params.bias
                  > default_params.thresh
              ∧ ¬ (sim_update default_params ripple_after_pebble.sim).x i + default_params.bias
                  < -default_params.thresh) :=
  ⟨rfl, rfl, (C9_ripple_settles default_params 0 0 0 ripple_after_pebble rfl rfl).1⟩

/-- C10: in mode Breathe, an iteration of the main loop during which the wake signal is
clear ends in mode Sleep with power off (bit 7 of register 5 clear), dump valve Dump
(pump bit clear) and lockout Normal, whatever is pending on the two FIFOs, that is,
whether or not an event was consumed and acted on in that iteration. -/
theorem C10_breathe_to_sleep (p : Params) (c m d : Int) (s : State)
    (hb : s.global_state = GS_BREATHE) (hc : s.coffee = 0) :
    (tick p c m d s).global_state = GS_SLEEP
      ∧ ((tick p c m d s).values 5).testBit 7 = false
      ∧ (tick p c m d s).dump_state = DS_DUMP
      ∧ ((tick p c m d s).values 5).testBit 6 = false
      ∧ (tick p c m d s).lockout_state = LS_NORMAL := by
  have hbp := breathe_process_frame p s
  have hcf := check_for_input_frame 1 1 (breathe_process p s)
  have hpc : (check_for_input 1 1 (breathe_process p s)).1.coffee = 0 := by
    rw [hcf.2.2.2.2.1, hbp.2.2.2.2.1, hc]
  have hpg : (check_for_input 1 1 (breathe_process p s)).1.global_state = GS_BREATHE := by
    rw [hcf.1, hbp.1, hb]
  have key : ∀ s3 : State,
      s3 = (if (check_for_input 1 1 (breathe_process p s)).2 ≠ 0
             then do_input c m d (check_for_input 1 1 (breathe_process p s)).1
             else (check_for_input 1 1 (breathe_process p s)).1) →
      s3.coffee = 0 ∧ s3.global_state ≠ GS_SLEEP := by
    intro s3 h3
    by_cases hr : (check_for_input 1 1 (breathe_process p s)).2 ≠ 0
    · rw [if_pos hr] at h3
      subst h3
      refine ⟨by rw [do_input_coffee, hpc], ?_⟩
      rcases do_input_global_state_cases c m d (check_for_input 1 1 (breathe_process p s)).1
        with h1 | h1 | h1
      · rw [h1, hpg]; decide
      · rw [h1]; decide
      · rw [h1.1]; decide
    · rw [if_neg hr] at h3
      subst h3
      exact ⟨hpc, by rw [hpg]; decide⟩
  have hk := key _ rfl
  rw [tick_breathe p c m d s hb _ rfl, if_pos hk.1]
  have hsl := set_gs_sleep _ hk.2
  exact ⟨hsl.1, hsl.2.2.2.2, hsl.2.1, hsl.2.2.2.1, hsl.2.2.1⟩

theorem C10_breathe_to_sleep_witness :
    (environment 0 [] ("C0M50D100".toList ++ [NL]) breathe_awake).global_state = GS_BREATHE
      ∧ (environment 0 [] ("C0M50D100".toList ++ [NL]) breathe_awake).coffee = 0
      ∧ (tick default_params 0 0 0
          (environment 0 [] ("C0M50D100".toList ++ [NL]) breathe_awake)).global_state = GS_SLEEP
      ∧ ((tick default_params 0 0 0
          (environment 0 [] ("C0M50D100".toList ++ [NL]) breathe_awake)).values 5).testBit 7
          = false
      ∧ (tick default_params 0 0 0
          (environment 0 [] ("C0M50D100".toList ++ [NL]) breathe_awake)).dump_state = DS_DUMP
      ∧ ((tick default_params 0 0 0
          (environment 0 [] ("C0M50D100".toList ++ [NL]) breathe_awake)).values 5).testBit 6
          = false
      ∧ (tick default_params 0 0 0
          (environment 0 [] ("C0M50D100".toList ++ [NL]) breathe_awake)).lockout_state
          = LS_NORMAL :=
  ⟨rfl, rfl, C10_breathe_to_sleep default_params 0 0 0
    (environment 0 [] ("C0M50D100".toList ++ [NL]) breathe_awake) rfl rfl⟩

/-! ## `set_gs` on the current mode -/

/-- C11: `set_gs` called with the current mode returns the state unchanged (mode, dump
valve, lockout, `statecount`, every output register and everything else), and calling
`set_gs t` twice in a row gives the same state as calling it once, for every `t`. -/
theorem C11_set_gs_idempotent (s : State) (t : Int) :
    set_gs s.global_state s = s ∧ set_gs t (set_gs t s) = set_gs t s := by
  have h1 : ∀ u : State, set_gs u.global_state u = u := by
    intro u
    unfold set_gs
    rw [if_pos rfl]
  refine ⟨h1 s, ?_⟩
  by_cases ht : t = GS_SLEEP ∨ t = GS_BREATHE ∨ t = GS_ACTIVE ∨ t = GS_RIPPLE
  · have hg := set_gs_global_state t s ht
    have := h1 (set_gs t s)
    rw [hg] at this
    exact this
  · have hid : ∀ u : State, set_gs t u = u := by
      intro u
      unfold set_gs
      split_ifs with a b c d e
      · rfl
      · exact absurd (Or.inl b) ht
      · exact absurd (Or.inr (Or.inl c)) ht
      · exact absurd (Or.inr (Or.inr (Or.inl d))) ht
      · exact absurd (Or.inr (Or.inr (Or.inr e))) ht
      · rfl
    rw [hid s]
    exact hid s

/-! ## The simulator step -/

/-- C13: for every simulator state and every interior index `i` (`1 ≤ i ≤ LEN - 2`), one
`sim_update` gives the new velocity `v[i] + dt*(c2*((x[i+1]-x[i]) - (x[i]-x[i-1])) - d*v[i])`
and the new displacement `x[i] + dt*v[i]`, with `x` and `v` the values before the step. -/
theorem C13_interior_step (p : Params) (s : Sim) (i : Fin LEN)
    (h : 1 ≤ i.val ∧ i.val + 1 < LEN) :
    (sim_update p s).xdot i
        = s.xdot i + p.dt * (p.c2 * ((s.x ⟨i.val + 1, h.2⟩ - s.x i)
            - (s.x i - s.x ⟨i.val - 1, by omega⟩)) - p.d * s.xdot i)
      ∧ (sim_update p s).x i = s.x i + p.dt * s.xdot i := by
  unfold sim_update
  simp only [dif_pos h, laplacian, and_self]

theorem C13_interior_step_witness :
    (1 ≤ (10 : Fin LEN).val ∧ (10 : Fin LEN).val + 1 < LEN)
      ∧ (sim_update default_params (sim_drop_pebble 10 5 sim_init)).xdot 10
          = (sim_drop_pebble 10 5 sim_init).xdot 10 + default_params.dt
            * (default_params.c2 * (((sim_drop_pebble 10 5 sim_init).x 11
                  - (sim_drop_pebble 10 5 sim_init).x 10)
                - ((sim_drop_pebble 10 5 sim_init).x 10 - (sim_drop_pebble 10 5 sim_init).x 9))
              - default_params.d * (sim_drop_pebble 10 5 sim_init).xdot 10)
      ∧ (sim_update default_params (sim_drop_pebble 10 5 sim_init)).x 10
          = (sim_drop_pebble 10 5 sim_init).x 10
            + default_params.dt * (sim_drop_pebble 10 5 sim_init).xdot 10 :=
  ⟨by decide, C13_interior_step default_params (sim_drop_pebble 10 5 sim_init) 10 (by decide)⟩

/-- C14: for every horizontal pair `(h, hdot)`, one `sim_update` gives
`hdot' = hdot + dt*(-hf2*h - hd*hdot)` and `h' = h + dt*hdot`, both from the values before
the step. -/
theorem C14_horizontal_step (p : Params) (s : Sim) :
    (sim_update p s).hdot = s.hdot + p.dt * (-p.hf2 * s.h - p.hd * s.hdot)
      ∧ (sim_update p s).h = s.h + p.dt * s.hdot := by
  unfold sim_update
  exact ⟨rfl, rfl⟩

/-- C20: `sim_drop_pebble position magnitude` with `position < LEN` makes the displacement
at `position` equal to `magnitude` whatever it was before, and leaves every other
displacement, every velocity, the buffers `y`, `ydot` and the horizontal pair unchanged. -/
theorem C20_drop_pebble_frame (s : Sim) (position : Nat) (magnitude : ℚ)
    (h : position < LEN) :
    (sim_drop_pebble position magnitude s).x ⟨position, h⟩ = magnitude
      ∧ (∀ i : Fin LEN, i.val ≠ position → (sim_drop_pebble position magnitude s).x i = s.x i)
      ∧ (sim_drop_pebble position magnitude s).xdot = s.xdot
      ∧ (sim_drop_pebble position magnitude s).y = s.y
      ∧ (sim_drop_pebble position magnitude s).ydot = s.ydot
      ∧ (sim_drop_pebble position magnitude s).h = s.h
      ∧ (sim_drop_pebble position magnitude s).hdot = s.hdot := by
  unfold sim_drop_pebble
  refine ⟨by simp, ?_, rfl, rfl, rfl, rfl, rfl⟩
  intro i hi
  simp [hi]

theorem C20_drop_pebble_frame_witness :
    19 < LEN
      ∧ (sim_drop_pebble 19 5 (sim_drop_pebble 19 3 sim_init)).x 19 = 5
      ∧ (∀ i : Fin LEN, i.val ≠ 19 →
          (sim_drop_pebble 19 5 (sim_drop_pebble 19 3 sim_init)).x i
            = (sim_drop_pebble 19 3 sim_init).x i) :=
  ⟨by decide,
    (C20_drop_pebble_frame (sim_drop_pebble 19 3 sim_init) 19 5 (by decide)).1,
    (C20_drop_pebble_frame (sim_drop_pebble 19 3 sim_init) 19 5 (by decide)).2.1⟩

/-! ## Horizontal energy across one step -/

theorem boundary_index (i : Fin LEN) (h : ¬ (1 ≤ i.val ∧ i.val + 1 < LEN)) :
    i = 0 ∨ i = 20 := by
  have hi : i.val < 21 := i.isLt
  rcases Nat.lt_or_ge i.val 1 with h0 | h1
  · left
    exact Fin.ext (by simpa using h0)
  · right
    apply Fin.ext
    have h2 : ¬ i.val + 1 < 21 := fun h3 => h ⟨h1, h3⟩
    show i.val = 20
    omega

theorem sim_update_x (p : Params) (s : Sim) (i : Fin LEN) :
    (sim_update p s).x i = s.x i + p.dt * s.xdot i := rfl

theorem sim_update_xdot_interior (p : Params) (s : Sim) (i : Fin LEN)
    (h : 1 ≤ i.val ∧ i.val + 1 < LEN) :
    (sim_update p s).xdot i
      = s.xdot i + p.dt * (p.c2 * ((s.x ⟨i.val + 1, h.2⟩ - s.x i)
          - (s.x i - s.x ⟨i.val - 1, by omega⟩)) - p.d * s.xdot i) := by
  unfold sim_update
  simp only [dif_pos h, laplacian]

theorem sim_update_xdot_boundary (p : Params) (s : Sim) (i : Fin LEN)
    (h : ¬ (1 ≤ i.val ∧ i.val + 1 < LEN)) :
    (sim_update p s).xdot i = s.ydot i := by
  unfold sim_update
  simp only [dif_neg h]

theorem sim_update_ydot (p : Params) (s : Sim) : (sim_update p s).ydot = (sim_update p s).xdot :=
  rfl

/-- C18: starting from the all-zero state `sim_init`, after `sim_drop_pebble pos m` at an
interior position (`1 ≤ pos ≤ LEN - 2`) and one `sim_update`, at every index other than
`pos - 1`, `pos` and `pos + 1` the displacement is the same as before the `sim_update` and
the velocity is zero. -/
theorem C18_stencil_locality (p : Params) (pos : Nat) (m : ℚ) (i : Fin LEN)
    (_hpos : 1 ≤ pos ∧ pos ≤ LEN - 2)
    (hi : i.val ≠ pos - 1 ∧ i.val ≠ pos ∧ i.val ≠ pos + 1) :
    (sim_update p (sim_drop_pebble pos m sim_init)).x i = (sim_drop_pebble pos m sim_init).x i
      ∧ (sim_update p (sim_drop_pebble pos m sim_init)).xdot i = 0 := by
  have hv : ∀ k, (sim_drop_pebble pos m sim_init).xdot k = 0 := fun _ => rfl
  have hyd : ∀ k, (sim_drop_pebble pos m sim_init).ydot k = 0 := fun _ => rfl
  have hx : ∀ k : Fin LEN, k.val ≠ pos → (sim_drop_pebble pos m sim_init).x k = 0 := by
    intro k hk
    unfold sim_drop_pebble
    simp [hk, sim_init]
  constructor
  · rw [sim_update_x, hv i]
    ring
  · by_cases hint : 1 ≤ i.val ∧ i.val + 1 < LEN
    · rw [sim_update_xdot_interior p _ i hint, hv i, hx i hi.2.1,
        hx ⟨i.val + 1, hint.2⟩ (by show i.val + 1 ≠ pos; omega),
        hx ⟨i.val - 1, by omega⟩ (by show i.val - 1 ≠ pos; omega)]
      ring
    · rw [sim_update_xdot_boundary p _ i hint]
      exact hyd i

theorem C18_stencil_locality_witness :
    (1 ≤ 10 ∧ 10 ≤ LEN - 2)
      ∧ ((12 : Fin LEN).val ≠ 10 - 1 ∧ (12 : Fin LEN).val ≠ 10 ∧ (12 : Fin LEN).val ≠ 10 + 1)
      ∧ (sim_update default_params (sim_drop_pebble 10 5 sim_init)).x 12
          = (sim_drop_pebble 10 5 sim_init).x 12
      ∧ (sim_update default_params (sim_drop_pebble 10 5 sim_init)).xdot 12 = 0 :=
  ⟨by decide, by decide,
    C18_stencil_locality default_params 10 5 12 (by decide) (by decide)⟩

/-! ## Bits 6 and 7 of register 5 and the actuator calls -/

/-- No entry of the cylinder table uses bits 2..7 of register 5. -/
theorem vcylinder_list_reg5 :
    ∀ c ∈ vcylinder_list, (c.outword = 5 → c.outbit ≤ 1) ∧ (c.inword = 5 → c.inbit ≤ 1) := by
  decide

theorem set_o_high_bits (reg bit k : Nat) (values : Fin 6 → Nat) (hk : k = 6 ∨ k = 7)
    (hb : reg = 5 → bit ≤ 3) :
    (set_o reg bit values 5).testBit k = ((values 5).testBit k) := by
  rw [testBit_set_o, val_five]
  split_ifs with h
  · have h1 := hb h.symm
    have h2 : ¬ bit = k := by omega
    have h3 : k < 8 := by omega
    simp [h2, h3]
  · rfl

theorem clr_o_high_bits (reg bit k : Nat) (values : Fin 6 → Nat) (hk : k = 6 ∨ k = 7)
    (hb : reg = 5 → bit ≤ 3) :
    (clr_o reg bit values 5).testBit k = ((values 5).testBit k) := by
  rw [testBit_clr_o, val_five]
  split_ifs with h
  · have h1 := hb h.symm
    have h2 : ¬ bit = k := by omega
    have h3 : k < 8 := by omega
    simp [h2, h3]
  · rfl

theorem set_vcyl_high_bits (cylnum : Nat) (state : Int) (values : Fin 6 → Nat) (k : Nat)
    (hk : k = 6 ∨ k = 7) :
    (set_vcyl cylnum state values 5).testBit k = (values 5).testBit k := by
  unfold set_vcyl
  cases hc : vcylinder_list[cylnum]? with
  | none => rfl
  | some c =>
    have hmem := vcylinder_list_reg5 c (List.getElem?_mem hc)
    have ho : c.outword = 5 → c.outbit ≤ 3 := fun h => le_trans (hmem.1 h) (by decide)
    have hi : c.inword = 5 → c.inbit ≤ 3 := fun h => le_trans (hmem.2 h) (by decide)
    dsimp only
    split_ifs
    · rw [set_o_high_bits _ _ _ _ hk ho, clr_o_high_bits _ _ _ _ hk hi]
    · rw [set_o_high_bits _ _ _ _ hk hi, clr_o_high_bits _ _ _ _ hk ho]
    · rw [clr_o_high_bits _ _ _ _ hk ho, clr_o_high_bits _ _ _ _ hk hi]
    · rfl

theorem horiz_high_bits (dir : Int) (mag : Nat) (values : Fin 6 → Nat) (k : Nat)
    (hk : k = 6 ∨ k = 7) :
    (horiz dir mag values 5).testBit k = (values 5).testBit k := by
  have h2 : (5 : Nat) = 5 → 2 ≤ 3 := fun _ => by decide
  have h3 : (5 : Nat) = 5 → 3 ≤ 3 := fun _ => by decide
  unfold horiz
  split_ifs
  · rw [set_o_high_bits _ _ _ _ hk h2, clr_o_high_bits _ _ _ _ hk h3]
  · rw [clr_o_high_bits _ _ _ _ hk h3, clr_o_high_bits _ _ _ _ hk h2]
  · rw [set_o_high_bits _ _ _ _ hk h3, clr_o_high_bits _ _ _ _ hk h2]
  · rfl

theorem breathe_process_high_bits (p : Params) (s : State) (k : Nat) (hk : k = 6 ∨ k = 7) :
    ((breathe_process p s).values 5).testBit k = (s.values 5).testBit k := by
  unfold breathe_process
  dsimp only
  split_ifs
  all_goals first
    | rfl
    | (dsimp only
       rw [set_vcyl_high_bits _ _ _ k hk, horiz_high_bits _ _ _ k hk])

/-! ## Energy predicates -/

/-- C21: `hstate_small` returns 1 exactly when `hf2*h*h + hdot*hdot` is strictly less than
`hsmall` and 0 otherwise, and `hstate_verysmall` likewise with `hverysmall`; in
particular at equality with the threshold each returns 0. -/
theorem C21_energy_predicates (p : Params) (s : Sim) :
    (hstate_small p s = 1 ↔ p.hf2 * s.h * s.h + s.hdot * s.hdot < p.hsmall)
      ∧ (hstate_small p s = 0 ↔ ¬ p.hf2 * s.h * s.h + s.hdot * s.hdot < p.hsmall)
      ∧ (hstate_verysmall p s = 1 ↔ p.hf2 * s.h * s.h + s.hdot * s.hdot < p.hverysmall)
      ∧ (hstate_verysmall p s = 0 ↔ ¬ p.hf2 * s.h * s.h + s.hdot * s.hdot < p.hverysmall)
      ∧ (p.hf2 * s.h * s.h + s.hdot * s.hdot = p.hsmall → hstate_small p s = 0)
      ∧ (p.hf2 * s.h * s.h + s.hdot * s.hdot = p.hverysmall → hstate_verysmall p s = 0) := by
  unfold hstate_small hstate_verysmall h_energy
  refine ⟨?_, ?_, ?_, ?_, ?_, ?_⟩
  · split_ifs with h <;> simp [h]
  · split_ifs with h <;> simp [h]
  · split_ifs with h <;> simp [h]
  · split_ifs with h <;> simp [h]
  · intro h
    rw [if_neg (by rw [h]; exact lt_irrefl _)]
  · intro h
    rw [if_neg (by rw [h]; exact lt_irrefl _)]

theorem C21_energy_predicates_witness :
    unit_threshold_params.hf2 * horiz_at_rest_displaced.h * horiz_at_rest_displaced.h
        + horiz_at_rest_displaced.hdot * horiz_at_rest_displaced.hdot
        = unit_threshold_params.hsmall
      ∧ hstate_small unit_threshold_params horiz_at_rest_displaced = 0 := by
  have h : unit_threshold_params.hf2 * horiz_at_rest_displaced.h * horiz_at_rest_displaced.h
      + horiz_at_rest_displaced.hdot * horiz_at_rest_displaced.hdot
      = unit_threshold_params.hsmall := by
    norm_num [unit_threshold_params, horiz_at_rest_displaced, sim_tickle_horiz, sim_init]
  exact ⟨h, (C21_energy_predicates unit_threshold_params horiz_at_rest_displaced).2.2.2.2.1 h⟩

/-! ## The mapper -/

theorem map_state_step_eq (p : Params) (x : Fin LEN → ℚ) (acc : (Fin 6 → Nat) × Int)
    (i : Fin LEN) :
    (map_state_step p x acc i).1
        = set_vcyl i.val (spec_vertical_command p.bias p.thresh (x i)) acc.1
      ∧ (map_state_step p x acc i).2
        = if spec_vertical_command p.bias p.thresh (x i) = 0 then acc.2 else 0 := by
  unfold map_state_step spec_vertical_command
  by_cases h1 : x i + p.bias > p.thresh
  · simp [h1]
  · by_cases h2 : x i + p.bias < -p.thresh
    · simp [h1, h2]
    · simp [h1, h2]

theorem map_state_fold_values (p : Params) (x : Fin LEN → ℚ) (l : List (Fin LEN))
    (acc : (Fin 6 → Nat) × Int) :
    (l.foldl (map_state_step p x) acc).1
      = issue_vertical
          (l.map (fun i => (i.val, spec_vertical_command p.bias p.thresh (x i)))) acc.1 := by
  induction l generalizing acc with
  | nil => rfl
  | cons a r ih =>
    rw [List.foldl_cons, ih, (map_state_step_eq p x acc a).1]
    rfl

theorem map_state_fold_flag (p : Params) (x : Fin LEN → ℚ) (l : List (Fin LEN))
    (acc : (Fin 6 → Nat) × Int) :
    (l.foldl (map_state_step p x) acc).2
      = if ∀ i ∈ l, spec_vertical_command p.bias p.thresh (x i) = 0 then acc.2 else 0 := by
  induction l generalizing acc with
  | nil => simp
  | cons a r ih =>
    rw [List.foldl_cons, ih, (map_state_step_eq p x acc a).2]
    by_cases ha : spec_vertical_command p.bias p.thresh (x a) = 0
    · simp [ha]
    · simp [ha]

/-- C22: for every bias, threshold and field `x` of `LEN` values, `map_state_array` drives
the outputs by issuing, for the positions `0, 1, .., LEN-1` in turn, exactly one `set_vcyl`
command each: Extend (`1`) if `x[i] + bias > thresh`, otherwise Retract (`-1`) if
`x[i] + bias < -thresh`, otherwise Neutral (`0`). -/
theorem C22_map_vertical_commands (p : Params) (x : Fin LEN → ℚ) (s : State) :
    (map_state_array p x s).values
        = issue_vertical (spec_map_vertical p.bias p.thresh x) s.values
      ∧ (spec_map_vertical p.bias p.thresh x).map Prod.fst = List.range LEN
      ∧ (∀ i : Fin LEN, (spec_map_vertical p.bias p.thresh x)[i.val]?
          = some (i.val,
              if x i + p.bias > p.thresh then 1 else if x i + p.bias < -p.thresh then -1
              else 0)) := by
  refine ⟨?_, ?_, ?_⟩
  · unfold map_state_array spec_map_vertical
    exact map_state_fold_values p x _ _
  · unfold spec_map_vertical
    rw [List.map_map]
    exact List.map_coe_finRange LEN
  · intro i
    unfold spec_map_vertical spec_vertical_command
    simp [List.getElem?_map, List.getElem?_eq_getElem]

/-- C23: after `map_state_array`, `vstate_small` is non-zero (it is then 1) if and only if
every position mapped to Neutral.  The flag and the command sequence are functions of
`(x, bias, thresh)` alone: they are the same from any two prior states, and a second call
with the same field gives the same commands and the same flag. -/
theorem C23_all_neutral_flag (p : Params) (x : Fin LEN → ℚ) (s t : State) :
    (vstate_small (map_state_array p x s) ≠ 0
        ↔ ∀ i : Fin LEN, spec_vertical_command p.bias p.thresh (x i) = 0)
      ∧ vstate_small (map_state_array p x s)
          = (if ∀ i : Fin LEN, spec_vertical_command p.bias p.thresh (x i) = 0 then 1 else 0)
      ∧ vstate_small (map_state_array p x s) = vstate_small (map_state_array p x t)
      ∧ (map_state_array p x s).values
          = issue_vertical (spec_map_vertical p.bias p.thresh x) s.values
      ∧ (map_state_array p x t).values
          = issue_vertical (spec_map_vertical p.bias p.thresh x) t.values
      ∧ vstate_small (map_state_array p x (map_state_array p x s))
          = vstate_small (map_state_array p x s)
      ∧ (map_state_array p x (map_state_array p x s)).values
          = issue_vertical (spec_map_vertical p.bias p.thresh x)
              (map_state_array p x s).values := by
  have hflag : ∀ u : State, vstate_small (map_state_array p x u)
      = (if ∀ i : Fin LEN, spec_vertical_command p.bias p.thresh (x i) = 0 then 1 else 0) := by
    intro u
    unfold vstate_small map_state_array
    dsimp only
    rw [map_state_fold_flag]
    simp [List.mem_finRange]
  have hval : ∀ u : State, (map_state_array p x u).values
      = issue_vertical (spec_map_vertical p.bias p.thresh x) u.values := by
    intro u
    unfold map_state_array spec_map_vertical
    exact map_state_fold_values p x _ _
  refine ⟨?_, hflag s, by rw [hflag s, hflag t], hval s, hval t, by rw [hflag, hflag s],
    hval _⟩
  rw [hflag s]
  split_ifs with h
  · simp [h]
  · simp [h]

/-- C24: for every `h` and every horizontal threshold, `map_hstate` calls `horiz` with
Right and magnitude 1 if `h > hthresh`, otherwise with Left and magnitude 1 if
`h < -hthresh`, otherwise with Center; nothing but the output registers changes.  On the
registers, Right leaves bit 3 of register 5 set and bit 2 clear, Left leaves bit 2 set and
bit 3 clear, Center leaves both clear. -/
theorem C24_map_horizontal (p : Params) (h : ℚ) (s : State) :
    map_hstate p h s
        = { s with
            values := horiz (spec_horizontal_command p.hthresh h).1
                        (spec_horizontal_command p.hthresh h).2 s.values }
      ∧ (h > p.hthresh →
          spec_horizontal_command p.hthresh h = (1, 1)
            ∧ ((map_hstate p h s).values 5).testBit 3 = true
            ∧ ((map_hstate p h s).values 5).testBit 2 = false)
      ∧ (¬ h > p.hthresh → h < -p.hthresh →
          spec_horizontal_command p.hthresh h = (-1, 1)
            ∧ ((map_hstate p h s).values 5).testBit 2 = true
            ∧ ((map_hstate p h s).values 5).testBit 3 = false)
      ∧ (¬ h > p.hthresh → ¬ h < -p.hthresh →
          spec_horizontal_command p.hthresh h = (0, 0)
            ∧ ((map_hstate p h s).values 5).testBit 2 = false
            ∧ ((map_hstate p h s).values 5).testBit 3 = false) := by
  unfold map_hstate spec_horizontal_command
  refine ⟨?_, ?_, ?_, ?_⟩
  · split_ifs <;> rfl
  · intro h1
    simp [h1, horiz, testBit_set_o, testBit_clr_o, val_five]
  · intro h1 h2
    simp [h1, h2, horiz, testBit_set_o, testBit_clr_o, val_five]
  · intro h1 h2
    simp [h1, h2, horiz, testBit_set_o, testBit_clr_o, val_five]

theorem C24_map_horizontal_witness :
    (2 : ℚ) > default_params.hthresh
      ∧ spec_horizontal_command default_params.hthresh 2 = (1, 1)
      ∧ ((map_hstate default_params 2 init_state).values 5).testBit 3 = true
      ∧ ((map_hstate default_params 2 init_state).values 5).testBit 2 = false :=
  ⟨by norm_num [default_params],
    (C24_map_horizontal default_params 2 init_state).2.1 (by norm_num [default_params])⟩

/-! ## The idle animation and the simulator -/

/-- C30: for every state (idle-animation variables and simulator contents arbitrary), one
`breathe_process` step leaves every vertical displacement, every vertical velocity, the
buffers `y`, `ydot` and the horizontal pair `(h, hdot)` of the simulator unchanged. -/
theorem C30_breathe_keeps_simulator (p : Params) (s : State) :
    (breathe_process p s).sim.x = s.sim.x ∧ (breathe_process p s).sim.xdot = s.sim.xdot
      ∧ (breathe_process p s).sim.y = s.sim.y ∧ (breathe_process p s).sim.ydot = s.sim.ydot
      ∧ (breathe_process p s).sim.h = s.sim.h ∧ (breathe_process p s).sim.hdot = s.sim.hdot := by
  have h := (breathe_process_frame p s).2.2.2.1
  rw [h]
  exact ⟨rfl, rfl, rfl, rfl, rfl, rfl⟩

/-! ## Idempotence of the actuator calls -/

theorem set_o_set_o (reg bit : Nat) (values : Fin 6 → Nat) :
    set_o reg bit (set_o reg bit values) = set_o reg bit values := by
  funext r
  apply Nat.eq_of_testBit_eq
  intro k
  simp only [testBit_set_o]
  split_ifs
  · by_cases h1 : k < 8 <;> by_cases h2 : bit = k <;> simp [h1, h2]
  · rfl

theorem clr_o_clr_o (reg bit : Nat) (values : Fin 6 → Nat) :
    clr_o reg bit (clr_o reg bit values) = clr_o reg bit values := by
  funext r
  apply Nat.eq_of_testBit_eq
  intro k
  simp only [testBit_clr_o]
  split_ifs
  · by_cases h1 : k < 8 <;> by_cases h2 : bit = k <;> simp [h1, h2]
  · rfl

/-- Clearing one bit and setting another (or the same), done twice, is the same as done
once. -/
theorem set_clr_twice (r1 b1 r2 b2 : Nat) (values : Fin 6 → Nat) :
    set_o r1 b1 (clr_o r2 b2 (set_o r1 b1 (clr_o r2 b2 values)))
      = set_o r1 b1 (clr_o r2 b2 values) := by
  funext r
  apply Nat.eq_of_testBit_eq
  intro k
  simp only [testBit_set_o, testBit_clr_o]
  by_cases h1 : k < 8 <;> by_cases h2 : b1 = k <;> by_cases h3 : b2 = k <;>
    by_cases h4 : r.val = r1 <;> by_cases h5 : r.val = r2 <;> simp [h1, h2, h3, h4, h5]

theorem clr_clr_twice (r1 b1 r2 b2 : Nat) (values : Fin 6 → Nat) :
    clr_o r1 b1 (clr_o r2 b2 (clr_o r1 b1 (clr_o r2 b2 values)))
      = clr_o r1 b1 (clr_o r2 b2 values) := by
  funext r
  apply Nat.eq_of_testBit_eq
  intro k
  simp only [testBit_clr_o]
  by_cases h1 : k < 8 <;> by_cases h2 : b1 = k <;> by_cases h3 : b2 = k <;>
    by_cases h4 : r.val = r1 <;> by_cases h5 : r.val = r2 <;> simp [h1, h2, h3, h4, h5]

theorem set_vcyl_twice (cylnum : Nat) (state : Int) (values : Fin 6 → Nat) :
    set_vcyl cylnum state (set_vcyl cylnum state values) = set_vcyl cylnum state values := by
  unfold set_vcyl
  cases vcylinder_list[cylnum]? with
  | none => rfl
  | some c =>
    dsimp only
    split_ifs
    · exact set_clr_twice _ _ _ _ _
    · exact set_clr_twice _ _ _ _ _
    · exact clr_clr_twice _ _ _ _ _
    · rfl

theorem horiz_twice (dir : Int) (mag : Nat) (values : Fin 6 → Nat) :
    horiz dir mag (horiz dir mag values) = horiz dir mag values := by
  unfold horiz
  split_ifs
  · exact set_clr_twice _ _ _ _ _
  · exact clr_clr_twice _ _ _ _ _
  · exact set_clr_twice _ _ _ _ _
  · rfl

/-- C26: every actuator call is idempotent on the output registers: for every register
contents and all arguments, `set_vcyl`, `horiz`, `pump_on`, `pump_off`, `power_on` and
`power_off` called twice in a row leave the same register contents as called once. -/
theorem C26_actuator_idempotent (values : Fin 6 → Nat) (cylnum : Nat) (state dir : Int)
    (mag : Nat) :
    set_vcyl cylnum state (set_vcyl cylnum state values) = set_vcyl cylnum state values
      ∧ horiz dir mag (horiz dir mag values) = horiz dir mag values
      ∧ pump_on (pump_on values) = pump_on values
      ∧ pump_off (pump_off values) = pump_off values
      ∧ power_on (power_on values) = power_on values
      ∧ power_off (power_off values) = power_off values :=
  ⟨set_vcyl_twice cylnum state values, horiz_twice dir mag values, set_o_set_o 5 6 values,
    clr_o_clr_o 5 6 values, set_o_set_o 5 7 values, clr_o_clr_o 5 7 values⟩

/-! ## Polling a FIFO that holds less than one full line -/

theorem read_line_no_newline (l msg : List Char) (p n : Nat) (h : NL ∉ l) :
    (read_line l msg p n).1 = [] ∧ (read_line l msg p n).2.2.1 = p + l.length
      ∧ (read_line l msg p n).2.2.2 = n + l.length := by
  induction l generalizing msg p n with
  | nil => simp [read_line]
  | cons c r ih =>
    have hc : ¬ c = NL := fun e => h (by rw [e]; exact List.mem_cons_self _ _)
    have hr : NL ∉ r := fun e => h (List.mem_cons_of_mem _ e)
    have := ih (msg.set p c) (p + 1) (n + 1) hr
    simp only [read_line, if_neg hc, List.length_cons]
    refine ⟨this.1, ?_, ?_⟩
    · rw [this.2.1]; omega
    · rw [this.2.2]; omega

theorem read_line_no_newline_msg (l msg : List Char) (p n : Nat) (h : NL ∉ l)
    (hb : p + l.length ≤ msg.length) :
    (read_line l msg p n).2.1 = msg.take p ++ l ++ msg.drop (p + l.length) := by
  induction l generalizing msg p n with
  | nil => simp [read_line]
  | cons c r ih =>
    have hc : ¬ c = NL := fun e => h (by rw [e]; exact List.mem_cons_self _ _)
    have hr : NL ∉ r := fun e => h (List.mem_cons_of_mem _ e)
    have hlen : (c :: r).length = r.length + 1 := rfl
    rw [hlen] at hb
    have hp : p < msg.length := by omega
    have := ih (msg.set p c) (p + 1) (n + 1) hr (by rw [List.length_set]; omega)
    simp only [read_line, if_neg hc]
    rw [this, List.drop_set_of_lt c msg (by omega : p < p + 1 + r.length)]
    have ht : (msg.set p c).take (p + 1) = msg.take p ++ [c] := by
      rw [List.set_eq_take_append_cons_drop, if_pos hp]
      rw [List.take_append_eq_append_take]
      simp [List.length_take, Nat.min_eq_left (Nat.le_of_lt hp)]
    rw [ht, hlen]
    simp [Nat.add_assoc, Nat.add_comm 1]

/-- The poll of the vertical FIFO alone when it holds no line terminator: return value,
`msglen`, what is left on the FIFO, and the buffer when the bytes fit it. -/
theorem partial_line_poll_vertical (s : State) (hv : NL ∉ s.vpipe) :
    ((check_for_input 0 1 s).2 = 0 ↔ s.vpipe = [])
      ∧ (s.vpipe ≠ [] → (check_for_input 0 1 s).2 = 1
          ∧ (check_for_input 0 1 s).1.msglen = s.vpipe.length)
      ∧ (check_for_input 0 1 s).1.vpipe = []
      ∧ (s.vpipe ≠ [] → s.msg.length = 80 → s.vpipe.length < 80 →
          (check_for_input 0 1 s).1.msg
            = s.vpipe ++ NUL :: s.msg.drop (s.vpipe.length + 1)) := by
  have hlen : ∀ l : List Char, 0 + l.length > 0 ↔ l ≠ [] := by
    intro l
    cases l <;> simp
  have hrv := read_line_no_newline s.vpipe s.msg 0 0 hv
  refine ⟨?_, ?_, ?_, ?_⟩
  · unfold check_for_input
    simp only [ne_eq, not_true_eq_false, if_false, false_and, one_ne_zero, not_false_eq_true,
      if_true, true_and, hrv.2.2, hlen]
    split_ifs with h
    · simp [h]
    · simpa using h
  · intro hne
    unfold check_for_input
    simp only [ne_eq, not_true_eq_false, if_false, false_and, one_ne_zero, not_false_eq_true,
      if_true, true_and, hrv.2.2, hlen, hne]
    simp
  · unfold check_for_input
    simp only [ne_eq, not_true_eq_false, if_false, false_and, one_ne_zero, not_false_eq_true,
      if_true, true_and, hrv.2.2, hlen]
    split_ifs <;> exact hrv.1
  · intro hne hm hl
    have hmsg := read_line_no_newline_msg s.vpipe s.msg 0 0 hv (by omega)
    have hd : s.msg.drop s.vpipe.length
        = s.msg.getD s.vpipe.length NUL :: s.msg.drop (s.vpipe.length + 1) := by
      have hl2 : s.vpipe.length < s.msg.length := by omega
      rw [List.drop_eq_getElem_cons hl2, List.getD_eq_getElem?_getD,
        List.getElem?_eq_getElem hl2]
      rfl
    unfold check_for_input
    simp only [ne_eq, not_true_eq_false, if_false, false_and, one_ne_zero, not_false_eq_true,
      if_true, true_and, hrv.2.2, hlen, hne, hmsg, List.take_zero, List.nil_append, Nat.zero_add]
    rw [List.set_append_right _ _ (Nat.le_refl _), Nat.sub_self, hd,
      if_pos (List.length_pos.mpr hne)]
    rfl

/-- The poll of both FIFOs is the poll of the vertical FIFO when nothing is pending on the
horizontal one. -/
theorem check_for_input_hpipe_empty (s : State) (hh : s.hpipe = []) :
    check_for_input 1 1 s = check_for_input 0 1 s := by
  unfold check_for_input
  simp [hh, read_line]

/-- C27 (amended): if the bytes available on the polled vertical FIFO contain no line
terminator, `check_for_input(0, 1)` consumes all of them and returns 0 (no event) exactly
when no byte is available, and the poll of both FIFOs returns 0 exactly when both are
empty.  When at least one byte is available the poll returns 1 with `msglen` the number
of bytes read; if they fit the buffer (fewer than 80), `msg` holds exactly these bytes
followed by the string terminator, so the C string handed on is the bytes read so far;
and the iteration of the main loop passes this message to `do_input`: in Ripple before
the simulator step, in Breathe (nothing pending on the horizontal FIFO) after the step of
the idle animation. -/
theorem C27_partial_line_poll (p : Params) (c m d : Int) (s : State) (hv : NL ∉ s.vpipe) :
    ((check_for_input 0 1 s).2 = 0 ↔ s.vpipe = [])
      ∧ (s.vpipe ≠ [] → (check_for_input 0 1 s).2 = 1
          ∧ (check_for_input 0 1 s).1.msglen = s.vpipe.length)
      ∧ (check_for_input 0 1 s).1.vpipe = []
      ∧ (NL ∉ s.hpipe → ((check_for_input 1 1 s).2 = 0 ↔ s.hpipe = [] ∧ s.vpipe = []))
      ∧ (s.vpipe ≠ [] → s.msg.length = 80 → s.vpipe.length < 80 →
          (check_for_input 0 1 s).1.msg
              = s.vpipe ++ NUL :: s.msg.drop (s.vpipe.length + 1)
            ∧ (NUL ∉ s.vpipe → c_str (check_for_input 0 1 s).1.msg = s.vpipe))
      ∧ (s.vpipe ≠ [] → s.global_state = GS_RIPPLE →
          ∀ s3, s3 = advance_and_map p (do_input c m d (check_for_input 0 1 s).1) →
            tick p c m d s =
              { (if hstate_verysmall p s3.sim ≠ 0 ∧ vstate_small s3 ≠ 0
                   then set_gs GS_BREATHE s3 else s3) with
                statecount := (if hstate_verysmall p s3.sim ≠ 0 ∧ vstate_small s3 ≠ 0
                   then set_gs GS_BREATHE s3 else s3).statecount + 1 })
      ∧ (s.vpipe ≠ [] → s.hpipe = [] → s.global_state = GS_BREATHE →
          (check_for_input 1 1 (breathe_process p s)).1.msglen = s.vpipe.length
            ∧ ∀ s3, s3 = do_input c m d (check_for_input 1 1 (breathe_process p s)).1 →
              tick p c m d s =
                { (if s3.coffee = 0 then set_gs GS_SLEEP s3 else s3) with
                  statecount := (if s3.coffee = 0 then set_gs GS_SLEEP s3 else s3).statecount
                    + 1 }) := by
  have hlen : ∀ l : List Char, 0 + l.length > 0 ↔ l ≠ [] := by
    intro l
    cases l <;> simp
  have hrv := read_line_no_newline s.vpipe s.msg 0 0 hv
  have hpv := partial_line_poll_vertical s hv
  refine ⟨hpv.1, hpv.2.1, hpv.2.2.1, ?_, ?_, ?_, ?_⟩
  · intro hh
    have hrh := read_line_no_newline s.hpipe s.msg 0 0 hh
    unfold check_for_input
    simp only [ne_eq, one_ne_zero, not_false_eq_true, if_true, true_and, hrh.2.2, hlen]
    by_cases h1 : s.hpipe = []
    · simp only [h1, read_line, List.length_nil, Nat.add_zero, gt_iff_lt, Nat.lt_irrefl,
        if_false, true_and]
      rw [hrv.2.2]
      by_cases h2 : s.vpipe = []
      · simp [h2]
      · have h3 : 0 < s.vpipe.length := by
          have := (hlen s.vpipe).mpr h2
          omega
        simp [h2, h3]
    · simp [h1]
  · intro hne hm hl
    have hmsg := hpv.2.2.2 hne hm hl
    refine ⟨hmsg, ?_⟩
    intro hnul
    rw [hmsg]
    unfold c_str
    rw [List.takeWhile_append_of_pos (fun a ha => by
      have : a ≠ NUL := fun e => hnul (e ▸ ha)
      simpa using this)]
    simp [List.takeWhile]
  · intro hne hrip s3 h3
    have h1 : (check_for_input 0 1 s).2 ≠ 0 := by
      rw [(hpv.2.1 hne).1]
      decide
    rw [tick_ripple p c m d s hrip s3 (by rw [h3, if_pos h1])]
  · intro hne hh hb
    have hbf := breathe_process_frame p s
    have hh2 : (breathe_process p s).hpipe = [] := by rw [hbf.2.2.2.2.2.1, hh]
    have hv2 : (breathe_process p s).vpipe = s.vpipe := hbf.2.2.2.2.2.2
    have hpv2 := partial_line_poll_vertical (breathe_process p s) (by rw [hv2]; exact hv)
    rw [check_for_input_hpipe_empty _ hh2]
    have hne2 : (breathe_process p s).vpipe ≠ [] := by rw [hv2]; exact hne
    refine ⟨by rw [(hpv2.2.1 hne2).2, hv2], ?_⟩
    intro s3 h3
    have h1 : (check_for_input 1 1 (breathe_process p s)).2 ≠ 0 := by
      rw [check_for_input_hpipe_empty _ hh2, (hpv2.2.1 hne2).1]
      decide
    rw [tick_breathe p c m d s hb s3 (by
      rw [h3, if_pos h1, check_for_input_hpipe_empty _ hh2])]

theorem C27_partial_line_poll_witness :
    NL ∉ (environment 1 [] "C1M50".toList ripple_after_pebble).vpipe
      ∧ (environment 1 [] "C1M50".toList ripple_after_pebble).vpipe ≠ []
      ∧ (environment 1 [] "C1M50".toList ripple_after_pebble).msg.length = 80
      ∧ (check_for_input 0 1 (environment 1 [] "C1M50".toList ripple_after_pebble)).2 = 1
      ∧ (check_for_input 0 1 (environment 1 [] "C1M50".toList ripple_after_pebble)).1.msglen
          = 5
      ∧ c_str (check_for_input 0 1
          (environment 1 [] "C1M50".toList ripple_after_pebble)).1.msg = "C1M50".toList :=
  ⟨by decide, by decide, by decide,
    ((C27_partial_line_poll default_params 0 0 0
      (environment 1 [] "C1M50".toList ripple_after_pebble) (by decide)).2.1 (by decide)).1,
    ((C27_partial_line_poll default_params 0 0 0
      (environment 1 [] "C1M50".toList ripple_after_pebble) (by decide)).2.1 (by decide)).2,
    ((C27_partial_line_poll default_params 0 0 0
      (environment 1 [] "C1M50".toList ripple_after_pebble) (by decide)).2.2.2.2.1
        (by decide) (by decide) (by decide)).2 (by decide)⟩

/-- C27 (counterexample): in the reachable Breathe state with the six bytes `C99M20` (no
line terminator) pending on the vertical FIFO, the poll returns 1 and the iteration of the
main loop hands the partial line to `do_input`, which switches the mode to Active. -/
theorem C27_partial_line_is_event :
    NL ∉ (environment 1 [] "C99M20".toList breathe_awake).vpipe
      ∧ (check_for_input 1 1 (breathe_process default_params
            (environment 1 [] "C99M20".toList breathe_awake))).2 = 1
      ∧ (environment 1 [] "C99M20".toList breathe_awake).global_state = GS_BREATHE
      ∧ (tick default_params 0 0 0
            (environment 1 [] "C99M20".toList breathe_awake)).global_state = GS_ACTIVE :=
  ⟨by decide, by decide, rfl, rfl⟩

/-! ## Lines that do not match the grammar -/

theorem do_input_without_C (c m d : Int) (s : State) (h : s.msg.getD 0 NUL ≠ 'C') :
    do_input c m d s = s := by
  unfold do_input
  rw [if_neg h]

/-- C28 (the code at the failing input): in the reachable Breathe state with the complete
line `C99` pending on the vertical FIFO, `sscanf` assigns `chan` only (one conversion; the
line lacks the M and D fields), `mag` keeps its indeterminate content (here 7), and the
iteration of the main loop nevertheless switches to mode Active with lockout, NoDump and
horizontal displacement 7. -/
theorem C28_unmatched_line_acts :
    sscanf_CMD (c_str (polled_in_breathe ("C99".toList ++ [NL])).msg) 0 7 0 = (1, 99, 7, 0)
      ∧ (environment 1 [] ("C99".toList ++ [NL]) breathe_awake).global_state = GS_BREATHE
      ∧ (tick default_params 0 7 0
          (environment 1 [] ("C99".toList ++ [NL]) breathe_awake)).global_state = GS_ACTIVE
      ∧ (tick default_params 0 7 0
          (environment 1 [] ("C99".toList ++ [NL]) breathe_awake)).lockout_state = LS_LOCKOUT
      ∧ (tick default_params 0 7 0
          (environment 1 [] ("C99".toList ++ [NL]) breathe_awake)).dump_state = DS_NODUMP
      ∧ (environment 1 [] ("C99".toList ++ [NL]) breathe_awake).sim.h = 0
      ∧ (tick default_params 0 7 0
          (environment 1 [] ("C99".toList ++ [NL]) breathe_awake)).sim.h = 7 := by
  refine ⟨by decide, rfl, rfl, rfl, rfl, rfl, ?_⟩
  have h : (tick default_params 0 7 0
      (environment 1 [] ("C99".toList ++ [NL]) breathe_awake)).sim.h = ((7 : Int) : ℚ) := rfl
  rw [h]
  norm_num

/-! ## Parsing canonical event lines -/

theorem digit_char_spec (d : Nat) (hd : d < 10) :
    isdigit (digit_char d) = true ∧ (digit_char d).toNat - 48 = d ∧ digit_char d ≠ '-'
      ∧ digit_char d ≠ '+' ∧ isspace (digit_char d) = false := by
  interval_cases d <;> decide

theorem dec_digits_lt (n d : Nat) (h : d ∈ dec_digits n) : d < 10 := by
  unfold dec_digits at h
  split_ifs at h with h0
  · simp at h
    omega
  · exact Nat.digits_lt_base (by decide) (List.mem_reverse.mp h)

theorem dec_digits_ne_nil (n : Nat) : dec_digits n ≠ [] := by
  unfold dec_digits
  split_ifs with h0
  · simp
  · simp only [ne_eq, List.reverse_eq_nil_iff]
    exact Nat.digits_ne_nil_iff_ne_zero.mpr h0

theorem foldl_reverse_digits (L : List Nat) :
    L.reverse.foldl (fun a d => a * 10 + d) 0 = Nat.ofDigits 10 L := by
  induction L with
  | nil => rfl
  | cons d r ih =>
    rw [List.reverse_cons, List.foldl_append, ih, Nat.ofDigits_cons]
    simp only [List.foldl_cons, List.foldl_nil]
    omega

theorem dec_digits_value (n : Nat) : (dec_digits n).foldl (fun a d => a * 10 + d) 0 = n := by
  unfold dec_digits
  split_ifs with h0
  · simp [h0]
  · rw [foldl_reverse_digits, Nat.ofDigits_digits]

/-- `scan_digits` on a run of digit characters followed by something that is not a digit. -/
theorem scan_digits_map (ds : List Nat) (hds : ∀ d ∈ ds, d < 10) (rest : List Char)
    (hrest : ∀ c ∈ rest.head?, isdigit c = false) (acc : Nat) :
    scan_digits (ds.map digit_char ++ rest) acc
      = (ds.foldl (fun a d => a * 10 + d) acc, rest) := by
  induction ds generalizing acc with
  | nil =>
    cases rest with
    | nil => rfl
    | cons c r =>
      have hc : isdigit c = false := hrest c (by simp)
      simp [scan_digits, hc]
  | cons d r ih =>
    have hd := digit_char_spec d (hds d (List.mem_cons_self _ _))
    have := ih (fun e he => hds e (List.mem_cons_of_mem _ he)) (acc * 10 + d)
    simp only [List.map_cons, List.cons_append, scan_digits, hd.1, if_true, hd.2.1,
      List.foldl_cons]
    exact this

theorem scan_d_show_int (z : Int) (hz : -2147483648 ≤ z ∧ z ≤ 2147483647) (rest : List Char)
    (hrest : ∀ c ∈ rest.head?, isdigit c = false) :
    scan_d (show_int z ++ rest) = some (z, rest) := by
  have hscan := scan_digits_map (dec_digits z.natAbs) (dec_digits_lt _) rest hrest 0
  rw [dec_digits_value] at hscan
  obtain ⟨d, r, hdr⟩ := List.exists_cons_of_ne_nil (dec_digits_ne_nil z.natAbs)
  have hd := digit_char_spec d (dec_digits_lt z.natAbs d (by rw [hdr]; exact List.mem_cons_self _ _))
  have hsp : isspace '-' = false := by decide
  unfold show_int scan_d
  by_cases hneg : z < 0
  · have hval : to_int (-((z.natAbs : Nat) : Int)) = z := by unfold to_int; omega
    rw [if_pos hneg]
    simp only [List.cons_append, skip_space, hsp, Bool.false_eq_true, if_false, if_true]
    rw [hdr] at hscan ⊢
    simp only [List.map_cons, List.cons_append] at hscan ⊢
    simp only [List.append_eq, List.cons_append, hd.1, if_true, hscan, hval]
  · have hval : to_int ((z.natAbs : Nat) : Int) = z := by unfold to_int; omega
    rw [if_neg hneg]
    rw [hdr] at hscan ⊢
    simp only [List.map_cons, List.cons_append] at hscan ⊢
    simp only [skip_space, hd.2.2.2.2, Bool.false_eq_true, if_false, hd.2.2.1, hd.2.2.2.1,
      hd.1, if_true, hscan, hval]

/-- C29: for all `chan`, `mag`, `dur` in the `int` range, `sscanf` on the line
`C<chan>M<mag>D<dur>` written with canonical decimal integers (with or without the line
terminator after it) converts all three fields and yields exactly `(chan, mag, dur)`,
whatever the locals held before; re-serialising the parsed event gives the original line. -/
theorem C29_parse_roundtrip (chan mag dur c0 m0 d0 : Int)
    (hc : -2147483648 ≤ chan ∧ chan ≤ 2147483647)
    (hm : -2147483648 ≤ mag ∧ mag ≤ 2147483647)
    (hd : -2147483648 ≤ dur ∧ dur ≤ 2147483647) :
    sscanf_CMD (serialize_event chan mag dur) c0 m0 d0 = (3, chan, mag, dur)
      ∧ sscanf_CMD (serialize_event chan mag dur ++ [NL]) c0 m0 d0 = (3, chan, mag, dur)
      ∧ serialize_event (sscanf_CMD (serialize_event chan mag dur) c0 m0 d0).2.1
          (sscanf_CMD (serialize_event chan mag dur) c0 m0 d0).2.2.1
          (sscanf_CMD (serialize_event chan mag dur) c0 m0 d0).2.2.2
        = serialize_event chan mag dur := by
  have hM : isdigit 'M' = false := by decide
  have hD : isdigit 'D' = false := by decide
  have hN : isdigit NL = false := by decide
  have key : ∀ rest : List Char, (∀ c ∈ rest.head?, isdigit c = false) →
      sscanf_CMD (serialize_event chan mag dur ++ rest) c0 m0 d0 = (3, chan, mag, dur) := by
    intro rest hrest
    have h1 := scan_d_show_int chan hc ('M' :: (show_int mag ++ ('D' :: (show_int dur ++ rest))))
      (by simp [hM])
    have h2 := scan_d_show_int mag hm ('D' :: (show_int dur ++ rest)) (by simp [hD])
    have h3 := scan_d_show_int dur hd rest hrest
    unfold serialize_event sscanf_CMD
    simp only [List.cons_append, List.append_assoc, if_true, h1, h2, h3]
  have e1 : sscanf_CMD (serialize_event chan mag dur) c0 m0 d0 = (3, chan, mag, dur) := by
    have := key [] (by simp)
    rwa [List.append_nil] at this
  refine ⟨e1, key [NL] (by simp [hN]), ?_⟩
  rw [e1]

theorem C29_parse_roundtrip_witness :
    (-2147483648 ≤ (0 : Int) ∧ (0 : Int) ≤ 2147483647)
      ∧ (-2147483648 ≤ (50 : Int) ∧ (50 : Int) ≤ 2147483647)
      ∧ (-2147483648 ≤ (-100 : Int) ∧ (-100 : Int) ≤ 2147483647)
      ∧ serialize_event 0 50 (-100) = "C0M50D-100".toList
      ∧ sscanf_CMD (serialize_event 0 50 (-100)) 7 8 9 = (3, 0, 50, -100) := by
  refine ⟨by decide, by decide, by decide, ?_,
    (C29_parse_roundtrip 0 50 (-100) 7 8 9 (by decide) (by decide) (by decide)).1⟩
  norm_num [serialize_event, show_int, dec_digits, digit_char]

/-! ## Opposite outputs are never both set -/

theorem call_writes_refine (c : ActuatorCall) (values : Fin 6 → Nat) :
    apply_writes (call_writes c) values = run_call c values := by
  cases c with
  | vcyl cylnum state =>
    unfold call_writes run_call set_vcyl_writes set_vcyl apply_writes
    dsimp only
    cases vcylinder_list[cylnum.val]? with
    | none => rfl
    | some c =>
      dsimp only
      split_ifs <;> rfl
  | hz dir mag =>
    unfold call_writes run_call horiz_writes horiz apply_writes
    dsimp only
    split_ifs <;> rfl

theorem out_bit_clr_o (reg bit r k : Nat) (values : Fin 6 → Nat) :
    out_bit (clr_o reg bit values) r k
      = if r = reg then (out_bit values r k && (decide (k < 8) && !decide (bit = k)))
        else out_bit values r k := by
  unfold out_bit
  by_cases h : r < 6
  · simp only [dif_pos h, testBit_clr_o]
  · simp [dif_neg h]

theorem out_bit_set_o (reg bit r k : Nat) (values : Fin 6 → Nat) :
    out_bit (set_o reg bit values) r k
      = if r = reg ∧ r < 6 then (decide (k < 8) && (out_bit values r k || decide (bit = k)))
        else out_bit values r k := by
  unfold out_bit
  by_cases h : r < 6
  · simp only [dif_pos h, testBit_set_o]
    simp [h]
  · simp [dif_neg h, h]

theorem out_bit_clr_mono (reg bit r k : Nat) (values : Fin 6 → Nat)
    (h : out_bit (clr_o reg bit values) r k = true) : out_bit values r k = true := by
  rw [out_bit_clr_o] at h
  split_ifs at h
  · simp at h
    exact h.1
  · exact h

theorem out_bit_clr_self (reg bit : Nat) (values : Fin 6 → Nat) :
    out_bit (clr_o reg bit values) reg bit = false := by
  rw [out_bit_clr_o]
  simp

theorem out_bit_set_cases (reg bit r k : Nat) (values : Fin 6 → Nat)
    (h : out_bit (set_o reg bit values) r k = true) :
    out_bit values r k = true ∨ (r = reg ∧ k = bit) := by
  rw [out_bit_set_o] at h
  split_ifs at h with h1
  · simp at h
    rcases h.2 with h2 | h2
    · exact Or.inl h2
    · exact Or.inr ⟨h1.1, h2.symm⟩
  · exact Or.inl h

/-- In the table of opposite outputs no retract position is an extend position, and two
entries that share one position share the other. -/
theorem actuator_pairs_distinct :
    ∀ c ∈ actuator_pairs, ∀ c' ∈ actuator_pairs,
      ¬ (c.inword = c'.outword ∧ c.inbit = c'.outbit)
        ∧ (c.outword = c'.outword ∧ c.outbit = c'.outbit →
            c.inword = c'.inword ∧ c.inbit = c'.inbit)
        ∧ (c.inword = c'.inword ∧ c.inbit = c'.inbit →
            c.outword = c'.outword ∧ c.outbit = c'.outbit) := by
  decide

theorem safe_clr (reg bit : Nat) (values : Fin 6 → Nat) (h : SafeOutputs values) :
    SafeOutputs (clr_o reg bit values) := by
  intro c hc hboth
  exact h c hc ⟨out_bit_clr_mono _ _ _ _ _ hboth.1, out_bit_clr_mono _ _ _ _ _ hboth.2⟩

/-- Setting the extend bit of a pair whose retract bit is clear keeps the outputs safe. -/
theorem safe_set_out (c0 : cylinder) (hc0 : c0 ∈ actuator_pairs) (values : Fin 6 → Nat)
    (h : SafeOutputs values) (hclear : out_bit values c0.inword c0.inbit = false) :
    SafeOutputs (set_o c0.outword c0.outbit values) := by
  intro c hc hboth
  have hd := actuator_pairs_distinct c hc c0 hc0
  rcases out_bit_set_cases _ _ _ _ _ hboth.2 with hin | hin
  · rcases out_bit_set_cases _ _ _ _ _ hboth.1 with hout | hout
    · exact h c hc ⟨hout, hin⟩
    · have he := hd.2.1 hout
      rw [he.1, he.2, hclear] at hin
      exact Bool.false_ne_true hin
  · exact hd.1 hin

/-- Setting the retract bit of a pair whose extend bit is clear keeps the outputs safe. -/
theorem safe_set_in (c0 : cylinder) (hc0 : c0 ∈ actuator_pairs) (values : Fin 6 → Nat)
    (h : SafeOutputs values) (hclear : out_bit values c0.outword c0.outbit = false) :
    SafeOutputs (set_o c0.inword c0.inbit values) := by
  intro c hc hboth
  have hd := actuator_pairs_distinct c hc c0 hc0
  have hd' := actuator_pairs_distinct c0 hc0 c hc
  rcases out_bit_set_cases _ _ _ _ _ hboth.1 with hout | hout
  · rcases out_bit_set_cases _ _ _ _ _ hboth.2 with hin | hin
    · exact h c hc ⟨hout, hin⟩
    · have he := hd.2.2 hin
      rw [he.1, he.2, hclear] at hout
      exact Bool.false_ne_true hout
  · exact hd'.1 ⟨hout.1.symm, hout.2.symm⟩

theorem safe_extend_prefix (c0 : cylinder) (hc0 : c0 ∈ actuator_pairs) (k : Nat)
    (values : Fin 6 → Nat) (h : SafeOutputs values) :
    SafeOutputs (apply_writes
      ([Write.clr c0.inword c0.inbit, Write.set c0.outword c0.outbit].take k) values) := by
  rcases k with _ | _ | k
  · exact h
  · exact safe_clr _ _ _ h
  · have ht : ∀ a b : Write, List.take (k + 1 + 1) [a, b] = [a, b] := by
      intro a b
      simp
    rw [ht]
    exact safe_set_out c0 hc0 _ (safe_clr _ _ _ h) (out_bit_clr_self _ _ _)

theorem safe_retract_prefix (c0 : cylinder) (hc0 : c0 ∈ actuator_pairs) (k : Nat)
    (values : Fin 6 → Nat) (h : SafeOutputs values) :
    SafeOutputs (apply_writes
      ([Write.clr c0.outword c0.outbit, Write.set c0.inword c0.inbit].take k) values) := by
  rcases k with _ | _ | k
  · exact h
  · exact safe_clr _ _ _ h
  · have ht : ∀ a b : Write, List.take (k + 1 + 1) [a, b] = [a, b] := by
      intro a b
      simp
    rw [ht]
    exact safe_set_in c0 hc0 _ (safe_clr _ _ _ h) (out_bit_clr_self _ _ _)

theorem safe_stop_prefix (r1 b1 r2 b2 k : Nat) (values : Fin 6 → Nat)
    (h : SafeOutputs values) :
    SafeOutputs (apply_writes ([Write.clr r1 b1, Write.clr r2 b2].take k) values) := by
  rcases k with _ | _ | k
  · exact h
  · exact safe_clr _ _ _ h
  · have ht : ∀ a b : Write, List.take (k + 1 + 1) [a, b] = [a, b] := by
      intro a b
      simp
    rw [ht]
    exact safe_clr _ _ _ (safe_clr _ _ _ h)

theorem safe_call_prefix (c : ActuatorCall) (k : Nat) (values : Fin 6 → Nat)
    (h : SafeOutputs values) :
    SafeOutputs (apply_writes ((call_writes c).take k) values) := by
  have hhz : (⟨5, 2, 5, 3⟩ : cylinder) ∈ actuator_pairs := by
    unfold actuator_pairs
    simp
  cases c with
  | vcyl cylnum state =>
    unfold call_writes set_vcyl_writes
    dsimp only
    cases hc : vcylinder_list[cylnum.val]? with
    | none => simpa [apply_writes] using h
    | some c0 =>
      have hc0 : c0 ∈ actuator_pairs := by
        unfold actuator_pairs
        exact List.mem_append_left _ (List.getElem?_mem hc)
      dsimp only
      split_ifs
      · exact safe_extend_prefix c0 hc0 k values h
      · exact safe_retract_prefix c0 hc0 k values h
      · exact safe_stop_prefix _ _ _ _ k values h
      · simpa [apply_writes] using h
  | hz dir mag =>
    unfold call_writes horiz_writes
    dsimp only
    split_ifs
    · exact safe_extend_prefix ⟨5, 2, 5, 3⟩ hhz k values h
    · exact safe_stop_prefix _ _ _ _ k values h
    · exact safe_retract_prefix ⟨5, 2, 5, 3⟩ hhz k values h
    · simpa [apply_writes] using h

theorem safe_run_calls (cs : List ActuatorCall) (values : Fin 6 → Nat)
    (h : SafeOutputs values) : SafeOutputs (run_calls cs values) := by
  induction cs generalizing values with
  | nil => exact h
  | cons c r ih =>
    unfold run_calls
    rw [List.foldl_cons]
    apply ih
    rw [← call_writes_refine c values]
    have := safe_call_prefix c (call_writes c).length values h
    rwa [List.take_length] at this

theorem safe_zero : SafeOutputs (fun _ => 0) := by
  intro c _ hboth
  have : out_bit (fun _ => 0) c.outword c.outbit = false := by
    unfold out_bit
    split_ifs <;> simp
  rw [this] at hboth
  exact Bool.false_ne_true hboth.1

/-- C25: starting from all outputs cleared, after any sequence `calls` of complete
`set_vcyl(i, s)` calls (`i` in `0..20`, any `s`) and `horiz(dir, mag)` calls, and after
the first `k` individual register writes of any further such call `c` (for every `k`), no
vertical cylinder has both its extend bit and its retract bit set, and the horizontal
bits 2 and 3 of register 5 are not both set.  The writes of a call, applied in order, are
exactly the call. -/
theorem C25_never_both_directions (calls : List ActuatorCall) (c : ActuatorCall) (k : Nat) :
    (∀ cyl ∈ vcylinder_list,
        ¬ (out_bit (apply_writes ((call_writes c).take k) (run_calls calls (fun _ => 0)))
              cyl.outword cyl.outbit = true
          ∧ out_bit (apply_writes ((call_writes c).take k) (run_calls calls (fun _ => 0)))
              cyl.inword cyl.inbit = true))
      ∧ ¬ (((apply_writes ((call_writes c).take k) (run_calls calls (fun _ => 0))) 5).testBit 2
              = true
          ∧ ((apply_writes ((call_writes c).take k) (run_calls calls (fun _ => 0))) 5).testBit 3
              = true)
      ∧ (∀ values, apply_writes (call_writes c) values = run_call c values) := by
  have hs := safe_call_prefix c k _ (safe_run_calls calls _ safe_zero)
  refine ⟨?_, ?_, call_writes_refine c⟩
  · intro cyl hcyl
    exact hs cyl (by unfold actuator_pairs; exact List.mem_append_left _ hcyl)
  · have := hs ⟨5, 2, 5, 3⟩ (by unfold actuator_pairs; simp)
    simpa [out_bit] using this

/-! ## Events on other channels -/

/-- C40: in every mode, an event whose channel is none of 0, 1, 2, 3 and 99 makes
`do_input` return the state it was given, whatever its magnitude and duration: mode,
interlocks and simulator (and everything else) are unchanged. -/
theorem C40_unknown_channel_ignored (c0 m0 d0 : Int) (s : State) (chan mag dur : Int)
    (hev : sscanf_CMD (c_str s.msg) c0 m0 d0 = (3, chan, mag, dur))
    (hc : chan ≠ 0 ∧ chan ≠ 1 ∧ chan ≠ 2 ∧ chan ≠ 3 ∧ chan ≠ 99) :
    do_input c0 m0 d0 s = s := by
  unfold do_input
  dsimp only
  rw [hev]
  simp [hc.1, hc.2.1, hc.2.2.1, hc.2.2.2.1, hc.2.2.2.2]

theorem C40_unknown_channel_ignored_witness :
    sscanf_CMD (c_str (polled_in_ripple ("C7M50D100".toList ++ [NL])).msg) 0 0 0
        = (3, 7, 50, 100)
      ∧ ((7 : Int) ≠ 0 ∧ (7 : Int) ≠ 1 ∧ (7 : Int) ≠ 2 ∧ (7 : Int) ≠ 3 ∧ (7 : Int) ≠ 99)
      ∧ do_input 0 0 0 (polled_in_ripple ("C7M50D100".toList ++ [NL]))
          = polled_in_ripple ("C7M50D100".toList ++ [NL]) :=
  ⟨by decide, by decide,
    C40_unknown_channel_ignored 0 0 0 (polled_in_ripple ("C7M50D100".toList ++ [NL])) 7 50 100
      (by decide) (by decide)⟩

/-! ## Lockout where `do_input` is called -/

theorem set_gs_lockoutRange (t : Int) (s : State) (h : LockoutRange s) :
    LockoutRange (set_gs t s) := by
  unfold set_gs
  split_ifs <;> simp_all [LockoutRange, set_ls, set_ds, LS_NORMAL, LS_LOCKOUT, DS_DUMP,
    DS_NODUMP]

theorem do_input_lockoutRange (c m d : Int) (s : State) (h : LockoutRange s) :
    LockoutRange (do_input c m d s) := by
  have hr := set_gs_lockoutRange GS_RIPPLE s h
  unfold do_input
  dsimp only
  split_ifs
  all_goals first
    | exact h
    | exact hr
    | simp [LockoutRange, set_ls, set_ds, LS_LOCKOUT, LS_NORMAL, DS_NODUMP, DS_DUMP]

theorem lockoutRange_of_field (s t : State) (h : LockoutRange s)
    (h1 : t.lockout_state = s.lockout_state) : LockoutRange t := by
  unfold LockoutRange at h ⊢
  rw [h1]
  exact h

theorem tick_lockoutRange (p : Params) (c m d : Int) (s : State) (h : LockoutRange s) :
    LockoutRange (tick p c m d s) := by
  have hadv : ∀ t : State, LockoutRange t → LockoutRange (advance_and_map p t) := fun t ht =>
    lockoutRange_of_field t _ ht (advance_and_map_frame p t).2.2.1
  have hpoll : ∀ (a b : Int) (t : State), LockoutRange t →
      LockoutRange (check_for_input a b t).1 := fun a b t ht =>
    lockoutRange_of_field t _ ht (check_for_input_frame a b t).2.2.1
  have hite : ∀ (P : Prop) [Decidable P] (a b : State), LockoutRange a → LockoutRange b →
      LockoutRange (if P then a else b) := by
    intro P _ a b ha hb
    split_ifs
    · exact ha
    · exact hb
  by_cases h1 : s.global_state = GS_SLEEP
  · rw [tick_sleep p c m d s h1]
    exact lockoutRange_of_field _ _ (hite _ _ _ (set_gs_lockoutRange _ _ h) h) rfl
  by_cases h2 : s.global_state = GS_BREATHE
  · rw [tick_breathe p c m d s h2 _ rfl]
    have hb : LockoutRange (breathe_process p s) :=
      lockoutRange_of_field s _ h (breathe_process_frame p s).2.2.1
    have h3 := hite ((check_for_input 1 1 (breathe_process p s)).2 ≠ 0) _ _
      (do_input_lockoutRange c m d _ (hpoll 1 1 _ hb)) (hpoll 1 1 _ hb)
    exact lockoutRange_of_field _ _ (hite _ _ _ (set_gs_lockoutRange _ _ h3) h3) rfl
  by_cases h3 : s.global_state = GS_ACTIVE
  · rw [tick_active p c m d s h3]
    exact lockoutRange_of_field _ _
      (hite _ _ _ (set_gs_lockoutRange _ _ (hadv _ h)) (hadv _ h)) rfl
  by_cases h4 : s.global_state = GS_RIPPLE
  · rw [tick_ripple p c m d s h4 _ rfl]
    have h5 := hadv _ (hite ((check_for_input 0 1 s).2 ≠ 0) _ _
      (do_input_lockoutRange c m d _ (hpoll 0 1 _ h)) (hpoll 0 1 _ h))
    exact lockoutRange_of_field _ _ (hite _ _ _ (set_gs_lockoutRange _ _ h5) h5) rfl
  · rw [tick_other p c m d s h1 h2 h3 h4]
    exact lockoutRange_of_field _ _ h rfl

theorem reachable_lockoutRange (p : Params) (s : State) (h : Reachable p s) :
    LockoutRange s := by
  induction h with
  | init => exact Or.inl rfl
  | env coffee hpipe vpipe _ ih => exact ih
  | tick c m d _ ih => exact tick_lockoutRange p c m d _ ih

/-- In a reachable state whose mode is not Active the lockout state is Normal. -/
theorem reachable_lockout_normal (p : Params) (s : State) (h : Reachable p s)
    (hna : s.global_state ≠ GS_ACTIVE) : s.lockout_state = LS_NORMAL := by
  have hinv := reachable_modeInv p s h
  rcases reachable_lockoutRange p s h with hn | hl
  · exact hn
  · exact absurd (hinv.1.mp hl) hna

/-- C39: in every reachable state of the main loop in which `do_input` can be invoked (a
Breathe iteration, after the idle animation and the poll of both FIFOs, or a Ripple
iteration, after the poll of the vertical FIFO), the lockout state is Normal and so is not
Lockout: the lockout checks of the directional cases never discard an event. -/
theorem C39_lockout_normal_at_input (p : Params) (s : State) (h : Reachable p s) :
    (s.global_state = GS_BREATHE →
        (check_for_input 1 1 (breathe_process p s)).1.lockout_state = LS_NORMAL
          ∧ (check_for_input 1 1 (breathe_process p s)).1.lockout_state ≠ LS_LOCKOUT)
      ∧ (s.global_state = GS_RIPPLE →
        (check_for_input 0 1 s).1.lockout_state = LS_NORMAL
          ∧ (check_for_input 0 1 s).1.lockout_state ≠ LS_LOCKOUT) := by
  have hne : LS_NORMAL ≠ LS_LOCKOUT := by decide
  constructor
  · intro hb
    have hn := reachable_lockout_normal p s h (by rw [hb]; decide)
    rw [(check_for_input_frame 1 1 _).2.2.1, (breathe_process_frame p s).2.2.1, hn]
    exact ⟨rfl, hne⟩
  · intro hr
    have hn := reachable_lockout_normal p s h (by rw [hr]; decide)
    rw [(check_for_input_frame 0 1 _).2.2.1, hn]
    exact ⟨rfl, hne⟩

theorem C39_lockout_normal_at_input_witness :
    Reachable default_params ripple_quake_pending
      ∧ ripple_quake_pending.global_state = GS_RIPPLE
      ∧ (check_for_input 0 1 ripple_quake_pending).1.lockout_state = LS_NORMAL
      ∧ (check_for_input 0 1 ripple_quake_pending).1.lockout_state ≠ LS_LOCKOUT := by
  have hr : Reachable default_params ripple_quake_pending :=
    Reachable.env _ _ _ (Reachable.tick _ _ _ (Reachable.env _ _ _
      (Reachable.tick _ _ _ (Reachable.env _ _ _ Reachable.init))))
  have h := (C39_lockout_normal_at_input default_params ripple_quake_pending hr).2 rfl
  exact ⟨hr, rfl, h.1, h.2⟩

/-! ## Events in Ripple -/

/-- A directional event handled while the mode is Ripple and lockout is Normal. -/
theorem do_input_directional_ripple (c0 m0 d0 : Int) (s : State) (chan mag dur : Int)
    (hgs : s.global_state = GS_RIPPLE) (hlk : s.lockout_state = LS_NORMAL)
    (hev : sscanf_CMD (c_str s.msg) c0 m0 d0 = (3, chan, mag, dur))
    (hc : chan = 0 ∨ chan = 1 ∨ chan = 2 ∨ chan = 3) :
    (do_input c0 m0 d0 s).global_state = GS_RIPPLE
      ∧ (do_input c0 m0 d0 s).sim.x (pebble_position chan) = (mag : ℚ) / 10
      ∧ (∀ i : Fin LEN, i ≠ pebble_position chan → (do_input c0 m0 d0 s).sim.x i = s.sim.x i)
      ∧ (do_input c0 m0 d0 s).sim.xdot = s.sim.xdot
      ∧ (do_input c0 m0 d0 s).sim.y = s.sim.y
      ∧ (do_input c0 m0 d0 s).sim.ydot = s.sim.ydot
      ∧ (do_input c0 m0 d0 s).sim.h = s.sim.h
      ∧ (do_input c0 m0 d0 s).sim.hdot = s.sim.hdot := by
  have hlk2 : ¬ s.lockout_state = LS_LOCKOUT := by rw [hlk]; decide
  have hgb : ¬ s.global_state = GS_BREATHE := by rw [hgs]; decide
  have h0 : s.msg.getD 0 NUL = 'C' := msg_starts_with_C s.msg c0 m0 d0 (by rw [hev]; simp)
  have h19 : ((19 : Fin LEN) : Nat) = 19 := rfl
  have h10 : ((10 : Fin LEN) : Nat) = 10 := rfl
  have h1 : ((1 : Fin LEN) : Nat) = 1 := rfl
  have hrip := set_gs_global_state GS_RIPPLE s (by simp)
  have hsim := (set_gs_frame GS_RIPPLE s).1
  unfold do_input
  rw [if_pos h0]
  dsimp only
  rw [hev]
  dsimp only
  rcases hc with h | h | h | h <;> subst h <;>
    simp [hgb, hlk2, hrip, hsim, sim_drop_pebble, pebble_position, Fin.ext_iff, h19, h10, h1] <;>
    exact fun i hi hi2 => absurd hi2 hi

/-- C38: in mode Ripple (a reachable Ripple state `s0` of the main loop, after the poll of
the vertical FIFO) the magnitude gate is not applied: a directional event (channel 0..3)
with any magnitude `mag`, also `mag < 10`, overwrites the displacement at the mapped
position with `mag / 10`; the mode stays Ripple and the rest of the simulator is
unchanged. -/
theorem C38_ripple_no_gate (p : Params) (c0 m0 d0 : Int) (s0 s : State) (chan mag dur : Int)
    (hr : Reachable p s0) (hrip : s0.global_state = GS_RIPPLE)
    (hs : s = (check_for_input 0 1 s0).1)
    (hev : sscanf_CMD (c_str s.msg) c0 m0 d0 = (3, chan, mag, dur))
    (hc : chan = 0 ∨ chan = 1 ∨ chan = 2 ∨ chan = 3) :
    (do_input c0 m0 d0 s).global_state = GS_RIPPLE
      ∧ (do_input c0 m0 d0 s).sim.x (pebble_position chan) = (mag : ℚ) / 10
      ∧ (∀ i : Fin LEN, i ≠ pebble_position chan → (do_input c0 m0 d0 s).sim.x i = s.sim.x i)
      ∧ (do_input c0 m0 d0 s).sim.xdot = s.sim.xdot
      ∧ (do_input c0 m0 d0 s).sim.y = s.sim.y
      ∧ (do_input c0 m0 d0 s).sim.ydot = s.sim.ydot
      ∧ (do_input c0 m0 d0 s).sim.h = s.sim.h
      ∧ (do_input c0 m0 d0 s).sim.hdot = s.sim.hdot := by
  have hgs : s.global_state = GS_RIPPLE := by
    rw [hs, (check_for_input_frame 0 1 _).1, hrip]
  have hlk : s.lockout_state = LS_NORMAL := by
    rw [hs, (check_for_input_frame 0 1 _).2.2.1]
    exact reachable_lockout_normal p s0 hr (by rw [hrip]; decide)
  exact do_input_directional_ripple c0 m0 d0 s chan mag dur hgs hlk hev hc

theorem C38_ripple_no_gate_witness :
    Reachable default_params (environment 1 [] ("C1M5D0".toList ++ [NL]) ripple_after_pebble)
      ∧ (environment 1 [] ("C1M5D0".toList ++ [NL]) ripple_after_pebble).global_state
          = GS_RIPPLE
      ∧ sscanf_CMD (c_str (polled_in_ripple ("C1M5D0".toList ++ [NL])).msg) 0 0 0
          = (3, 1, 5, 0)
      ∧ (do_input 0 0 0 (polled_in_ripple ("C1M5D0".toList ++ [NL]))).global_state = GS_RIPPLE
      ∧ (do_input 0 0 0 (polled_in_ripple ("C1M5D0".toList ++ [NL]))).sim.x 1 = 1 / 2 := by
  have hreach : Reachable default_params
      (environment 1 [] ("C1M5D0".toList ++ [NL]) ripple_after_pebble) :=
    Reachable.env _ _ _ (Reachable.tick _ _ _ (Reachable.env _ _ _
      (Reachable.tick _ _ _ (Reachable.env _ _ _ Reachable.init))))
  have h := C38_ripple_no_gate default_params 0 0 0
    (environment 1 [] ("C1M5D0".toList ++ [NL]) ripple_after_pebble)
    (polled_in_ripple ("C1M5D0".toList ++ [NL])) 1 5 0 hreach rfl rfl (by decide)
    (Or.inr (Or.inl rfl))
  refine ⟨hreach, rfl, by decide, h.1, ?_⟩
  have hp : pebble_position 1 = 1 := rfl
  have hx := h.2.1
  rw [hp] at hx
  rw [hx]
  norm_num

theorem check_for_input_vertical_only (s : State) :
    (check_for_input 0 1 s).1.hpipe = s.hpipe := by
  unfold check_for_input
  simp only [ne_eq, not_true_eq_false, if_false, false_and]
  split_ifs <;> rfl

theorem do_input_hpipe (c m d : Int) (s : State) : (do_input c m d s).hpipe = s.hpipe := by
  unfold do_input
  dsimp only
  split_ifs <;>
    simp [set_ls, set_ds, LS_LOCKOUT, LS_NORMAL, DS_NODUMP, DS_DUMP, (set_gs_frame _ s).2.2.1]

/-- The last part of an iteration (a possible `set_gs`, then `statecount++`) leaves the
simulator and both FIFOs alone. -/
theorem finish_frame (Q : Prop) [Decidable Q] (t : Int) (u : State) :
    ({ (if Q then set_gs t u else u) with
        statecount := (if Q then set_gs t u else u).statecount + 1 } : State).sim = u.sim
      ∧ ({ (if Q then set_gs t u else u) with
        statecount := (if Q then set_gs t u else u).statecount + 1 } : State).hpipe = u.hpipe
      ∧ ({ (if Q then set_gs t u else u) with
        statecount := (if Q then set_gs t u else u).statecount + 1 } : State).vpipe = u.vpipe
      ∧ ({ (if Q then set_gs t u else u) with
        statecount := (if Q then set_gs t u else u).statecount + 1 } : State).small = u.small
    := by
  by_cases hq : Q
  · simp only [if_pos hq]
    exact ⟨(set_gs_frame t u).1, (set_gs_frame t u).2.2.1, (set_gs_frame t u).2.2.2.1,
      (set_gs_frame t u).2.2.2.2.2⟩
  · simp only [if_neg hq, and_self]

/-- C33: in mode Ripple one iteration of the main loop leaves the horizontal FIFO as it
was (bytes are consumed from the vertical FIFO only).  In a reachable Ripple state, a
directional event (channel 0..3) with magnitude at least 10 returned by the poll is
handled before the simulator step: in the state `pre` after `do_input` the mode is still
Ripple, the displacement at the mapped position (0 to 19, 1 to 1, 2 and 3 to 10) is
`mag / 10` and the rest of the simulator is unchanged, and the simulator at the end of the
iteration is `sim_update` applied to the simulator of `pre`. -/
theorem C33_ripple_event_then_advance (p : Params) (c0 m0 d0 : Int) (s pre : State)
    (hr : Reachable p s) (hrip : s.global_state = GS_RIPPLE)
    (hpre : pre = do_input c0 m0 d0 (check_for_input 0 1 s).1) :
    (tick p c0 m0 d0 s).hpipe = s.hpipe
      ∧ (∀ chan mag dur : Int, (check_for_input 0 1 s).2 ≠ 0 →
          sscanf_CMD (c_str (check_for_input 0 1 s).1.msg) c0 m0 d0 = (3, chan, mag, dur) →
          (chan = 0 ∨ chan = 1 ∨ chan = 2 ∨ chan = 3) → 10 ≤ mag →
          pre.global_state = GS_RIPPLE
            ∧ pre.sim.x (pebble_position chan) = (mag : ℚ) / 10
            ∧ (∀ i : Fin LEN, i ≠ pebble_position chan → pre.sim.x i = s.sim.x i)
            ∧ pre.sim.xdot = s.sim.xdot ∧ pre.sim.h = s.sim.h ∧ pre.sim.hdot = s.sim.hdot
            ∧ (tick p c0 m0 d0 s).sim = sim_update p pre.sim) := by
  have hcf := check_for_input_frame 0 1 s
  constructor
  · rw [tick_ripple p c0 m0 d0 s hrip _ rfl]
    have hh : (advance_and_map p (if (check_for_input 0 1 s).2 ≠ 0
        then do_input c0 m0 d0 (check_for_input 0 1 s).1 else (check_for_input 0 1 s).1)).hpipe
        = s.hpipe := by
      rw [(advance_and_map_frame p _).2.2.2.2.2.1]
      by_cases hq : (check_for_input 0 1 s).2 ≠ 0
      · rw [if_pos hq, do_input_hpipe, check_for_input_vertical_only]
      · rw [if_neg hq, check_for_input_vertical_only]
    exact ((finish_frame _ _ _).2.1).trans hh
  · intro chan mag dur hpoll hev hc _
    have hgs : (check_for_input 0 1 s).1.global_state = GS_RIPPLE := by rw [hcf.1, hrip]
    have hlk : (check_for_input 0 1 s).1.lockout_state = LS_NORMAL := by
      rw [hcf.2.2.1]
      exact reachable_lockout_normal p s hr (by rw [hrip]; decide)
    have hd := do_input_directional_ripple c0 m0 d0 _ chan mag dur hgs hlk hev hc
    rw [← hpre, hcf.2.2.2.1] at hd
    refine ⟨hd.1, hd.2.1, hd.2.2.1, hd.2.2.2.1, hd.2.2.2.2.2.2.1, hd.2.2.2.2.2.2.2, ?_⟩
    rw [tick_ripple p c0 m0 d0 s hrip _ rfl, if_pos hpoll, ← hpre]
    exact ((finish_frame _ _ _).1).trans (advance_and_map_frame p pre).2.2.2.1

theorem C33_ripple_event_then_advance_witness :
    Reachable default_params (environment 1 [] ("C1M50D0".toList ++ [NL]) ripple_after_pebble)
      ∧ (environment 1 [] ("C1M50D0".toList ++ [NL]) ripple_after_pebble).global_state
          = GS_RIPPLE
      ∧ (tick default_params 0 0 0
          (environment 1 [] ("C1M50D0".toList ++ [NL]) ripple_after_pebble)).hpipe
          = (environment 1 [] ("C1M50D0".toList ++ [NL]) ripple_after_pebble).hpipe
      ∧ (do_input 0 0 0 (polled_in_ripple ("C1M50D0".toList ++ [NL]))).global_state
          = GS_RIPPLE
      ∧ (tick default_params 0 0 0
          (environment 1 [] ("C1M50D0".toList ++ [NL]) ripple_after_pebble)).sim
          = sim_update default_params
              (do_input 0 0 0 (polled_in_ripple ("C1M50D0".toList ++ [NL]))).sim := by
  have hreach : Reachable default_params
      (environment 1 [] ("C1M50D0".toList ++ [NL]) ripple_after_pebble) :=
    Reachable.env _ _ _ (Reachable.tick _ _ _ (Reachable.env _ _ _
      (Reachable.tick _ _ _ (Reachable.env _ _ _ Reachable.init))))
  have h := C33_ripple_event_then_advance default_params 0 0 0
    (environment 1 [] ("C1M50D0".toList ++ [NL]) ripple_after_pebble)
    (do_input 0 0 0 (polled_in_ripple ("C1M50D0".toList ++ [NL]))) hreach rfl rfl
  have he := h.2 1 50 0 (by decide) (by decide) (Or.inr (Or.inl rfl)) (by decide)
  exact ⟨hreach, rfl, h.1, he.1, he.2.2.2.2.2.2⟩

/-! ## What the mapper is given -/

theorem map_hstate_spec (p : Params) (h : ℚ) (s : State) :
    (map_hstate p h s).values
      = horiz (spec_horizontal_command p.hthresh h).1 (spec_horizontal_command p.hthresh h).2
          s.values := by
  unfold map_hstate spec_horizontal_command
  split_ifs <;> rfl

theorem advance_and_map_dataflow (p : Params) (s : State) :
    (advance_and_map p s).values
        = horiz (spec_horizontal_command p.hthresh (sim_update p s.sim).h).1
            (spec_horizontal_command p.hthresh (sim_update p s.sim).h).2
            (issue_vertical (spec_map_vertical p.bias p.thresh (sim_update p s.sim).x) s.values)
      ∧ (advance_and_map p s).small
        = (if ∀ i : Fin LEN,
              spec_vertical_command p.bias p.thresh ((sim_update p s.sim).x i) = 0
            then 1 else 0) := by
  constructor
  · unfold advance_and_map
    dsimp only
    rw [map_hstate_spec]
    unfold map_state_array spec_map_vertical
    dsimp only
    rw [map_state_fold_values]
  · have h1 : (advance_and_map p s).small
        = (map_state_array p (sim_update p s.sim).x { s with sim := sim_update p s.sim }).small
        := by
      unfold advance_and_map map_hstate
      dsimp only
      split_ifs <;> rfl
    rw [h1]
    unfold map_state_array
    dsimp only
    rw [map_state_fold_flag]
    simp [List.mem_finRange]

theorem set_gs_values_dump (t : Int) (u : State) (ht : t = GS_BREATHE ∨ t = GS_RIPPLE) :
    (set_gs t u).values = u.values ∨ (set_gs t u).values = power_on (pump_off u.values) := by
  unfold set_gs
  rcases ht with ht | ht <;> subst ht <;> split_ifs <;>
    first
      | exact Or.inl rfl
      | (exfalso
         simp_all [GS_SLEEP, GS_BREATHE, GS_ACTIVE, GS_RIPPLE]
         done)
      | (right
         simp [set_ls, set_ds, LS_NORMAL, LS_LOCKOUT, DS_DUMP, DS_NODUMP])

/-- C34: on every Active or Ripple iteration of the main loop (`pre` is the state in
which the simulator step is entered: the old state in Active, the state after event
polling in Ripple), the simulator at the end of the iteration is `sim_update` of that of
`pre`; the registers after the mapping are those obtained by issuing the vertical
commands for this post-update displacement field and then the horizontal command for
this post-update `h`; the all-neutral flag is the one of this field; and the registers at
the end of the iteration are those, up to the pump and power writes of a mode
transition. -/
theorem C34_mapper_inputs (p : Params) (c m d : Int) (s pre : State)
    (hmode : (s.global_state = GS_ACTIVE ∧ pre = s)
      ∨ (s.global_state = GS_RIPPLE
          ∧ pre = if (check_for_input 0 1 s).2 ≠ 0 then do_input c m d (check_for_input 0 1 s).1
                  else (check_for_input 0 1 s).1)) :
    (tick p c m d s).sim = sim_update p pre.sim
      ∧ (advance_and_map p pre).values
          = horiz (spec_horizontal_command p.hthresh (tick p c m d s).sim.h).1
              (spec_horizontal_command p.hthresh (tick p c m d s).sim.h).2
              (issue_vertical (spec_map_vertical p.bias p.thresh (tick p c m d s).sim.x)
                pre.values)
      ∧ (tick p c m d s).small
          = (if ∀ i : Fin LEN,
                spec_vertical_command p.bias p.thresh ((tick p c m d s).sim.x i) = 0
              then 1 else 0)
      ∧ ((tick p c m d s).values = (advance_and_map p pre).values
          ∨ (tick p c m d s).values = power_on (pump_off (advance_and_map p pre).values)) := by
  have hflow := advance_and_map_dataflow p pre
  have hsim := (advance_and_map_frame p pre).2.2.2.1
  have key : ∀ (Q : Prop) [Decidable Q] (t : Int), (t = GS_BREATHE ∨ t = GS_RIPPLE) →
      tick p c m d s = { (if Q then set_gs t (advance_and_map p pre) else advance_and_map p pre)
        with statecount := (if Q then set_gs t (advance_and_map p pre)
          else advance_and_map p pre).statecount + 1 } →
      (tick p c m d s).sim = sim_update p pre.sim
        ∧ (tick p c m d s).small = (advance_and_map p pre).small
        ∧ ((tick p c m d s).values = (advance_and_map p pre).values
          ∨ (tick p c m d s).values = power_on (pump_off (advance_and_map p pre).values)) := by
    intro Q _ t ht he
    rw [he]
    refine ⟨((finish_frame Q t _).1).trans hsim, (finish_frame Q t _).2.2.2, ?_⟩
    by_cases hq : Q
    · simp only [if_pos hq]
      exact set_gs_values_dump t _ ht
    · simp only [if_neg hq]
      exact Or.inl trivial
  have hk : (tick p c m d s).sim = sim_update p pre.sim
      ∧ (tick p c m d s).small = (advance_and_map p pre).small
      ∧ ((tick p c m d s).values = (advance_and_map p pre).values
        ∨ (tick p c m d s).values = power_on (pump_off (advance_and_map p pre).values)) := by
    rcases hmode with ⟨ha, hp⟩ | ⟨hr, hp⟩
    · subst hp
      exact key _ GS_RIPPLE (Or.inr rfl) (tick_active p c m d pre ha)
    · exact key _ GS_BREATHE (Or.inl rfl) (tick_ripple p c m d s hr _ (by rw [hp]))
  rw [hk.1]
  exact ⟨rfl, hflow.1, hk.2.1.trans hflow.2, hk.2.2⟩

theorem C34_mapper_inputs_witness :
    (active_after_quake.global_state = GS_ACTIVE ∧ active_after_quake = active_after_quake)
      ∧ (tick default_params 0 0 0 active_after_quake).sim
          = sim_update default_params active_after_quake.sim
      ∧ (advance_and_map default_params active_after_quake).values
          = horiz
              (spec_horizontal_command default_params.hthresh
                (tick default_params 0 0 0 active_after_quake).sim.h).1
              (spec_horizontal_command default_params.hthresh
                (tick default_params 0 0 0 active_after_quake).sim.h).2
              (issue_vertical
                (spec_map_vertical default_params.bias default_params.thresh
                  (tick default_params 0 0 0 active_after_quake).sim.x)
                active_after_quake.values) := by
  have h := C34_mapper_inputs default_params 0 0 0 active_after_quake active_after_quake
    (Or.inl ⟨rfl, rfl⟩)
  exact ⟨⟨rfl, rfl⟩, h.1, h.2.1⟩

/-! ## Array indices stay in range -/

theorem do_input_inject_sim (c m d : Int) (s : State) :
    (∀ pos e, do_input_inject c m d s = some (pos, e) →
        (do_input c m d s).sim = sim_drop_pebble pos e s.sim)
      ∧ (do_input_inject c m d s = none → (do_input c m d s).sim.x = s.sim.x) := by
  have hr := (set_gs_frame GS_RIPPLE s).1
  have ha := (set_gs_frame GS_ACTIVE s).1
  unfold do_input_inject do_input
  dsimp only
  split_ifs <;>
    simp [hr, ha, set_ls, set_ds, LS_LOCKOUT, LS_NORMAL, DS_NODUMP, DS_DUMP, sim_tickle_horiz]

theorem sim_update_accesses_range : ∀ j ∈ sim_update_accesses, 0 ≤ j ∧ j < (LEN : Int) := by
  intro j hj
  have hl : ((LEN : Nat) : Int) = 21 := rfl
  rw [hl]
  unfold sim_update_accesses at hj
  rcases List.mem_append.mp hj with hj1 | hj3
  · rcases List.mem_append.mp hj1 with hj1 | hj2
    · obtain ⟨a, ha, h⟩ := List.mem_flatMap.mp hj1
      obtain ⟨k, hk, rfl⟩ := List.mem_map.mp ha
      have hk2 : k < 19 := List.mem_range.mp hk
      simp only [List.mem_cons, List.mem_singleton, List.not_mem_nil, or_false] at h
      omega
    · obtain ⟨a, ha, h⟩ := List.mem_flatMap.mp hj2
      obtain ⟨k, hk, rfl⟩ := List.mem_map.mp ha
      have hk2 : k < 21 := List.mem_range.mp hk
      simp only [List.mem_cons, List.mem_singleton, List.not_mem_nil, or_false] at h
      omega
  · obtain ⟨a, ha, h⟩ := List.mem_flatMap.mp hj3
    obtain ⟨k, hk, rfl⟩ := List.mem_map.mp ha
    have hk2 : k < 21 := List.mem_range.mp hk
    simp only [List.mem_cons, List.mem_singleton, List.not_mem_nil, or_false] at h
    omega

/-- C31: every position that `do_input` passes to `sim_drop_pebble` is one of 19, 1 and 10
and hence satisfies `1 ≤ position ≤ LEN - 2` with `LEN = 21` (`do_input_inject` gives the
arguments of that call, and the simulator after `do_input` is the pebble at exactly that
position, or has the old displacements when there is no call); and every array index
read or written by one `sim_update`, the `i-1` and `i+1` of the stencil included, lies in
`0 .. LEN-1`. -/
theorem C31_indices_in_range (c m d : Int) (s : State) :
    (∀ pos e, do_input_inject c m d s = some (pos, e) →
        (pos = 19 ∨ pos = 1 ∨ pos = 10) ∧ 1 ≤ pos ∧ pos ≤ LEN - 2
          ∧ (do_input c m d s).sim = sim_drop_pebble pos e s.sim)
      ∧ (do_input_inject c m d s = none → (do_input c m d s).sim.x = s.sim.x)
      ∧ (∀ j ∈ sim_update_accesses, 0 ≤ j ∧ j < (LEN : Int)) := by
  refine ⟨?_, (do_input_inject_sim c m d s).2, sim_update_accesses_range⟩
  intro pos e h
  have hsim := (do_input_inject_sim c m d s).1 pos e h
  have hpos : pos = 19 ∨ pos = 1 ∨ pos = 10 := by
    unfold do_input_inject at h
    dsimp only at h
    split_ifs at h <;> simp at h <;> omega
  refine ⟨hpos, ?_, ?_, hsim⟩
  · rcases hpos with r | r | r <;> rw [r] <;> decide
  · rcases hpos with r | r | r <;> rw [r] <;> decide

theorem C31_indices_in_range_witness :
    do_input_inject 0 0 0 (polled_in_ripple ("C1M50D0".toList ++ [NL]))
        = some (1, ((50 : Int) : ℚ) / 10)
      ∧ ((1 : Nat) = 19 ∨ (1 : Nat) = 1 ∨ (1 : Nat) = 10) ∧ 1 ≤ 1 ∧ 1 ≤ LEN - 2
      ∧ (do_input 0 0 0 (polled_in_ripple ("C1M50D0".toList ++ [NL]))).sim
          = sim_drop_pebble 1 (((50 : Int) : ℚ) / 10)
              (polled_in_ripple ("C1M50D0".toList ++ [NL])).sim :=
  ⟨rfl, (C31_indices_in_range 0 0 0 (polled_in_ripple ("C1M50D0".toList ++ [NL]))).1 1
    (((50 : Int) : ℚ) / 10) rfl⟩

/-! ## Finite propagation speed -/

/-- Displacement and velocity vanish further than `k` from `pos`, and the two boundary
entries of the velocity buffer vanish. -/
theorem support_step (prm : Params) (pos k : Nat) (s : Sim)
    (h : ∀ i : Fin LEN, (i.val + k < pos ∨ pos + k < i.val) → s.x i = 0 ∧ s.xdot i = 0)
    (hb : s.ydot 0 = 0 ∧ s.ydot 20 = 0) :
    (∀ i : Fin LEN, (i.val + (k + 1) < pos ∨ pos + (k + 1) < i.val) →
        (sim_update prm s).x i = 0 ∧ (sim_update prm s).xdot i = 0)
      ∧ ((sim_update prm s).ydot 0 = 0 ∧ (sim_update prm s).ydot 20 = 0) := by
  have hb0 : ¬ (1 ≤ (0 : Fin LEN).val ∧ (0 : Fin LEN).val + 1 < LEN) := by decide
  have hb20 : ¬ (1 ≤ (20 : Fin LEN).val ∧ (20 : Fin LEN).val + 1 < LEN) := by decide
  constructor
  · intro i hi
    have hi0 := h i (by omega)
    constructor
    · rw [sim_update_x, hi0.1, hi0.2]
      ring
    · by_cases hint : 1 ≤ i.val ∧ i.val + 1 < LEN
      · have hup := h ⟨i.val + 1, hint.2⟩ (by
          show i.val + 1 + k < pos ∨ pos + k < i.val + 1
          omega)
        have hdn := h ⟨i.val - 1, by omega⟩ (by
          show i.val - 1 + k < pos ∨ pos + k < i.val - 1
          omega)
        rw [sim_update_xdot_interior prm s i hint, hi0.1, hi0.2, hup.1, hdn.1]
        ring
      · rw [sim_update_xdot_boundary prm s i hint]
        rcases boundary_index i hint with h0 | h0 <;> rw [h0]
        · exact hb.1
        · exact hb.2
  · rw [sim_update_ydot, sim_update_xdot_boundary prm s 0 hb0,
      sim_update_xdot_boundary prm s 20 hb20]
    exact hb

theorem support_iterate (prm : Params) (pos : Nat) (m : ℚ) (k : Nat) :
    (∀ i : Fin LEN, (i.val + k < pos ∨ pos + k < i.val) →
        ((sim_update prm)^[k] (sim_drop_pebble pos m sim_init)).x i = 0
          ∧ ((sim_update prm)^[k] (sim_drop_pebble pos m sim_init)).xdot i = 0)
      ∧ (((sim_update prm)^[k] (sim_drop_pebble pos m sim_init)).ydot 0 = 0
          ∧ ((sim_update prm)^[k] (sim_drop_pebble pos m sim_init)).ydot 20 = 0) := by
  induction k with
  | zero =>
    refine ⟨?_, rfl, rfl⟩
    intro i hi
    have hne : ¬ i.val = pos := by omega
    refine ⟨?_, rfl⟩
    show (if i.val = pos then m else (0 : ℚ)) = 0
    rw [if_neg hne]
  | succ k ih =>
    rw [Function.iterate_succ_apply']
    exact support_step prm pos k _ ih.1 ih.2

/-- C32: starting from the all-zero state `sim_init` with a single
`sim_drop_pebble pos m` at an interior position, for every `k ≥ 0` the displacement and
the velocity after `k` calls of `sim_update` are zero at every index whose distance from
`pos` is greater than `k`. -/
theorem C32_finite_propagation (prm : Params) (pos : Nat) (m : ℚ) (k : Nat) (i : Fin LEN)
    (_hpos : 1 ≤ pos ∧ pos ≤ LEN - 2) (hi : i.val + k < pos ∨ pos + k < i.val) :
    ((sim_update prm)^[k] (sim_drop_pebble pos m sim_init)).x i = 0
      ∧ ((sim_update prm)^[k] (sim_drop_pebble pos m sim_init)).xdot i = 0 :=
  (support_iterate prm pos m k).1 i hi

theorem C32_finite_propagation_witness :
    (1 ≤ 10 ∧ 10 ≤ LEN - 2) ∧ ((15 : Fin LEN).val + 3 < 10 ∨ 10 + 3 < (15 : Fin LEN).val)
      ∧ ((sim_update default_params)^[3] (sim_drop_pebble 10 5 sim_init)).x 15 = 0
      ∧ ((sim_update default_params)^[3] (sim_drop_pebble 10 5 sim_init)).xdot 15 = 0 :=
  ⟨by decide, by decide,
    C32_finite_propagation default_params 10 5 3 15 (by decide) (by decide)⟩

/-! ## Each actuator call writes only its own bits -/

theorem out_bit_set_o_other (reg bit r k : Nat) (values : Fin 6 → Nat) (hk : k < 8)
    (h : ¬ (r = reg ∧ k = bit)) :
    out_bit (set_o reg bit values) r k = out_bit values r k := by
  rw [out_bit_set_o]
  split_ifs with h1
  · have h2 : ¬ bit = k := fun e => h ⟨h1.1, e.symm⟩
    simp [hk, h2]
  · rfl

theorem out_bit_clr_o_other (reg bit r k : Nat) (values : Fin 6 → Nat) (hk : k < 8)
    (h : ¬ (r = reg ∧ k = bit)) :
    out_bit (clr_o reg bit values) r k = out_bit values r k := by
  rw [out_bit_clr_o]
  split_ifs with h1
  · have h2 : ¬ bit = k := fun e => h ⟨h1, e.symm⟩
    simp [hk, h2]
  · rfl

/-- Two different entries of the cylinder table share no bit position. -/
theorem vcylinder_bits_disjoint :
    ∀ i j : Fin LEN, i ≠ j →
      ¬ ((vcylinder_list.getD i.val ⟨0, 0, 0, 0⟩).outword
            = (vcylinder_list.getD j.val ⟨0, 0, 0, 0⟩).outword
          ∧ (vcylinder_list.getD i.val ⟨0, 0, 0, 0⟩).outbit
            = (vcylinder_list.getD j.val ⟨0, 0, 0, 0⟩).outbit)
        ∧ ¬ ((vcylinder_list.getD i.val ⟨0, 0, 0, 0⟩).outword
            = (vcylinder_list.getD j.val ⟨0, 0, 0, 0⟩).inword
          ∧ (vcylinder_list.getD i.val ⟨0, 0, 0, 0⟩).outbit
            = (vcylinder_list.getD j.val ⟨0, 0, 0, 0⟩).inbit)
        ∧ ¬ ((vcylinder_list.getD i.val ⟨0, 0, 0, 0⟩).inword
            = (vcylinder_list.getD j.val ⟨0, 0, 0, 0⟩).inword
          ∧ (vcylinder_list.getD i.val ⟨0, 0, 0, 0⟩).inbit
            = (vcylinder_list.getD j.val ⟨0, 0, 0, 0⟩).inbit) := by
  decide

/-- C37: for every register contents, every cylinder index `i` in `0..20` (with table
entry `c`) and every command, `set_vcyl i` changes no output bit (bit `k < 8` of a
register) other than the extend and retract bits of cylinder `i`; `horiz` changes only
bits 2 and 3 of register 5, `pump_on`/`pump_off` only bit 6 and `power_on`/`power_off` only
bit 7 of register 5.  The bits of cylinder `i` belong to no other cylinder and are none
of bits 2..7 of register 5, so no actuator call alters a bit of another actuator. -/
theorem C37_actuator_frame (values : Fin 6 → Nat) (i : Fin LEN) (state dir : Int) (mag : Nat)
    (c : cylinder) (hc : vcylinder_list[i.val]? = some c) :
    (∀ r k, k < 8 → ¬ (r = c.outword ∧ k = c.outbit) → ¬ (r = c.inword ∧ k = c.inbit) →
        out_bit (set_vcyl i.val state values) r k = out_bit values r k)
      ∧ (∀ r k, k < 8 → ¬ (r = 5 ∧ k = 2) → ¬ (r = 5 ∧ k = 3) →
        out_bit (horiz dir mag values) r k = out_bit values r k)
      ∧ (∀ r k, k < 8 → ¬ (r = 5 ∧ k = 6) →
        out_bit (pump_on values) r k = out_bit values r k
          ∧ out_bit (pump_off values) r k = out_bit values r k)
      ∧ (∀ r k, k < 8 → ¬ (r = 5 ∧ k = 7) →
        out_bit (power_on values) r k = out_bit values r k
          ∧ out_bit (power_off values) r k = out_bit values r k)
      ∧ (∀ (j : Fin LEN) (c' : cylinder), vcylinder_list[j.val]? = some c' → j ≠ i →
        ¬ (c'.outword = c.outword ∧ c'.outbit = c.outbit)
          ∧ ¬ (c'.outword = c.inword ∧ c'.outbit = c.inbit)
          ∧ ¬ (c'.inword = c.outword ∧ c'.inbit = c.outbit)
          ∧ ¬ (c'.inword = c.inword ∧ c'.inbit = c.inbit))
      ∧ ((c.outword = 5 → c.outbit ≤ 1) ∧ (c.inword = 5 → c.inbit ≤ 1)) := by
  refine ⟨?_, ?_, ?_, ?_, ?_, vcylinder_list_reg5 c (List.getElem?_mem hc)⟩
  · intro r k hk ho hi
    unfold set_vcyl
    rw [hc]
    dsimp only
    split_ifs
    · rw [out_bit_set_o_other _ _ _ _ _ hk ho, out_bit_clr_o_other _ _ _ _ _ hk hi]
    · rw [out_bit_set_o_other _ _ _ _ _ hk hi, out_bit_clr_o_other _ _ _ _ _ hk ho]
    · rw [out_bit_clr_o_other _ _ _ _ _ hk ho, out_bit_clr_o_other _ _ _ _ _ hk hi]
    · rfl
  · intro r k hk h2 h3
    unfold horiz
    split_ifs
    · rw [out_bit_set_o_other _ _ _ _ _ hk h2, out_bit_clr_o_other _ _ _ _ _ hk h3]
    · rw [out_bit_clr_o_other _ _ _ _ _ hk h3, out_bit_clr_o_other _ _ _ _ _ hk h2]
    · rw [out_bit_set_o_other _ _ _ _ _ hk h3, out_bit_clr_o_other _ _ _ _ _ hk h2]
    · rfl
  · intro r k hk h6
    exact ⟨out_bit_set_o_other _ _ _ _ _ hk h6, out_bit_clr_o_other _ _ _ _ _ hk h6⟩
  · intro r k hk h7
    exact ⟨out_bit_set_o_other _ _ _ _ _ hk h7, out_bit_clr_o_other _ _ _ _ _ hk h7⟩
  · intro j c' hc' hne
    have hd := vcylinder_bits_disjoint j i hne
    have hd' := vcylinder_bits_disjoint i j (Ne.symm hne)
    have e1 : vcylinder_list.getD i.val ⟨0, 0, 0, 0⟩ = c := by
      rw [List.getD_eq_getElem?_getD, hc]; rfl
    have e2 : vcylinder_list.getD j.val ⟨0, 0, 0, 0⟩ = c' := by
      rw [List.getD_eq_getElem?_getD, hc']; rfl
    rw [e1, e2] at hd hd'
    exact ⟨hd.1, hd.2.1, fun h => hd'.2.1 ⟨h.1.symm, h.2.symm⟩, hd.2.2⟩

theorem C37_actuator_frame_witness :
    vcylinder_list[(20 : Fin LEN).val]? = some ⟨5, 0, 5, 1⟩
      ∧ (∀ r k, k < 8 → ¬ (r = 5 ∧ k = 0) → ¬ (r = 5 ∧ k = 1) →
          out_bit (set_vcyl (20 : Fin LEN).val 1 (fun _ => 255)) r k
            = out_bit (fun _ => 255) r k) :=
  ⟨rfl, (C37_actuator_frame (fun _ => 255) 20 1 0 0 ⟨5, 0, 5, 1⟩ rfl).1⟩

/-! ## A bare line terminator on the horizontal FIFO -/

/-- C35 (the code at the failing input): in the reachable Breathe state with the line
`C0M50D100` on the vertical FIFO, when the horizontal FIFO holds only a line terminator
the poll of both FIFOs returns 1 but the buffer holds the terminator followed by
`C0M50D10` (the line is stored from `msg[1]` on and cut at `msglen`), so `do_input` drops
it: the mode stays Breathe and no pebble is injected; with the horizontal FIFO empty the
same line gives mode Ripple and displacement 5 at position 19. -/
theorem C35_bare_newline_hides_event :
    (check_for_input 1 1 (breathe_process default_params
        (environment 1 [NL] ("C0M50D100".toList ++ [NL]) breathe_awake))).2 = 1
      ∧ c_str (check_for_input 1 1 (breathe_process default_params
          (environment 1 [NL] ("C0M50D100".toList ++ [NL]) breathe_awake))).1.msg
          = NL :: "C0M50D10".toList
      ∧ (tick default_params 0 0 0
          (environment 1 [NL] ("C0M50D100".toList ++ [NL]) breathe_awake)).global_state
          = GS_BREATHE
      ∧ (tick default_params 0 0 0
          (environment 1 [NL] ("C0M50D100".toList ++ [NL]) breathe_awake)).sim.x 19 = 0
      ∧ c_str (check_for_input 1 1 (breathe_process default_params
          (environment 1 [] ("C0M50D100".toList ++ [NL]) breathe_awake))).1.msg
          = "C0M50D100".toList
      ∧ (tick default_params 0 0 0
          (environment 1 [] ("C0M50D100".toList ++ [NL]) breathe_awake)).global_state
          = GS_RIPPLE
      ∧ (tick default_params 0 0 0
          (environment 1 [] ("C0M50D100".toList ++ [NL]) breathe_awake)).sim.x 19 = 5 := by
  refine ⟨by decide, by decide, rfl, rfl, by decide, rfl, ?_⟩
  have h : (tick default_params 0 0 0
      (environment 1 [] ("C0M50D100".toList ++ [NL]) breathe_awake)).sim.x 19
      = ((50 : Int) : ℚ) / 10 := rfl
  rw [h]
  norm_num

/-! ## The idle animation cycles through the positions -/

theorem pulse_dir_cases (j : Nat) : pulse_dir j = 1 ∨ pulse_dir j = -1 := by
  unfold pulse_dir
  split_ifs
  · exact Or.inl rfl
  · exact Or.inr rfl

theorem pulse_dir_succ (j : Nat) : pulse_dir (j + 1) = -pulse_dir j := by
  unfold pulse_dir
  have h : j % 2 = 0 ∨ j % 2 = 1 := by omega
  rcases h with h | h
  · have h1 : ¬ (j + 1) % 2 = 0 := by omega
    rw [if_pos h, if_neg h1]
  · have h1 : (j + 1) % 2 = 0 := by omega
    have h2 : ¬ j % 2 = 0 := by omega
    rw [if_pos h1, if_neg h2]
    rfl

theorem breathe_wait_pause (p : Params) (s : State) (hd : s.dir = 0)
    (hc : s.count + 1 < p.pause_time) :
    breathe_process p s = { s with count := s.count + 1 } := by
  unfold breathe_process
  have h1 : ¬ (s.dir = 1 ∨ s.dir = -1) := by rw [hd]; decide
  have h2 : ¬ (s.count + 1 ≥ p.pause_time) := by omega
  dsimp only
  rw [if_neg h1, if_pos hd, if_neg h2]

theorem breathe_fire (p : Params) (s : State) (hd : s.dir = 0)
    (hc : p.pause_time ≤ s.count + 1) :
    breathe_process p s
      = { s with count := 0, dir := s.nextdir,
                 values := set_vcyl s.vindex (-1) (horiz s.nextdir 1 s.values) } := by
  unfold breathe_process
  have h1 : ¬ (s.dir = 1 ∨ s.dir = -1) := by rw [hd]; decide
  have h2 : s.count + 1 ≥ p.pause_time := hc
  dsimp only
  rw [if_neg h1, if_pos hd, if_pos h2]

theorem breathe_wait_pulse (p : Params) (s : State) (hd : s.dir = 1 ∨ s.dir = -1)
    (hc : s.count + 1 < p.breathe_time) :
    breathe_process p s = { s with count := s.count + 1 } := by
  unfold breathe_process
  have h2 : ¬ (s.count + 1 ≥ p.breathe_time) := by omega
  dsimp only
  rw [if_pos hd, if_neg h2]

theorem breathe_release (p : Params) (s : State) (hd : s.dir = 1 ∨ s.dir = -1)
    (hc : p.breathe_time ≤ s.count + 1) :
    breathe_process p s
      = { s with count := 0, nextdir := -s.dir, dir := 0,
                 values := set_vcyl s.vindex 0 (horiz 0 0 s.values),
                 vindex := (s.vindex + 1) % LEN } := by
  unfold breathe_process
  have h2 : s.count + 1 ≥ p.breathe_time := hc
  dsimp only
  rw [if_pos hd, if_pos h2]

/-- While the pause lasts, `k` steps only advance the step counter. -/
theorem breathe_pause_steps (p : Params) (s : State) (hd : s.dir = 0) (k : Nat)
    (hc : s.count + k < p.pause_time) :
    (breathe_process p)^[k] s = { s with count := s.count + k } := by
  induction k with
  | zero => simp
  | succ k ih =>
    have hk : s.count + k < p.pause_time := by push_cast at hc; omega
    rw [Function.iterate_succ_apply', ih hk,
      breathe_wait_pause p { s with count := s.count + k } hd
        (by show s.count + k + 1 < p.pause_time; push_cast at hc; omega)]
    simp only [Nat.cast_add, Nat.cast_one, add_assoc]

/-- While the pulse lasts, `k` steps only advance the step counter. -/
theorem breathe_pulse_steps (p : Params) (s : State) (hd : s.dir = 1 ∨ s.dir = -1) (k : Nat)
    (hc : s.count + k < p.breathe_time) :
    (breathe_process p)^[k] s = { s with count := s.count + k } := by
  induction k with
  | zero => simp
  | succ k ih =>
    have hk : s.count + k < p.breathe_time := by push_cast at hc; omega
    rw [Function.iterate_succ_apply', ih hk,
      breathe_wait_pulse p { s with count := s.count + k } hd
        (by show s.count + k + 1 < p.breathe_time; push_cast at hc; omega)]
    simp only [Nat.cast_add, Nat.cast_one, add_assoc]

/-- The step that ends the pause, counted from the start of the pause. -/
theorem breathe_pause_end (p : Params) (pt : Nat) (s : State) (hp : p.pause_time = pt)
    (hpt : 1 ≤ pt) (hd : s.dir = 0) (hc : s.count = 0) :
    (breathe_process p)^[pt] s
      = { s with count := 0, dir := s.nextdir,
                 values := set_vcyl s.vindex (-1) (horiz s.nextdir 1 s.values) } := by
  obtain ⟨m, rfl⟩ : ∃ m, pt = m + 1 := ⟨pt - 1, by omega⟩
  rw [Function.iterate_succ_apply',
    breathe_pause_steps p s hd m (by rw [hp, hc]; push_cast; omega),
    breathe_fire p { s with count := s.count + m } hd
      (by show p.pause_time ≤ s.count + m + 1; rw [hp, hc]; push_cast; omega)]

/-- The step that ends the pulse, counted from the start of the pulse. -/
theorem breathe_pulse_end (p : Params) (bt : Nat) (s : State) (hb : p.breathe_time = bt)
    (hbt : 1 ≤ bt) (hd : s.dir = 1 ∨ s.dir = -1) (hc : s.count = 0) :
    (breathe_process p)^[bt] s
      = { s with count := 0, nextdir := -s.dir, dir := 0,
                 values := set_vcyl s.vindex 0 (horiz 0 0 s.values),
                 vindex := (s.vindex + 1) % LEN } := by
  obtain ⟨m, rfl⟩ : ∃ m, bt = m + 1 := ⟨bt - 1, by omega⟩
  rw [Function.iterate_succ_apply',
    breathe_pulse_steps p s hd m (by rw [hb, hc]; push_cast; omega),
    breathe_release p { s with count := s.count + m } hd
      (by show p.breathe_time ≤ s.count + m + 1; rw [hb, hc]; push_cast; omega)]

/-- One whole cycle from the start of pulse `j`: the state after `pause_time` steps, and
after `pause_time + breathe_time` steps. -/
theorem breathe_cycle (p : Params) (pt bt : Nat) (s : State) (j : Nat)
    (hp : p.pause_time = pt) (hpt : 1 ≤ pt) (hb : p.breathe_time = bt) (hbt : 1 ≤ bt)
    (hs : IdleStart s j) :
    (breathe_process p)^[pt] s
        = { s with count := 0, dir := pulse_dir j,
                   values := set_vcyl (j % LEN) (-1) (horiz (pulse_dir j) 1 s.values) }
      ∧ (breathe_process p)^[pt + bt] s
        = { s with count := 0, nextdir := pulse_dir (j + 1), dir := 0,
                   values := set_vcyl (j % LEN) 0 (horiz 0 0
                     (set_vcyl (j % LEN) (-1) (horiz (pulse_dir j) 1 s.values))),
                   vindex := (j + 1) % LEN } := by
  obtain ⟨hd, hc, hv, hn⟩ := hs
  have e1 : (breathe_process p)^[pt] s
      = { s with count := 0, dir := pulse_dir j,
                 values := set_vcyl (j % LEN) (-1) (horiz (pulse_dir j) 1 s.values) } := by
    rw [breathe_pause_end p pt s hp hpt hd hc, hv, hn]
  refine ⟨e1, ?_⟩
  have hm : (j % LEN + 1) % LEN = (j + 1) % LEN := by simp [LEN, Nat.add_mod]
  rw [Nat.add_comm pt bt, Function.iterate_add_apply, e1,
    breathe_pulse_end p bt
      { s with count := 0, dir := pulse_dir j,
               values := set_vcyl (j % LEN) (-1) (horiz (pulse_dir j) 1 s.values) }
      hb hbt (pulse_dir_cases j) rfl]
  dsimp only
  rw [hv, hm, pulse_dir_succ]

/-- Pulse `j` starts `j * (pause_time + breathe_time)` steps after the initial state. -/
theorem breathe_idle_start (p : Params) (pt bt : Nat) (s0 : State)
    (hp : p.pause_time = pt) (hpt : 1 ≤ pt) (hb : p.breathe_time = bt) (hbt : 1 ≤ bt)
    (h0 : IdleStart s0 0) (j : Nat) :
    IdleStart ((breathe_process p)^[j * (pt + bt)] s0) j := by
  induction j with
  | zero => simpa using h0
  | succ j ih =>
    have e : (j + 1) * (pt + bt) = (pt + bt) + j * (pt + bt) := by ring
    rw [e, Function.iterate_add_apply, (breathe_cycle p pt bt _ j hp hpt hb hbt ih).2]
    exact ⟨rfl, rfl, rfl, rfl⟩

/-- C36: let `s0` be the initial idle-animation state (position index 0, step counter 0,
no pulse running, next direction Right) and let `pause_time = pt ≥ 1`,
`breathe_time = bt ≥ 1`.  The state `s` reached after `j` whole cycles of `pt + bt` steps
is the start of pulse `j`: its position index is `j mod 21`, which is in `0..20`, and no
pulse is running.  From there, the first `pt - 1` steps leave the outputs alone; step
`pt` issues `horiz` with the direction of pulse `j` (Right for even `j`, Left for odd
`j`) and Retract for position `j mod 21` only, and the outputs and the position index
then stay as they are until step `pt + bt`, which issues Center and Neutral for the same
position and moves the index to `(j + 1) mod 21`. -/
theorem C36_idle_animation (p : Params) (pt bt : Nat) (s0 : State) (j : Nat)
    (hp : p.pause_time = pt) (hpt : 1 ≤ pt) (hb : p.breathe_time = bt) (hbt : 1 ≤ bt)
    (h0 : s0.vindex = 0 ∧ s0.count = 0 ∧ s0.dir = 0 ∧ s0.nextdir = 1) :
    ((breathe_process p)^[j * (pt + bt)] s0).vindex = j % LEN
      ∧ ((breathe_process p)^[j * (pt + bt)] s0).vindex < LEN
      ∧ ((breathe_process p)^[j * (pt + bt)] s0).dir = 0
      ∧ (∀ k, k < pt →
          ((breathe_process p)^[k + j * (pt + bt)] s0).values
              = ((breathe_process p)^[j * (pt + bt)] s0).values
            ∧ ((breathe_process p)^[k + j * (pt + bt)] s0).vindex = j % LEN
            ∧ ((breathe_process p)^[k + j * (pt + bt)] s0).dir = 0)
      ∧ (∀ k, pt ≤ k → k < pt + bt →
          ((breathe_process p)^[k + j * (pt + bt)] s0).values
              = set_vcyl (j % LEN) (-1) (horiz (pulse_dir j) 1
                  ((breathe_process p)^[j * (pt + bt)] s0).values)
            ∧ ((breathe_process p)^[k + j * (pt + bt)] s0).vindex = j % LEN
            ∧ ((breathe_process p)^[k + j * (pt + bt)] s0).dir = pulse_dir j)
      ∧ ((breathe_process p)^[(j + 1) * (pt + bt)] s0).values
          = set_vcyl (j % LEN) 0 (horiz 0 0 (set_vcyl (j % LEN) (-1) (horiz (pulse_dir j) 1
              ((breathe_process p)^[j * (pt + bt)] s0).values)))
      ∧ ((breathe_process p)^[(j + 1) * (pt + bt)] s0).vindex = (j + 1) % LEN
      ∧ pulse_dir 0 = 1 ∧ pulse_dir (j + 1) = -pulse_dir j := by
  have hi0 : IdleStart s0 0 := ⟨h0.2.2.1, h0.2.1, h0.1, h0.2.2.2⟩
  have hs := breathe_idle_start p pt bt s0 hp hpt hb hbt hi0 j
  have hcyc := breathe_cycle p pt bt _ j hp hpt hb hbt hs
  obtain ⟨hd, hc, hv, hn⟩ := hs
  refine ⟨hv, ?_, hd, ?_, ?_, ?_, ?_, rfl, pulse_dir_succ j⟩
  · rw [hv]; exact Nat.mod_lt _ (by decide)
  · intro k hk
    rw [Function.iterate_add_apply,
      breathe_pause_steps p _ hd k (by rw [hp, hc]; omega)]
    exact ⟨rfl, hv, hd⟩
  · intro k hk1 hk2
    obtain ⟨m, rfl⟩ : ∃ m, k = m + pt := ⟨k - pt, by omega⟩
    rw [Nat.add_assoc, Function.iterate_add_apply, Function.iterate_add_apply, hcyc.1,
      breathe_pulse_steps p
        { (breathe_process p)^[j * (pt + bt)] s0 with
            count := 0, dir := pulse_dir j,
            values := set_vcyl (j % LEN) (-1) (horiz (pulse_dir j) 1
              ((breathe_process p)^[j * (pt + bt)] s0).values) }
        (pulse_dir_cases j) m (by show (0 : Int) + m < p.breathe_time; rw [hb]; omega)]
    exact ⟨rfl, hv, rfl⟩
  · have e : (j + 1) * (pt + bt) = (pt + bt) + j * (pt + bt) := by ring
    rw [e, Function.iterate_add_apply, hcyc.2]
  · have e : (j + 1) * (pt + bt) = (pt + bt) + j * (pt + bt) := by ring
    rw [e, Function.iterate_add_apply, hcyc.2]

theorem C36_idle_animation_witness :
    ((breathe_process default_params)^[22 * (900 + 70)] init_state).vindex = 22 % LEN
      ∧ (∀ k, 900 ≤ k → k < 900 + 70 →
          ((breathe_process default_params)^[k + 22 * (900 + 70)] init_state).values
              = set_vcyl (22 % LEN) (-1) (horiz (pulse_dir 22) 1
                  ((breathe_process default_params)^[22 * (900 + 70)] init_state).values)
            ∧ ((breathe_process default_params)^[k + 22 * (900 + 70)] init_state).vindex
              = 22 % LEN
            ∧ ((breathe_process default_params)^[k + 22 * (900 + 70)] init_state).dir
              = pulse_dir 22) :=
  ⟨(C36_idle_animation default_params 900 70 init_state 22 rfl (by decide) rfl (by decide)
      ⟨rfl, rfl, rfl, rfl⟩).1,
    (C36_idle_animation default_params 900 70 init_state 22 rfl (by decide) rfl (by decide)
      ⟨rfl, rfl, rfl, rfl⟩).2.2.2.2.1⟩

/-! ## Lines longer than the message buffer -/

theorem read_line_msg_stores (l msg : List Char) (p n : Nat) :
    (read_line l msg p n).2.1 = apply_stores (read_line_stores l p) msg := by
  induction l generalizing msg p n with
  | nil => rfl
  | cons c r ih =>
    by_cases hc : c = NL
    · simp [read_line, read_line_stores, apply_stores, hc]
    · simp only [read_line, read_line_stores, if_neg hc]
      rw [ih]
      rfl

/-- The buffer after a poll is the buffer before it with the stores of the poll applied
in order, those at an index outside the buffer left out. -/
theorem check_for_input_msg_stores (hflag vflag : Int) (s : State) :
    (check_for_input hflag vflag s).1.msg
      = apply_stores (check_for_input_stores hflag vflag s) s.msg := by
  have happ : ∀ (a b : List (Nat × Char)) (m : List Char),
      apply_stores (a ++ b) m = apply_stores b (apply_stores a m) := by
    intro a b m
    unfold apply_stores
    rw [List.foldl_append]
  unfold check_for_input check_for_input_stores
  by_cases hh : hflag ≠ 0 <;> by_cases hvf : vflag ≠ 0 <;>
    simp only [hh, hvf, if_true, if_false, true_and, false_and, not_true_eq_false,
      not_false_eq_true] <;>
    first
      | rfl
      | (split_ifs <;> simp only [happ, read_line_msg_stores] <;> rfl)

end WaveSim
